import Mathlib

/-!
# modern-bbs: the navigation controller of the text UI (package `tui`)

A shallow embedding of `pkg/tui` (model.go, forums.go, topics.go, posts.go,
form.go, settings.go, admin.go, user_management.go, forum_management.go,
keys.go) together with the store records of `internal/database`.

Conventions of the embedding

* A Go pointer to a record is an `Option` of the record (`none` is `nil`). The
  program never writes through a `*database.Forum` or `*database.Topic`, so a
  pointer to a stored record is represented by the record it points to.
* A run-time panic (nil dereference, index out of range, failed type
  assertion, division by zero) is `Except.error`; a session that panics has no
  next state.
* Every sub-screen keeps a pointer `parent` to the one `mainModel` of the
  session; the sub-screen updates therefore take the parent as an argument
  and, where they write to it, return the new parent.
* `tea.Cmd` closures are defunctionalised into the type `Cmd`; what a closure
  does when the runtime executes it is `Cmd.run`.
* Calls of `internal/database` and of the widget library (bubbles list,
  textinput, textarea) are answered by an environment `Env` that is an
  argument of every update: results hold for every store and every widget
  behaviour unless a statement fixes one.
-/

namespace tui

/-! ## Records of `internal/database` -/

/-- The record `database.Forum`. -/
structure Forum where
  ID : Int
  Name : String
  Description : String
  CreatedAt : Nat
  deriving DecidableEq, Repr

/-- The record `database.Topic`. -/
structure Topic where
  ID : Int
  ForumID : Int
  UserID : Int
  Username : String
  Title : String
  CreatedAt : Nat
  deriving DecidableEq, Repr

/-- The record `database.Post`. -/
structure Post where
  ID : Int
  TopicID : Int
  UserID : Int
  Username : String
  Content : String
  CreatedAt : Nat
  deriving DecidableEq, Repr

/-- The record `database.User`. -/
structure User where
  ID : Int
  Username : String
  Role : String
  CreatedAt : Nat
  deriving DecidableEq, Repr

/-! ## Panics, pointers and slices -/

/-- A computation that may panic; the error carries the Go panic text. -/
abbrev Res (α : Type) : Type := Except String α

/-- Dereference of a pointer. -/
def deref {α : Type} (p : Option α) : Res α :=
  match p with
  | some a => .ok a
  | none => .error "invalid memory address or nil pointer dereference"

/-- Slice indexing `xs[i]` with a Go `int` index. -/
def index {α : Type} (xs : List α) (i : Int) : Res α :=
  if i < 0 then .error "index out of range"
  else
    match xs.get? i.toNat with
    | some a => .ok a
    | none => .error "index out of range"

/-- Assignment `xs[i] = a` with a Go `int` index. -/
def setIndex {α : Type} (xs : List α) (i : Int) (a : α) : Res (List α) :=
  if i < 0 then .error "index out of range"
  else if i.toNat < xs.length then .ok (xs.set i.toNat a)
  else .error "index out of range"

/-- Go `len(xs)` as an `int`. -/
def len {α : Type} (xs : List α) : Int := (xs.length : Int)

/-! ## Key messages (bubbletea `tea.KeyMsg`) and key bindings (keys.go) -/

/-- The key types of bubbletea that the program or its bindings can tell apart. -/
inductive KeyType where
  | KeyRunes | KeyEnter | KeyEsc | KeyTab | KeyShiftTab | KeyUp | KeyDown
  | KeyLeft | KeyRight | KeyBackspace | KeyDelete | KeyHome | KeyEnd
  | KeyPgUp | KeyPgDown | KeySpace | KeyCtrlC | KeyCtrlS
  deriving DecidableEq, Repr

/-- The table `keyNames` of bubbletea for the key types above. -/
def KeyType.name : KeyType → String
  | .KeyRunes => "runes"
  | .KeyEnter => "enter"
  | .KeyEsc => "esc"
  | .KeyTab => "tab"
  | .KeyShiftTab => "shift+tab"
  | .KeyUp => "up"
  | .KeyDown => "down"
  | .KeyLeft => "left"
  | .KeyRight => "right"
  | .KeyBackspace => "backspace"
  | .KeyDelete => "delete"
  | .KeyHome => "home"
  | .KeyEnd => "end"
  | .KeyPgUp => "pgup"
  | .KeyPgDown => "pgdown"
  | .KeySpace => " "
  | .KeyCtrlC => "ctrl+c"
  | .KeyCtrlS => "ctrl+s"

/-- A key press: `tea.KeyMsg` with its `Type`, `Runes` and `Alt` fields. -/
structure KeyMsg where
  Typ : KeyType
  Runes : List Char
  Alt : Bool
  deriving DecidableEq, Repr

/-- The method `String()` of a key press: the text of a rune key, the name of
any other key, with `alt+` in front when Alt is held. -/
def KeyMsg.String (k : KeyMsg) : String :=
  (if k.Alt then "alt+" else "") ++
    (if k.Typ = KeyType.KeyRunes then String.mk k.Runes else k.Typ.name)

/-- A key binding of `bubbles/key`: the key texts it answers to and its help. -/
structure Binding where
  keys : List String
  helpKey : String
  helpDesc : String
  deriving DecidableEq, Repr

/-- The type `KeyMap` of keys.go. -/
structure KeyMap where
  Up : Binding
  Down : Binding
  Enter : Binding
  Back : Binding
  Quit : Binding
  New : Binding
  Delete : Binding
  deriving DecidableEq, Repr

/-- The global `DefaultKeyMap` of keys.go; every sub-screen's `keys` field is
this value. -/
def DefaultKeyMap : KeyMap where
  Up := ⟨["up", "k"], "↑/k", "mover para cima"⟩
  Down := ⟨["down", "j"], "↓/j", "mover para baixo"⟩
  Enter := ⟨["enter"], "enter", "selecionar"⟩
  Back := ⟨["esc"], "esc", "voltar"⟩
  Quit := ⟨["q", "ctrl+c"], "q/ctrl+c", "sair"⟩
  New := ⟨["n"], "n", "novo"⟩
  Delete := ⟨["d"], "d", "deletar"⟩

/-- The test `key.Matches(msg, binding)`: the text of the key is one of the
binding's keys. -/
def Matches (k : KeyMsg) (b : Binding) : Bool :=
  b.keys.contains k.String

/-- A plain rune key, as typed on the keyboard. -/
def runeKey (c : Char) : KeyMsg := ⟨KeyType.KeyRunes, [c], false⟩

/-- A special key without Alt. -/
def specialKey (t : KeyType) : KeyMsg := ⟨t, [], false⟩

/-! ## Messages (model.go, topics.go, posts.go) -/

/-- The messages of the event loop (`tea.Msg`). A Go `error` is the text of
its `Error()`; `Option String` is an `error` that may be `nil`. -/
inductive Msg where
  | KeyMsg (k : KeyMsg)
  | WindowSizeMsg (Width Height : Int)
  | statusMessageTimeoutMsg
  | statusMessage (success : Bool) (message : String)
  | errorMsg (err : String)
  | forumsLoadedMsg (forums : List Forum)
  | usersLoadedMsg (users : List User)
  | passwordUpdatedMsg
  | topicCreatedMsg (forum : Option Forum)
  | postCreatedMsg (topic : Option Topic)
  | userCreatedMsg
  | navigateBackMsg
  | topicsLoadedMsg (topics : List Topic) (err : Option String)
  | reloadTopicsMsg
  | postsLoadedMsg (posts : List Post) (err : Option String)
  | reloadPostsMsg
  | widgetMsg (tag : Nat)
  deriving DecidableEq, Repr

/-! ## Commands -/

/-- The closures the program hands to the runtime as `tea.Cmd`, one
constructor per closure of the source, with the values the closure captures. -/
inductive Cmd where
  /-- The value `nil`: no command. -/
  | nil
  /-- The command `tea.Quit`. -/
  | Quit
  /-- The closure `func() tea.Msg { return navigateBackMsg{} }`. -/
  | navigateBack
  /-- The command `tea.Tick(time.Second*n, ...)` that yields `statusMessageTimeoutMsg`. -/
  | statusTimeout (seconds : Nat)
  /-- The command `m.spinner.Tick`. -/
  | spinnerTick
  /-- The command `textinput.Blink`. -/
  | Blink
  /-- A command returned by a widget of the library (list, textinput, textarea). -/
  | widget (tag : Nat)
  /-- The method value `forumsModel.loadForumsCmd`. -/
  | loadForumsCmd
  /-- The closure of `forumManagementModel.Init`. -/
  | forumManagementInit
  /-- The closure of `userManagementModel.Init`. -/
  | userManagementInit
  /-- The closure of `topicsModel.Init`; it reads `m.forum.ID` when it runs. -/
  | topicsInit (forum : Option Forum)
  /-- The closure of `postsModel.Init`; it reads `m.topic.ID` when it runs. -/
  | postsInit (topic : Option Topic)
  /-- The delete closure of topics.go with its captured `selectedTopicID`. -/
  | deleteTopic (selectedTopicID : Int)
  /-- The delete closure of posts.go with its captured `selectedPostID`. -/
  | deletePost (selectedPostID : Int)
  /-- The delete closure of forum_management.go with its captured `selectedForumID`. -/
  | deleteForum (selectedForumID : Int)
  /-- A closure `func() tea.Msg { return msg }` for a message built beforehand. -/
  | emit (msg : Msg)
  /-- The command `tea.Sequence(first, second)`. -/
  | Sequence (first second : Cmd)
  /-- The closure returned by the submit action of `NewUserFormModel`. -/
  | createUser (username password role : String)
  /-- The closure returned by the submit action of `NewChangePasswordFormModel`. -/
  | updatePassword (user currentPassword newPassword : String)
  /-- The closure returned by the submit action of `NewEditForumFormModel`. -/
  | updateForum (forumID : Int) (name description : String)
  /-- The closure returned by the callback that `mainModel.Update` passes to
  `NewForumFormModel`. -/
  | createForum (name description : String)
  deriving DecidableEq, Repr

/-! ## The content store and the widget library, as an environment -/

/-- A call of a function of `internal/database`. -/
inductive StoreCall where
  | GetUserByUsername (username : String)
  | GetAllUsers
  | CreateUser (username password : String)
  | UpdateUserPassword (username currentPassword newPassword : String)
  | DeleteUser (username : String)
  | AdminResetPassword (username newPassword : String)
  | SetUserRole (username role : String)
  | GetAllForums
  | CreateForum (name description : String)
  | UpdateForum (id : Int) (name description : String)
  | DeleteForum (id : Int)
  | GetTopicsByForumID (forumID : Int)
  | CreateTopic (forumID userID : Int) (title : String)
  | DeleteTopic (id : Int)
  | GetPostsByTopicID (topicID : Int)
  | CreatePost (topicID userID : Int) (content : String)
  | DeletePost (id : Int)
  deriving DecidableEq, Repr

/-- The answers of `internal/database` at one moment: for every function its
result, an `error` being `Option String` (`none` is `nil`).
`GetUserByUsername` answers `(user, passwordHash, err)`: `.ok none` is the
answer `nil, "", nil` for an unknown name. -/
structure Store where
  GetUserByUsername : String → Except String (Option (User × String))
  GetAllUsers : Except String (List User)
  CreateUser : String → String → Option String
  UpdateUserPassword : String → String → String → Option String
  DeleteUser : String → Option String
  AdminResetPassword : String → String → Option String
  SetUserRole : String → String → Option String
  GetAllForums : Except String (List Forum)
  CreateForum : String → String → Option String
  UpdateForum : Int → String → String → Option String
  DeleteForum : Int → Option String
  GetTopicsByForumID : Int → Except String (List Topic)
  CreateTopic : Int → Int → String → Option String
  DeleteTopic : Int → Option String
  GetPostsByTopicID : Int → Except String (List Post)
  CreatePost : Int → Int → String → Option String
  DeletePost : Int → Option String

/-- A field widget of a form: the wrappers `TextInput` and `TextArea` of
form_inputs.go. -/
inductive InputKind where
  | TextInput
  | TextArea
  deriving DecidableEq, Repr

/-- The state of a field widget that the program observes: its kind, its
placeholder, whether it echoes as a password, its `Value()` and its focus. -/
structure formInput where
  kind : InputKind
  Placeholder : String
  EchoPassword : Bool
  value : String
  focus : Bool
  deriving DecidableEq, Repr

/-- The type `adminMenuItem` of admin.go. -/
structure adminMenuItem where
  title : String
  desc : String
  deriving DecidableEq, Repr

/-- The bubbles `list.Model` of the admin screen: its items, its title and
size, and the widget's own state (cursor, page, filter) as one number. -/
structure ListModel where
  items : List adminMenuItem
  Title : String
  width : Int
  height : Int
  state : Nat
  deriving DecidableEq, Repr

/-- The behaviour of the widget library, which is not part of the repository:
how a focused text widget changes its value on a message, the list widget's
`Update`, `SelectedItem` and `SetSize`, and the value a text widget holds
after `SetValue` (the library trims and cleans the text). -/
structure Widgets where
  inputUpdate : InputKind → String → Msg → String × Cmd
  listUpdate : ListModel → Msg → ListModel × Cmd
  listSelectedItem : ListModel → Option adminMenuItem
  listSetSize : ListModel → Int → Int → ListModel
  setValue : InputKind → String → String

/-- The environment of one update: the store's answers and the widgets. -/
structure Env where
  db : Store
  widgets : Widgets

/-! ## The screens' state (the `parent`, `main` and `keys` pointers are left
out: the first two point to the session's `mainModel`, the last to
`DefaultKeyMap`) -/

/-- The type `view` of model.go. -/
inductive view where
  | mainMenuView
  | forumsView
  | topicsView
  | postsView
  | formView
  | settingsView
  | userManagementView
  | forumManagementView
  | adminView
  deriving DecidableEq, Repr

/-- The type `forumsModel` of forums.go. -/
structure forumsModel where
  forums : List Forum
  cursor : Int
  quitting : Bool
  navToTopics : Option Forum
  deriving DecidableEq, Repr

/-- The type `topicsModel` of topics.go. -/
structure topicsModel where
  forum : Option Forum
  topics : List Topic
  cursor : Int
  quitting : Bool
  navToPosts : Option Topic
  creatingTopic : Bool
  confirmingDelete : Bool
  deriving DecidableEq, Repr

/-- The type `postsModel` of posts.go. -/
structure postsModel where
  topic : Option Topic
  posts : List Post
  cursor : Int
  quitting : Bool
  creatingPost : Bool
  confirmingDelete : Bool
  deriving DecidableEq, Repr

/-- The type `FormField` of form.go. -/
structure FormField where
  Name : String
  Input : formInput
  deriving DecidableEq, Repr

/-- The closure stored in `formModel.submitAction`, one constructor per form
constructor of form.go, with the record the closure captures. -/
inductive SubmitAction where
  | newTopic (forum : Forum)
  | newPost (topic : Topic)
  | newUser
  | changePassword
  | editForum (forum : Forum)
  | newForum
  deriving DecidableEq, Repr

/-- The type `formModel` of form.go. -/
structure formModel where
  title : String
  fields : List FormField
  focusIndex : Int
  submitAction : SubmitAction
  quitting : Bool
  deriving DecidableEq, Repr

/-- The type `settingsModel` of settings.go. -/
structure settingsModel where
  choices : List String
  cursor : Int
  deriving DecidableEq, Repr

/-- The type `adminModel` of admin.go. -/
structure adminModel where
  list : ListModel
  navigateToUserManagement : Bool
  navigateToForumManagement : Bool
  deriving DecidableEq, Repr

/-- The type `userManagementModel` of user_management.go. -/
structure userManagementModel where
  users : List User
  cursor : Int
  selectedUser : Option User
  isSelectingAction : Bool
  actionCursor : Int
  actionChoices : List String
  isSelectingRole : Bool
  roleCursor : Int
  roleChoices : List String
  deriving DecidableEq, Repr

/-- The type `forumManagementModel` of forum_management.go. -/
structure forumManagementModel where
  forums : List Forum
  cursor : Int
  navigateToForm : Bool
  navigateToEditForm : Bool
  selectedForum : Option Forum
  confirmingDelete : Bool
  deriving DecidableEq, Repr

/-- The type `mainModel` of model.go (the spinner widget, which `Update` never
touches, is left out). -/
structure mainModel where
  User : String
  Role : String
  currentView : view
  Choices : List String
  Cursor : Int
  forumsModel : Option forumsModel
  topicsModel : Option topicsModel
  postsModel : Option postsModel
  formModel : Option formModel
  settingsModel : Option settingsModel
  userManagementModel : Option userManagementModel
  forumManagementModel : Option forumManagementModel
  adminModel : Option adminModel
  isLoading : Bool
  statusMessage : String
  breadcrumbs : List String
  deriving DecidableEq, Repr

/-! ## model.go: the initial model -/

/-- The function `InitialModel` of model.go. -/
def InitialModel (user role : String) : mainModel where
  User := user
  Role := role
  currentView := view.mainMenuView
  Choices :=
    (["Ver Fóruns", "Configurações"] ++ (if role = "admin" then ["Administração"] else []))
      ++ ["Sair"]
  Cursor := 0
  forumsModel := none
  topicsModel := none
  postsModel := none
  formModel := none
  settingsModel := none
  userManagementModel := none
  forumManagementModel := none
  adminModel := none
  isLoading := false
  statusMessage := ""
  breadcrumbs := ["Home"]

/-- The method `mainModel.Init`. -/
def mainModel.Init (_m : mainModel) : Cmd := Cmd.spinnerTick

/-! ## forums.go -/

/-- The function `NewForumsModel`. -/
def NewForumsModel : forumsModel where
  forums := []
  cursor := 0
  quitting := false
  navToTopics := none

/-- The method `forumsModel.Init`: it sets `parent.isLoading` and returns the
load command. -/
def forumsModel.Init (parent : mainModel) (recv : Option forumsModel) : Res (mainModel × Cmd) := do
  let _ ← deref recv
  .ok ({ parent with isLoading := true }, Cmd.loadForumsCmd)

/-- The method `forumsModel.Update`. The result is the parent, the receiver
and the command. -/
def forumsModel.Update (parent : mainModel) (recv : Option forumsModel) (msg : Msg) :
    Res (mainModel × Option forumsModel × Cmd) :=
  match msg with
  | .forumsLoadedMsg forums => do
      let m ← deref recv
      .ok ({ parent with isLoading := false }, some { m with forums := forums }, Cmd.nil)
  | .KeyMsg k => do
      let m ← deref recv
      if Matches k DefaultKeyMap.Up then
        .ok (parent, some (if m.cursor > 0 then { m with cursor := m.cursor - 1 } else m), Cmd.nil)
      else if Matches k DefaultKeyMap.Down then
        .ok (parent,
          some (if m.cursor < len m.forums - 1 then { m with cursor := m.cursor + 1 } else m),
          Cmd.nil)
      else if Matches k DefaultKeyMap.Enter then
        if len m.forums > 0 then do
          let f ← index m.forums m.cursor
          .ok (parent, some { m with navToTopics := some f }, Cmd.nil)
        else .ok (parent, some m, Cmd.nil)
      else if Matches k DefaultKeyMap.Back then
        .ok (parent, some m, Cmd.navigateBack)
      else if Matches k DefaultKeyMap.Quit then
        .ok (parent, some { m with quitting := true }, Cmd.Quit)
      else .ok (parent, some m, Cmd.nil)
  | _ => .ok (parent, recv, Cmd.nil)

/-! ## topics.go -/

/-- The function `NewTopicsModel`. -/
def NewTopicsModel (forum : Option Forum) : topicsModel where
  forum := forum
  topics := []
  cursor := 0
  quitting := false
  navToPosts := none
  creatingTopic := false
  confirmingDelete := false

/-- The method `topicsModel.Init`: a closure over the receiver, which reads
`m.forum.ID` only when it runs. -/
def topicsModel.Init (recv : Option topicsModel) : Cmd :=
  Cmd.topicsInit (recv.bind fun m => m.forum)

/-- The method `topicsModel.Update`. -/
def topicsModel.Update (parent : mainModel) (recv : Option topicsModel) (msg : Msg) :
    Res (Option topicsModel × Cmd) :=
  match msg with
  | .topicsLoadedMsg topics err =>
      if err ≠ none then .ok (recv, Cmd.Quit)
      else do
        let m ← deref recv
        .ok (some { m with topics := topics }, Cmd.nil)
  | .reloadTopicsMsg => .ok (recv, topicsModel.Init recv)
  | .KeyMsg k => do
      let m ← deref recv
      if m.confirmingDelete then
        if k.String = "s" ∨ k.String = "S" then
          if len m.topics > 0 then do
            let t ← index m.topics m.cursor
            .ok (some { m with confirmingDelete := false }, Cmd.deleteTopic t.ID)
          else .ok (some m, Cmd.nil)
        else if k.String = "n" ∨ k.String = "N" then
          .ok (some { m with confirmingDelete := false }, Cmd.nil)
        else .ok (some m, Cmd.nil)
      else if Matches k DefaultKeyMap.Up then
        .ok (some (if m.cursor > 0 then { m with cursor := m.cursor - 1 } else m), Cmd.nil)
      else if Matches k DefaultKeyMap.Down then
        .ok (some (if m.cursor < len m.topics - 1 then { m with cursor := m.cursor + 1 } else m),
          Cmd.nil)
      else if Matches k DefaultKeyMap.Enter then
        if len m.topics > 0 then do
          let t ← index m.topics m.cursor
          .ok (some { m with navToPosts := some t }, Cmd.nil)
        else .ok (some m, Cmd.nil)
      else if Matches k DefaultKeyMap.New then
        if parent.Role = "admin" ∨ parent.Role = "moderator" then
          .ok (some { m with creatingTopic := true }, Cmd.nil)
        else .ok (some m, Cmd.nil)
      else if Matches k DefaultKeyMap.Delete then
        if (parent.Role = "admin" ∨ parent.Role = "moderator") ∧ len m.topics > 0 then
          .ok (some { m with confirmingDelete := true }, Cmd.nil)
        else .ok (some m, Cmd.nil)
      else if Matches k DefaultKeyMap.Back then
        .ok (some m, Cmd.navigateBack)
      else if Matches k DefaultKeyMap.Quit then
        .ok (some { m with quitting := true }, Cmd.Quit)
      else .ok (some m, Cmd.nil)
  | _ => .ok (recv, Cmd.nil)

/-! ## posts.go -/

/-- The function `NewPostsModel`. -/
def NewPostsModel (topic : Option Topic) : postsModel where
  topic := topic
  posts := []
  cursor := 0
  quitting := false
  creatingPost := false
  confirmingDelete := false

/-- The method `postsModel.Init`: a closure over the receiver, which reads
`m.topic.ID` only when it runs. -/
def postsModel.Init (recv : Option postsModel) : Cmd :=
  Cmd.postsInit (recv.bind fun m => m.topic)

/-- The method `postsModel.Update`. -/
def postsModel.Update (parent : mainModel) (recv : Option postsModel) (msg : Msg) :
    Res (Option postsModel × Cmd) :=
  match msg with
  | .postsLoadedMsg posts err =>
      if err ≠ none then .ok (recv, Cmd.Quit)
      else do
        let m ← deref recv
        .ok (some { m with posts := posts }, Cmd.nil)
  | .reloadPostsMsg => .ok (recv, postsModel.Init recv)
  | .KeyMsg k => do
      let m ← deref recv
      if m.confirmingDelete then
        if k.String = "s" ∨ k.String = "S" then
          if len m.posts > 0 then do
            let p ← index m.posts m.cursor
            .ok (some { m with confirmingDelete := false }, Cmd.deletePost p.ID)
          else .ok (some m, Cmd.nil)
        else if k.String = "n" ∨ k.String = "N" then
          .ok (some { m with confirmingDelete := false }, Cmd.nil)
        else .ok (some m, Cmd.nil)
      else if Matches k DefaultKeyMap.Up then
        .ok (some (if m.cursor > 0 then { m with cursor := m.cursor - 1 } else m), Cmd.nil)
      else if Matches k DefaultKeyMap.Down then
        .ok (some (if m.cursor < len m.posts - 1 then { m with cursor := m.cursor + 1 } else m),
          Cmd.nil)
      else if Matches k DefaultKeyMap.New then
        if parent.Role ≠ "" then
          .ok (some { m with creatingPost := true }, Cmd.nil)
        else .ok (some m, Cmd.nil)
      else if Matches k DefaultKeyMap.Delete then
        if (parent.Role = "admin" ∨ parent.Role = "moderator") ∧ len m.posts > 0 then
          .ok (some { m with confirmingDelete := true }, Cmd.nil)
        else .ok (some m, Cmd.nil)
      else if Matches k DefaultKeyMap.Back then
        .ok (some m, Cmd.navigateBack)
      else if Matches k DefaultKeyMap.Quit then
        .ok (some { m with quitting := true }, Cmd.Quit)
      else .ok (some m, Cmd.nil)
  | _ => .ok (recv, Cmd.nil)

/-! ## form.go -/

/-- The function `newTextInput`. -/
def newTextInput (placeholder : String) : formInput where
  kind := InputKind.TextInput
  Placeholder := placeholder
  EchoPassword := false
  value := ""
  focus := false

/-- The function `newTextArea`. -/
def newTextArea (placeholder : String) : formInput where
  kind := InputKind.TextArea
  Placeholder := placeholder
  EchoPassword := false
  value := ""
  focus := false

/-- The method `Focus` of a field widget: the widget takes the focus and
returns the library's cursor command. -/
def formInput.Focus (i : formInput) : formInput × Cmd :=
  ({ i with focus := true }, Cmd.widget 0)

/-- The method `Blur` of a field widget. -/
def formInput.Blur (i : formInput) : formInput :=
  { i with focus := false }

/-- The methods `TextInput.Update` and `TextArea.Update` of form_inputs.go:
the library's update of the embedded widget, which ignores every message
while the widget is not focused and never changes the focus. -/
def formInput.Update (w : Widgets) (i : formInput) (msg : Msg) : formInput × Cmd :=
  if i.focus then
    ({ i with value := (w.inputUpdate i.kind i.value msg).1 }, (w.inputUpdate i.kind i.value msg).2)
  else (i, Cmd.nil)

/-- The function `NewTopicFormModel`; it reads `forum.Name` for the title. -/
def NewTopicFormModel (forum : Option Forum) : Res formModel := do
  let f ← deref forum
  .ok {
    title := "Novo Tópico em '" ++ f.Name ++ "'"
    fields := [⟨"Título", (newTextInput "Título do Tópico").Focus.1⟩]
    focusIndex := 0
    submitAction := SubmitAction.newTopic f
    quitting := false }

/-- The function `NewPostFormModel`; it reads `topic.Title` for the title. -/
def NewPostFormModel (topic : Option Topic) : Res formModel := do
  let t ← deref topic
  .ok {
    title := "Re: " ++ t.Title
    fields := [⟨"Conteúdo", (newTextArea "Escreva sua resposta...").Focus.1⟩]
    focusIndex := 0
    submitAction := SubmitAction.newPost t
    quitting := false }

/-- The function `NewUserFormModel`. -/
def NewUserFormModel : formModel where
  title := "Criar Novo Usuário"
  fields :=
    [⟨"Username", (newTextInput "Nome de Usuário").Focus.1⟩,
     ⟨"Password", { newTextInput "Senha" with EchoPassword := true }⟩,
     ⟨"Role", newTextInput "Papel (user, moderator, admin)"⟩]
  focusIndex := 0
  submitAction := SubmitAction.newUser
  quitting := false

/-- The function `NewChangePasswordFormModel`. -/
def NewChangePasswordFormModel : formModel where
  title := "Alterar Senha"
  fields :=
    [⟨"CurrentPassword", ({ newTextInput "Senha Atual" with EchoPassword := true }).Focus.1⟩,
     ⟨"NewPassword", { newTextInput "Nova Senha" with EchoPassword := true }⟩]
  focusIndex := 0
  submitAction := SubmitAction.changePassword
  quitting := false

/-- The function `NewEditForumFormModel`; it reads `forum.Name` and
`forum.Description` to fill the fields. -/
def NewEditForumFormModel (w : Widgets) (forum : Option Forum) : Res formModel := do
  let f ← deref forum
  .ok {
    title := "Editando Fórum: " ++ f.Name
    fields :=
      [⟨"Nome", ({ newTextInput "Nome do Fórum" with
          value := w.setValue InputKind.TextInput f.Name }).Focus.1⟩,
       ⟨"Descrição", { newTextArea "Descrição do Fórum" with
          value := w.setValue InputKind.TextArea f.Description }⟩]
    focusIndex := 0
    submitAction := SubmitAction.editForum f
    quitting := false }

/-- The function `NewForumFormModel`, with the callback that `mainModel.Update`
passes to it. -/
def NewForumFormModel : formModel where
  title := "Novo Fórum"
  fields :=
    [⟨"Nome", (newTextInput "Nome do Fórum").Focus.1⟩,
     ⟨"Descrição", newTextArea "Descrição do Fórum"⟩]
  focusIndex := 0
  submitAction := SubmitAction.newForum
  quitting := false

/-- The method `formModel.Init`. -/
def formModel.Init (_recv : Option formModel) : Cmd := Cmd.Blink

/-- A Go `map[string]string` as an association list without repeated keys. -/
abbrev Values : Type := List (String × String)

/-- The assignment `values[k] = v`. -/
def Values.set (vs : Values) (k v : String) : Values :=
  (k, v) :: vs.filter fun e => e.1 ≠ k

/-- The lookup `values[k]`, the empty text for a missing key. -/
def Values.get (vs : Values) (k : String) : String :=
  match vs.find? fun e => e.1 = k with
  | some e => e.2
  | none => ""

/-- The map that `formModel.submit` builds from the fields. -/
def formModel.values (m : formModel) : Values :=
  m.fields.foldl (fun vs f => vs.set f.Name f.Input.value) []

/-- The call `m.submitAction(values)`: what the stored closure does at once
(store calls included) and the command it returns. -/
def SubmitAction.call (env : Env) (parent : mainModel) (a : SubmitAction) (values : Values) :
    Res (Cmd × List StoreCall) :=
  match a with
  | .newTopic forum =>
      if values.get "Título" = "" then
        .ok (Cmd.emit (Msg.statusMessage false "O título não pode estar vazio."), [])
      else
        match env.db.GetUserByUsername parent.User with
        | .error err => .ok (Cmd.emit (Msg.errorMsg err), [StoreCall.GetUserByUsername parent.User])
        | .ok user => do
            let u ← deref user
            match env.db.CreateTopic forum.ID u.1.ID (values.get "Título") with
            | some err =>
                .ok (Cmd.emit (Msg.errorMsg err),
                  [StoreCall.GetUserByUsername parent.User,
                   StoreCall.CreateTopic forum.ID u.1.ID (values.get "Título")])
            | none =>
                .ok (Cmd.emit (Msg.topicCreatedMsg (some forum)),
                  [StoreCall.GetUserByUsername parent.User,
                   StoreCall.CreateTopic forum.ID u.1.ID (values.get "Título")])
  | .newPost topic =>
      if values.get "Conteúdo" = "" then
        .ok (Cmd.emit (Msg.statusMessage false "O conteúdo não pode estar vazio."), [])
      else
        match env.db.GetUserByUsername parent.User with
        | .error err => .ok (Cmd.emit (Msg.errorMsg err), [StoreCall.GetUserByUsername parent.User])
        | .ok user => do
            let u ← deref user
            match env.db.CreatePost topic.ID u.1.ID (values.get "Conteúdo") with
            | some err =>
                .ok (Cmd.emit (Msg.errorMsg err),
                  [StoreCall.GetUserByUsername parent.User,
                   StoreCall.CreatePost topic.ID u.1.ID (values.get "Conteúdo")])
            | none =>
                .ok (Cmd.emit (Msg.postCreatedMsg (some topic)),
                  [StoreCall.GetUserByUsername parent.User,
                   StoreCall.CreatePost topic.ID u.1.ID (values.get "Conteúdo")])
  | .newUser =>
      .ok (Cmd.createUser (values.get "Username") (values.get "Password") (values.get "Role"), [])
  | .changePassword =>
      .ok (Cmd.updatePassword parent.User (values.get "CurrentPassword")
        (values.get "NewPassword"), [])
  | .editForum forum =>
      .ok (Cmd.updateForum forum.ID (values.get "Nome") (values.get "Descrição"), [])
  | .newForum =>
      .ok (Cmd.createForum (values.get "Nome") (values.get "Descrição"), [])

/-- The method `formModel.submit`. -/
def formModel.submit (env : Env) (parent : mainModel) (m : formModel) :
    Res (Cmd × List StoreCall) :=
  m.submitAction.call env parent m.values

/-- The method `formModel.nextInput`. The remainder is Go's `%`, which agrees
with `Int.emod` here: the index was used on the line before, so it is not
negative, and the length is positive. -/
def formModel.nextInput (m : formModel) : Res (formModel × Cmd) := do
  let f ← index m.fields m.focusIndex
  let fields1 ← setIndex m.fields m.focusIndex { f with Input := f.Input.Blur }
  if len fields1 = 0 then .error "integer divide by zero"
  else do
    let i := (m.focusIndex + 1) % len fields1
    let g ← index fields1 i
    let fields2 ← setIndex fields1 i { g with Input := g.Input.Focus.1 }
    .ok ({ m with fields := fields2, focusIndex := i }, g.Input.Focus.2)

/-- The method `formModel.prevInput`. -/
def formModel.prevInput (m : formModel) : Res (formModel × Cmd) := do
  let f ← index m.fields m.focusIndex
  let fields1 ← setIndex m.fields m.focusIndex { f with Input := f.Input.Blur }
  let i := if m.focusIndex - 1 < 0 then len fields1 - 1 else m.focusIndex - 1
  let g ← index fields1 i
  let fields2 ← setIndex fields1 i { g with Input := g.Input.Focus.1 }
  .ok ({ m with fields := fields2, focusIndex := i }, g.Input.Focus.2)

/-- The last statement of `formModel.Update`: the focused field's widget
handles the message. -/
def formModel.updateFocused (env : Env) (recv : Option formModel) (msg : Msg) :
    Res (Option formModel × Cmd × List StoreCall) := do
  let m ← deref recv
  let f ← index m.fields m.focusIndex
  let fields1 ← setIndex m.fields m.focusIndex
    { f with Input := (f.Input.Update env.widgets msg).1 }
  .ok (some { m with fields := fields1 }, (f.Input.Update env.widgets msg).2, [])

/-- The method `formModel.Update`. The result is the receiver, the command and
the store calls made on the way. -/
def formModel.Update (env : Env) (parent : mainModel) (recv : Option formModel) (msg : Msg) :
    Res (Option formModel × Cmd × List StoreCall) :=
  match msg with
  | .KeyMsg k =>
      match k.Typ with
      | .KeyEnter => do
          let m ← deref recv
          let f ← index m.fields m.focusIndex
          if f.Input.kind = InputKind.TextInput then
            if m.focusIndex = len m.fields - 1 then do
              let r ← m.submit env parent
              .ok (some m, r.1, r.2)
            else do
              let r ← m.nextInput
              .ok (some r.1, r.2, [])
          else formModel.updateFocused env recv msg
      | .KeyCtrlS => do
          let m ← deref recv
          let r ← m.submit env parent
          .ok (some m, r.1, r.2)
      | .KeyTab | .KeyShiftTab => do
          let m ← deref recv
          if k.String = "tab" then do
            let r ← m.nextInput
            .ok (some r.1, r.2, [])
          else do
            let r ← m.prevInput
            .ok (some r.1, r.2, [])
      | .KeyCtrlC | .KeyEsc => .ok (recv, Cmd.navigateBack, [])
      | _ => formModel.updateFocused env recv msg
  | _ => formModel.updateFocused env recv msg

/-- The `tea.Model` that a sub-screen's `Update` returns: its receiver, or the
session's `mainModel` (`m.parent`, `m.main`). -/
inductive Returned (σ : Type) where
  | self (m : Option σ)
  | main
  deriving DecidableEq, Repr

/-! ## user_management.go -/

/-- The function `NewUserManagementModel`. -/
def NewUserManagementModel : userManagementModel where
  users := []
  cursor := 0
  selectedUser := none
  isSelectingAction := false
  actionCursor := 0
  actionChoices := ["Alterar Papel", "Deletar Usuário", "Resetar Senha"]
  isSelectingRole := false
  roleCursor := 0
  roleChoices := ["user", "moderator", "admin"]

/-- The method `userManagementModel.Init`. -/
def userManagementModel.Init (_recv : Option userManagementModel) : Cmd :=
  Cmd.userManagementInit

/-- The method `userManagementModel.updateUserList`. -/
def userManagementModel.updateUserList (m : userManagementModel) (k : KeyMsg) :
    Res (userManagementModel × Cmd × List StoreCall) :=
  if Matches k DefaultKeyMap.Up then
    .ok (if m.cursor > 0 then { m with cursor := m.cursor - 1 } else m, Cmd.nil, [])
  else if Matches k DefaultKeyMap.Down then
    .ok (if m.cursor < len m.users - 1 then { m with cursor := m.cursor + 1 } else m, Cmd.nil, [])
  else if Matches k DefaultKeyMap.Enter then
    if len m.users > 0 then do
      let u ← index m.users m.cursor
      .ok ({ m with selectedUser := some u, isSelectingAction := true, actionCursor := 0 },
        Cmd.nil, [])
    else .ok (m, Cmd.nil, [])
  else if Matches k DefaultKeyMap.Back then
    .ok (m, Cmd.navigateBack, [])
  else .ok (m, Cmd.nil, [])

/-- The method `userManagementModel.updateActionSelection`; the store is
called inside the update. -/
def userManagementModel.updateActionSelection (env : Env) (m : userManagementModel) (k : KeyMsg) :
    Res (userManagementModel × Cmd × List StoreCall) :=
  if Matches k DefaultKeyMap.Up then
    .ok (if m.actionCursor > 0 then { m with actionCursor := m.actionCursor - 1 } else m,
      Cmd.nil, [])
  else if Matches k DefaultKeyMap.Down then
    .ok (if m.actionCursor < len m.actionChoices - 1 then
        { m with actionCursor := m.actionCursor + 1 } else m, Cmd.nil, [])
  else if Matches k DefaultKeyMap.Enter then do
    let selectedAction ← index m.actionChoices m.actionCursor
    if selectedAction = "Alterar Papel" then
      .ok ({ m with isSelectingAction := false, isSelectingRole := true, roleCursor := 0 },
        Cmd.nil, [])
    else if selectedAction = "Deletar Usuário" then do
      let u ← deref m.selectedUser
      match env.db.DeleteUser u.Username with
      | some err =>
          .ok ({ m with isSelectingAction := false, selectedUser := none },
            Cmd.emit (Msg.statusMessage false err), [StoreCall.DeleteUser u.Username])
      | none =>
          .ok ({ m with isSelectingAction := false, selectedUser := none },
            Cmd.Sequence Cmd.userManagementInit
              (Cmd.emit (Msg.statusMessage true
                ("Usuário " ++ u.Username ++ " deletado com sucesso"))),
            [StoreCall.DeleteUser u.Username])
    else if selectedAction = "Resetar Senha" then do
      let u ← deref m.selectedUser
      match env.db.AdminResetPassword u.Username "password" with
      | some err =>
          .ok ({ m with isSelectingAction := false, selectedUser := none },
            Cmd.emit (Msg.statusMessage false err),
            [StoreCall.AdminResetPassword u.Username "password"])
      | none =>
          .ok ({ m with isSelectingAction := false, selectedUser := none },
            Cmd.Sequence Cmd.userManagementInit
              (Cmd.emit (Msg.statusMessage true
                ("Senha de " ++ u.Username ++ " resetada para 'password'"))),
            [StoreCall.AdminResetPassword u.Username "password"])
    else .ok (m, Cmd.nil, [])
  else if Matches k DefaultKeyMap.Back then
    .ok ({ m with isSelectingAction := false, selectedUser := none }, Cmd.nil, [])
  else .ok (m, Cmd.nil, [])

/-- The method `userManagementModel.updateRoleSelection`; the store is called
inside the update. -/
def userManagementModel.updateRoleSelection (env : Env) (m : userManagementModel) (k : KeyMsg) :
    Res (userManagementModel × Cmd × List StoreCall) :=
  if Matches k DefaultKeyMap.Up then
    .ok (if m.roleCursor > 0 then { m with roleCursor := m.roleCursor - 1 } else m, Cmd.nil, [])
  else if Matches k DefaultKeyMap.Down then
    .ok (if m.roleCursor < len m.roleChoices - 1 then
        { m with roleCursor := m.roleCursor + 1 } else m, Cmd.nil, [])
  else if Matches k DefaultKeyMap.Enter then do
    let selectedRole ← index m.roleChoices m.roleCursor
    let u ← deref m.selectedUser
    match env.db.SetUserRole u.Username selectedRole with
    | some err =>
        .ok ({ m with isSelectingRole := false, selectedUser := none },
          Cmd.emit (Msg.statusMessage false err), [StoreCall.SetUserRole u.Username selectedRole])
    | none =>
        .ok ({ m with isSelectingRole := false, selectedUser := none },
          Cmd.Sequence Cmd.userManagementInit
            (Cmd.emit (Msg.statusMessage true
              ("Papel de " ++ u.Username ++ " alterado para " ++ selectedRole))),
          [StoreCall.SetUserRole u.Username selectedRole])
  else if Matches k DefaultKeyMap.Back then
    .ok ({ m with isSelectingRole := false, selectedUser := none }, Cmd.nil, [])
  else .ok (m, Cmd.nil, [])

/-- The method `userManagementModel.Update`. -/
def userManagementModel.Update (env : Env) (recv : Option userManagementModel) (msg : Msg) :
    Res (Option userManagementModel × Cmd × List StoreCall) :=
  match msg with
  | .usersLoadedMsg users => do
      let m ← deref recv
      .ok (some { m with users := users }, Cmd.nil, [])
  | .KeyMsg k => do
      let m ← deref recv
      let r ←
        if m.isSelectingRole then m.updateRoleSelection env k
        else if m.isSelectingAction then m.updateActionSelection env k
        else m.updateUserList k
      .ok (some r.1, r.2.1, r.2.2)
  | _ => .ok (recv, Cmd.nil, [])

/-! ## forum_management.go -/

/-- The function `NewForumManagementModel`. -/
def NewForumManagementModel : forumManagementModel where
  forums := []
  cursor := 0
  navigateToForm := false
  navigateToEditForm := false
  selectedForum := none
  confirmingDelete := false

/-- The method `forumManagementModel.Init`. -/
def forumManagementModel.Init (_recv : Option forumManagementModel) : Cmd :=
  Cmd.forumManagementInit

/-- The second `switch` of the key case of `forumManagementModel.Update`: the
ordinary key bindings. -/
def forumManagementModel.updateKeys (m : forumManagementModel) (k : KeyMsg) :
    Res (forumManagementModel × Cmd) :=
  if Matches k DefaultKeyMap.Up then
    .ok (if m.cursor > 0 then { m with cursor := m.cursor - 1 } else m, Cmd.nil)
  else if Matches k DefaultKeyMap.Down then
    .ok (if m.cursor < len m.forums - 1 then { m with cursor := m.cursor + 1 } else m, Cmd.nil)
  else if Matches k DefaultKeyMap.New then
    .ok ({ m with navigateToForm := true }, Cmd.nil)
  else if k.String = "e" then
    if len m.forums > 0 then do
      let f ← index m.forums m.cursor
      .ok ({ m with selectedForum := some f, navigateToEditForm := true }, Cmd.nil)
    else .ok (m, Cmd.nil)
  else if Matches k DefaultKeyMap.Delete then
    .ok (if len m.forums > 0 then { m with confirmingDelete := true } else m, Cmd.nil)
  else if Matches k DefaultKeyMap.Back then
    .ok (m, Cmd.navigateBack)
  else .ok (m, Cmd.nil)

/-- The method `forumManagementModel.Update`. The block for the confirmation
has no `return` of its own after its inner `switch`: a key that is neither
confirm with a non-empty list nor deny goes on to the ordinary bindings. -/
def forumManagementModel.Update (recv : Option forumManagementModel) (msg : Msg) :
    Res (Option forumManagementModel × Cmd) :=
  match msg with
  | .forumsLoadedMsg forums => do
      let m ← deref recv
      .ok (some { m with forums := forums }, Cmd.nil)
  | .KeyMsg k => do
      let m ← deref recv
      if m.confirmingDelete then
        if k.String = "s" ∨ k.String = "S" then
          if len m.forums > 0 then do
            let f ← index m.forums m.cursor
            .ok (some { m with confirmingDelete := false }, Cmd.deleteForum f.ID)
          else do
            let r ← m.updateKeys k
            .ok (some r.1, r.2)
        else if k.String = "n" ∨ k.String = "N" then
          .ok (some { m with confirmingDelete := false }, Cmd.nil)
        else do
          let r ← m.updateKeys k
          .ok (some r.1, r.2)
      else do
        let r ← m.updateKeys k
        .ok (some r.1, r.2)
  | _ => .ok (recv, Cmd.nil)

/-! ## admin.go -/

/-- The function `NewAdminModel`: a list of the two menu items, made with
width and height 0. -/
def NewAdminModel : adminModel where
  list := {
    items :=
      [⟨"Gerenciamento de Usuários", "Editar, deletar e alterar papéis de usuários"⟩,
       ⟨"Gerenciamento de Fóruns", "Criar, editar e deletar fóruns"⟩]
    Title := "Menu de Administração"
    width := 0
    height := 0
    state := 0 }
  navigateToUserManagement := false
  navigateToForumManagement := false

/-- The method `adminModel.Init`. -/
def adminModel.Init (_recv : Option adminModel) : Cmd := Cmd.nil

/-- The last two statements of `adminModel.Update`: the list widget handles
the message. -/
def adminModel.updateList (env : Env) (m : adminModel) (msg : Msg) :
    Res (Returned adminModel × Cmd) :=
  .ok (Returned.self (some { m with list := (env.widgets.listUpdate m.list msg).1 }),
    (env.widgets.listUpdate m.list msg).2)

/-- The method `adminModel.Update`. On `esc` it returns `m.main`, not the
receiver. -/
def adminModel.Update (env : Env) (recv : Option adminModel) (msg : Msg) :
    Res (Returned adminModel × Cmd) :=
  match msg with
  | .WindowSizeMsg w h => do
      let m ← deref recv
      adminModel.updateList env { m with list := env.widgets.listSetSize m.list w h } msg
  | .KeyMsg k =>
      if k.String = "esc" then do
        let _ ← deref recv
        .ok (Returned.main, Cmd.navigateBack)
      else if k.String = "enter" then do
        let m ← deref recv
        match env.widgets.listSelectedItem m.list with
        | some i =>
            if i.title = "Gerenciamento de Usuários" then
              .ok (Returned.self (some { m with navigateToUserManagement := true }), Cmd.nil)
            else if i.title = "Gerenciamento de Fóruns" then
              .ok (Returned.self (some { m with navigateToForumManagement := true }), Cmd.nil)
            else .ok (Returned.self (some m), Cmd.nil)
        | none => .ok (Returned.self (some m), Cmd.nil)
      else do
        let m ← deref recv
        adminModel.updateList env m msg
  | _ => do
      let m ← deref recv
      adminModel.updateList env m msg

/-! ## settings.go -/

/-- The function `NewSettingsModel`. -/
def NewSettingsModel (parent : mainModel) : settingsModel where
  choices :=
    (["Alterar Senha"] ++
      (if parent.Role = "moderator" ∨ parent.Role = "admin" then ["Gerenciar Usuários"] else []))
      ++ (if parent.Role = "admin" then ["Criar Novo Usuário"] else [])
  cursor := 0

/-- The method `settingsModel.Init`. -/
def settingsModel.Init (_recv : Option settingsModel) : Cmd := Cmd.nil

/-- The method `settingsModel.Update`. The three menu entries write to the
parent and return `m.parent`, not the receiver. The result is the parent, the
returned model and the command. -/
def settingsModel.Update (parent : mainModel) (recv : Option settingsModel) (msg : Msg) :
    Res (mainModel × Returned settingsModel × Cmd) :=
  match msg with
  | .KeyMsg k => do
      let m ← deref recv
      if Matches k DefaultKeyMap.Up then
        .ok (parent,
          Returned.self (some (if m.cursor > 0 then { m with cursor := m.cursor - 1 } else m)),
          Cmd.nil)
      else if Matches k DefaultKeyMap.Down then
        .ok (parent,
          Returned.self (some (if m.cursor < len m.choices - 1 then
            { m with cursor := m.cursor + 1 } else m)),
          Cmd.nil)
      else if Matches k DefaultKeyMap.Enter then do
        let choice ← index m.choices m.cursor
        if choice = "Alterar Senha" then
          .ok ({ parent with
              currentView := view.formView
              formModel := some NewChangePasswordFormModel },
            Returned.main, formModel.Init (some NewChangePasswordFormModel))
        else if choice = "Gerenciar Usuários" then
          .ok ({ parent with
              currentView := view.userManagementView
              breadcrumbs := parent.breadcrumbs ++ ["Gerenciar Usuários"]
              userManagementModel := some NewUserManagementModel },
            Returned.main, userManagementModel.Init (some NewUserManagementModel))
        else if choice = "Criar Novo Usuário" then
          .ok ({ parent with
              currentView := view.formView
              formModel := some NewUserFormModel },
            Returned.main, formModel.Init (some NewUserFormModel))
        else .ok (parent, Returned.self (some m), Cmd.nil)
      else if Matches k DefaultKeyMap.Back then
        .ok (parent, Returned.self (some m), Cmd.navigateBack)
      else .ok (parent, Returned.self (some m), Cmd.nil)
  | _ => .ok (parent, Returned.self recv, Cmd.nil)

/-! ## model.go: `mainModel.Update` -/

/-- The test `p != nil && p.f` on a pointer `p`. -/
def flagSet {α : Type} (p : Option α) (f : α → Bool) : Bool :=
  match p with
  | some a => f a
  | none => false

/-- The result of `mainModel.Update`: the model, the command, and the store
calls made inside the update. -/
structure Out where
  model : mainModel
  cmd : Cmd
  calls : List StoreCall
  deriving DecidableEq, Repr

/-- The method `mainModel.updateMainMenu`. -/
def mainModel.updateMainMenu (m : mainModel) (msg : Msg) : Res (mainModel × Cmd) :=
  match msg with
  | .KeyMsg k =>
      if k.String = "ctrl+c" ∨ k.String = "q" then .ok (m, Cmd.Quit)
      else if k.String = "up" ∨ k.String = "k" then
        .ok (if m.Cursor > 0 then { m with Cursor := m.Cursor - 1 } else m, Cmd.nil)
      else if k.String = "down" ∨ k.String = "j" then
        .ok (if m.Cursor < len m.Choices - 1 then { m with Cursor := m.Cursor + 1 } else m,
          Cmd.nil)
      else if k.String = "enter" then do
        let choice ← index m.Choices m.Cursor
        if choice = "Ver Fóruns" then
          forumsModel.Init
            { m with
              currentView := view.forumsView
              breadcrumbs := ["Home", "Fóruns"]
              forumsModel := if m.forumsModel.isNone then some NewForumsModel else m.forumsModel }
            (if m.forumsModel.isNone then some NewForumsModel else m.forumsModel)
        else if choice = "Configurações" then
          .ok ({ m with
              currentView := view.settingsView
              breadcrumbs := ["Home", "Configurações"]
              settingsModel :=
                if m.settingsModel.isNone then some (NewSettingsModel m) else m.settingsModel },
            settingsModel.Init
              (if m.settingsModel.isNone then some (NewSettingsModel m) else m.settingsModel))
        else if choice = "Administração" then
          .ok ({ m with
              currentView := view.adminView
              breadcrumbs := ["Home", "Administração"]
              adminModel := if m.adminModel.isNone then some NewAdminModel else m.adminModel },
            adminModel.Init (if m.adminModel.isNone then some NewAdminModel else m.adminModel))
        else if choice = "Sair" then .ok (m, Cmd.Quit)
        else .ok (m, Cmd.nil)
      else .ok (m, Cmd.nil)
  | _ => .ok (m, Cmd.nil)

/-- The part of `mainModel.Update` under the comment on forward navigation:
the first navigation request found among the sub-screens is carried out and
cleared; `cmd` is the command of the dispatch before it. -/
def mainModel.forwardNav (env : Env) (m : mainModel) (cmd : Cmd) : Res (mainModel × Cmd) :=
  if flagSet m.adminModel (fun a => a.navigateToUserManagement) then
    .ok ({ m with
        currentView := view.userManagementView
        breadcrumbs := m.breadcrumbs ++ ["Gerenciamento de Usuários"]
        userManagementModel :=
          if m.userManagementModel.isNone then some NewUserManagementModel
          else m.userManagementModel
        forumManagementModel :=
          if m.userManagementModel.isNone then some NewForumManagementModel
          else m.forumManagementModel
        adminModel := m.adminModel.map fun a => { a with navigateToUserManagement := false } },
      Cmd.userManagementInit)
  else if flagSet m.adminModel (fun a => a.navigateToForumManagement) then
    .ok ({ m with
        currentView := view.forumManagementView
        breadcrumbs := m.breadcrumbs ++ ["Gerenciamento de Fóruns"]
        forumManagementModel :=
          if m.forumManagementModel.isNone then some NewForumManagementModel
          else m.forumManagementModel
        adminModel := m.adminModel.map fun a => { a with navigateToForumManagement := false } },
      Cmd.forumManagementInit)
  else if flagSet m.forumManagementModel (fun f => f.navigateToForm) then
    .ok ({ m with
        currentView := view.formView
        breadcrumbs := m.breadcrumbs ++ ["Novo Fórum"]
        formModel := some NewForumFormModel
        forumManagementModel :=
          m.forumManagementModel.map fun f => { f with navigateToForm := false } },
      formModel.Init (some NewForumFormModel))
  else if flagSet m.forumManagementModel (fun f => f.navigateToEditForm) then do
    let fm ← NewEditForumFormModel env.widgets (m.forumManagementModel.bind fun f => f.selectedForum)
    .ok ({ m with
        currentView := view.formView
        breadcrumbs := m.breadcrumbs ++ ["Editando Fórum"]
        formModel := some fm
        forumManagementModel :=
          m.forumManagementModel.map fun f => { f with navigateToEditForm := false } },
      formModel.Init (some fm))
  else
    match m.forumsModel.bind fun f => f.navToTopics with
    | some forum =>
        .ok ({ m with
            currentView := view.topicsView
            breadcrumbs := m.breadcrumbs ++ [forum.Name]
            topicsModel := some (NewTopicsModel (some forum))
            forumsModel := m.forumsModel.map fun f => { f with navToTopics := none } },
          topicsModel.Init (some (NewTopicsModel (some forum))))
    | none =>
        match m.topicsModel.bind fun t => t.navToPosts with
        | some topic =>
            .ok ({ m with
                currentView := view.postsView
                breadcrumbs := m.breadcrumbs ++ [topic.Title]
                postsModel := some (NewPostsModel (some topic))
                topicsModel := m.topicsModel.map fun t => { t with navToPosts := none } },
              postsModel.Init (some (NewPostsModel (some topic))))
        | none =>
            if flagSet m.topicsModel (fun t => t.creatingTopic) then do
              let fm ← NewTopicFormModel (m.topicsModel.bind fun t => t.forum)
              .ok ({ m with
                  currentView := view.formView
                  breadcrumbs := m.breadcrumbs ++ ["Novo Tópico"]
                  formModel := some fm
                  topicsModel := m.topicsModel.map fun t => { t with creatingTopic := false } },
                formModel.Init (some fm))
            else if flagSet m.postsModel (fun p => p.creatingPost) then do
              let fm ← NewPostFormModel (m.postsModel.bind fun p => p.topic)
              .ok ({ m with
                  currentView := view.formView
                  breadcrumbs := m.breadcrumbs ++ ["Novo Post"]
                  formModel := some fm
                  postsModel := m.postsModel.map fun p => { p with creatingPost := false } },
                formModel.Init (some fm))
            else .ok (m, cmd)

/-- The second `switch` of `mainModel.Update`, on `m.currentView`, followed by
the forward navigation: the active screen's sub-model handles the message.
The assertions `newModel.(*T)` panic when the sub-screen returned the
`mainModel`; only the admin case tests the assertion and returns early. -/
def mainModel.updateView (env : Env) (m : mainModel) (msg : Msg) : Res Out :=
  match m.currentView with
  | .formView => do
      let r ← formModel.Update env m m.formModel msg
      let n ← mainModel.forwardNav env { m with formModel := r.1 } r.2.1
      .ok ⟨n.1, n.2, r.2.2⟩
  | .postsView => do
      let r ← postsModel.Update m m.postsModel msg
      let n ← mainModel.forwardNav env { m with postsModel := r.1 } r.2
      .ok ⟨n.1, n.2, []⟩
  | .topicsView => do
      let r ← topicsModel.Update m m.topicsModel msg
      let n ← mainModel.forwardNav env { m with topicsModel := r.1 } r.2
      .ok ⟨n.1, n.2, []⟩
  | .forumsView => do
      let r ← forumsModel.Update m m.forumsModel msg
      let n ← mainModel.forwardNav env { r.1 with forumsModel := r.2.1 } r.2.2
      .ok ⟨n.1, n.2, []⟩
  | .adminView => do
      let r ← adminModel.Update env m.adminModel msg
      match r.1 with
      | .self a => do
          let n ← mainModel.forwardNav env { m with adminModel := a } r.2
          .ok ⟨n.1, n.2, []⟩
      | .main => .ok ⟨m, r.2, []⟩
  | .userManagementView => do
      let r ← userManagementModel.Update env m.userManagementModel msg
      let n ← mainModel.forwardNav env { m with userManagementModel := r.1 } r.2.1
      .ok ⟨n.1, n.2, r.2.2⟩
  | .forumManagementView => do
      let r ← forumManagementModel.Update m.forumManagementModel msg
      let n ← mainModel.forwardNav env { m with forumManagementModel := r.1 } r.2
      .ok ⟨n.1, n.2, []⟩
  | .settingsView => do
      let r ← settingsModel.Update m m.settingsModel msg
      match r.2.1 with
      | .self s => do
          let n ← mainModel.forwardNav env { r.1 with settingsModel := s } r.2.2
          .ok ⟨n.1, n.2, []⟩
      | .main =>
          .error "interface conversion: tea.Model is *tui.mainModel, not *tui.settingsModel"
  | .mainMenuView => do
      let r ← m.updateMainMenu msg
      .ok ⟨r.1, r.2, []⟩

/-- The method `mainModel.Update`: the first `switch`, on the type of the
message, handles the global messages and returns; a key message and every
message without a case go on to the active screen. -/
def mainModel.Update (env : Env) (m : mainModel) (msg : Msg) : Res Out :=
  match msg with
  | .statusMessageTimeoutMsg => .ok ⟨{ m with statusMessage := "" }, Cmd.nil, []⟩
  | .errorMsg err =>
      .ok ⟨{ m with isLoading := false, statusMessage := "Erro: " ++ err }, Cmd.statusTimeout 5, []⟩
  | .forumsLoadedMsg _ => do
      let r ← forumsModel.Update m m.forumsModel msg
      .ok ⟨{ r.1 with forumsModel := r.2.1 }, r.2.2, []⟩
  | .usersLoadedMsg _ => do
      let r ← userManagementModel.Update env m.userManagementModel msg
      .ok ⟨{ m with userManagementModel := r.1 }, r.2.1, r.2.2⟩
  | .passwordUpdatedMsg =>
      .ok ⟨{ m with statusMessage := "Senha alterada com sucesso!", currentView := view.settingsView },
        Cmd.statusTimeout 3, []⟩
  | .topicCreatedMsg forum =>
      .ok ⟨{ m with
          statusMessage := "Tópico criado com sucesso!"
          currentView := view.topicsView
          topicsModel := some (NewTopicsModel forum) },
        topicsModel.Init (some (NewTopicsModel forum)), []⟩
  | .postCreatedMsg topic =>
      .ok ⟨{ m with
          statusMessage := "Post criado com sucesso!"
          currentView := view.postsView
          postsModel := some (NewPostsModel topic) },
        postsModel.Init (some (NewPostsModel topic)), []⟩
  | .statusMessage success message =>
      .ok ⟨{ m with
          statusMessage := if success then message else "Erro: " ++ message
          currentView := view.settingsView },
        Cmd.statusTimeout 5, []⟩
  | .navigateBackMsg =>
      if len m.breadcrumbs > 1 then do
        let newView ← index m.breadcrumbs.dropLast (len m.breadcrumbs.dropLast - 1)
        .ok ⟨{ m with
            breadcrumbs := m.breadcrumbs.dropLast
            currentView :=
              if newView = "Home" then view.mainMenuView
              else if newView = "Administração" then view.adminView
              else if newView = "Fóruns" then view.forumsView
              else if newView = "Tópicos" then view.topicsView
              else if newView = "Configurações" then view.settingsView
              else m.currentView },
          Cmd.nil, []⟩
      else .ok ⟨m, Cmd.nil, []⟩
  | _ => m.updateView env msg

/-! ## What the runtime gets when it executes a command -/

/-- Whether the command is, or contains, `tea.Quit`, which ends the session. -/
def Cmd.quits : Cmd → Bool
  | .Quit => true
  | .Sequence a b => a.quits || b.quits
  | _ => false

/-- The messages that the execution of a command sends to the session, in
order, with the store calls it makes. `tea.Quit` sends no message to `Update`.
A closure of `topicsModel.Init` or `postsModel.Init` over a nil record
panics. -/
def Cmd.run (db : Store) : Cmd → Res (List Msg × List StoreCall)
  | .nil => .ok ([], [])
  | .Quit => .ok ([], [])
  | .navigateBack => .ok ([Msg.navigateBackMsg], [])
  | .statusTimeout _ => .ok ([Msg.statusMessageTimeoutMsg], [])
  | .spinnerTick => .ok ([Msg.widgetMsg 0], [])
  | .Blink => .ok ([Msg.widgetMsg 0], [])
  | .widget tag => .ok ([Msg.widgetMsg tag], [])
  | .loadForumsCmd =>
      match db.GetAllForums with
      | .error err => .ok ([Msg.errorMsg err], [StoreCall.GetAllForums])
      | .ok forums => .ok ([Msg.forumsLoadedMsg forums], [StoreCall.GetAllForums])
  | .forumManagementInit =>
      match db.GetAllForums with
      | .error err => .ok ([Msg.errorMsg err], [StoreCall.GetAllForums])
      | .ok forums => .ok ([Msg.forumsLoadedMsg forums], [StoreCall.GetAllForums])
  | .userManagementInit =>
      match db.GetAllUsers with
      | .error err => .ok ([Msg.errorMsg err], [StoreCall.GetAllUsers])
      | .ok users => .ok ([Msg.usersLoadedMsg users], [StoreCall.GetAllUsers])
  | .topicsInit forum => do
      let f ← deref forum
      match db.GetTopicsByForumID f.ID with
      | .error err => .ok ([Msg.topicsLoadedMsg [] (some err)], [StoreCall.GetTopicsByForumID f.ID])
      | .ok topics => .ok ([Msg.topicsLoadedMsg topics none], [StoreCall.GetTopicsByForumID f.ID])
  | .postsInit topic => do
      let t ← deref topic
      match db.GetPostsByTopicID t.ID with
      | .error err => .ok ([Msg.postsLoadedMsg [] (some err)], [StoreCall.GetPostsByTopicID t.ID])
      | .ok posts => .ok ([Msg.postsLoadedMsg posts none], [StoreCall.GetPostsByTopicID t.ID])
  | .deleteTopic id =>
      match db.DeleteTopic id with
      | some err =>
          .ok ([Msg.statusMessage false ("Erro ao deletar tópico: " ++ err)],
            [StoreCall.DeleteTopic id])
      | none => .ok ([Msg.reloadTopicsMsg], [StoreCall.DeleteTopic id])
  | .deletePost id =>
      match db.DeletePost id with
      | some err =>
          .ok ([Msg.statusMessage false ("Erro ao deletar post: " ++ err)],
            [StoreCall.DeletePost id])
      | none => .ok ([Msg.reloadPostsMsg], [StoreCall.DeletePost id])
  | .deleteForum id =>
      match db.DeleteForum id with
      | some err =>
          .ok ([Msg.statusMessage false ("Erro ao deletar fórum: " ++ err)],
            [StoreCall.DeleteForum id])
      | none =>
          match db.GetAllForums with
          | .error err => .ok ([Msg.errorMsg err], [StoreCall.DeleteForum id, StoreCall.GetAllForums])
          | .ok forums =>
              .ok ([Msg.forumsLoadedMsg forums], [StoreCall.DeleteForum id, StoreCall.GetAllForums])
  | .emit msg => .ok ([msg], [])
  | .Sequence a b => do
      let ra ← a.run db
      let rb ← b.run db
      .ok (ra.1 ++ rb.1, ra.2 ++ rb.2)
  | .createUser username password role =>
      if username = "" ∨ password = "" ∨ role = "" then
        .ok ([Msg.statusMessage false "Todos os campos são obrigatórios."], [])
      else if role ≠ "user" ∧ role ≠ "moderator" ∧ role ≠ "admin" then
        .ok ([Msg.statusMessage false "Papel inválido. Use 'user', 'moderator' ou 'admin'."], [])
      else
        match db.CreateUser username password with
        | some err => .ok ([Msg.errorMsg err], [StoreCall.CreateUser username password])
        | none =>
            match db.SetUserRole username role with
            | some err =>
                .ok ([Msg.errorMsg ("usuário criado, mas falha ao definir o papel: " ++ err)],
                  [StoreCall.CreateUser username password, StoreCall.SetUserRole username role])
            | none =>
                .ok ([Msg.statusMessage true ("Usuário '" ++ username ++ "' criado com sucesso!")],
                  [StoreCall.CreateUser username password, StoreCall.SetUserRole username role])
  | .updatePassword user currentPassword newPassword =>
      if currentPassword = "" ∨ newPassword = "" then
        .ok ([Msg.statusMessage false "Os campos de senha não podem estar vazios."], [])
      else
        match db.UpdateUserPassword user currentPassword newPassword with
        | some err =>
            .ok ([Msg.errorMsg err], [StoreCall.UpdateUserPassword user currentPassword newPassword])
        | none =>
            .ok ([Msg.passwordUpdatedMsg],
              [StoreCall.UpdateUserPassword user currentPassword newPassword])
  | .updateForum forumID name description =>
      match db.UpdateForum forumID name description with
      | some err =>
          .ok ([Msg.statusMessage false ("Erro ao atualizar fórum: " ++ err)],
            [StoreCall.UpdateForum forumID name description])
      | none =>
          .ok ([Msg.statusMessage true ("Fórum '" ++ name ++ "' atualizado com sucesso!")],
            [StoreCall.UpdateForum forumID name description])
  | .createForum name description =>
      match db.CreateForum name description with
      | some err =>
          .ok ([Msg.statusMessage false ("Erro ao criar fórum: " ++ err)],
            [StoreCall.CreateForum name description])
      | none =>
          .ok ([Msg.statusMessage true ("Fórum '" ++ name ++ "' criado com sucesso!")],
            [StoreCall.CreateForum name description])

/-! ## Sessions -/

/-- The states a session of `user` with role `role` can be in: the initial
model, and every model that `Update` returns, without a panic, for a message
handled in such a state, whatever the store and the widgets answer. -/
inductive Reachable (user role : String) : mainModel → Prop where
  | init : Reachable user role (InitialModel user role)
  | step (env : Env) (msg : Msg) (m : mainModel) (out : Out) :
      Reachable user role m → mainModel.Update env m msg = .ok out → Reachable user role out.model

/-- The model after a list of messages handled in order, all with the same
environment; `none` when one of the updates panics. -/
def runMsgs (env : Env) (m : mainModel) : List Msg → Option mainModel
  | [] => some m
  | msg :: rest =>
      match mainModel.Update env m msg with
      | .ok out => runMsgs env out.model rest
      | .error _ => none

/-! ## Notions used in the statements -/

/-- The inner `switch` of the `navigateBackMsg` case: the view that the label
on top of the breadcrumbs selects; a label without a case leaves the view as
it is. -/
def backView (newView : String) (current : view) : view :=
  if newView = "Home" then view.mainMenuView
  else if newView = "Administração" then view.adminView
  else if newView = "Fóruns" then view.forumsView
  else if newView = "Tópicos" then view.topicsView
  else if newView = "Configurações" then view.settingsView
  else current

/-- The navigation requests that the forward navigation of `mainModel.Update`
tests, in the order of its `else if` chain. -/
def pending (m : mainModel) : List Bool :=
  [flagSet m.adminModel (fun a => a.navigateToUserManagement),
   flagSet m.adminModel (fun a => a.navigateToForumManagement),
   flagSet m.forumManagementModel (fun f => f.navigateToForm),
   flagSet m.forumManagementModel (fun f => f.navigateToEditForm),
   (m.forumsModel.bind fun f => f.navToTopics).isSome,
   (m.topicsModel.bind fun t => t.navToPosts).isSome,
   flagSet m.topicsModel (fun t => t.creatingTopic),
   flagSet m.postsModel (fun p => p.creatingPost)]

/-- No sub-screen holds a navigation request. -/
def NoPending (m : mainModel) : Prop :=
  pending m = [false, false, false, false, false, false, false, false]

instance (m : mainModel) : Decidable (NoPending m) := by
  unfold NoPending; infer_instance

/-- At most one navigation request is held. -/
def AtMostOnePending (m : mainModel) : Prop := (pending m).count true ≤ 1

/-- What holds of every state of a session whose role is not "admin". -/
structure NonAdminState (m : mainModel) : Prop where
  adminModel : m.adminModel = none
  view : m.currentView ≠ view.forumManagementView
  choices : "Administração" ∉ m.Choices

/-! ## Sample sessions for the concrete statements -/

/-- A forum of the sample store. -/
def forumGeral : Forum := ⟨1, "Geral", "conversa", 0⟩

/-- A second forum of the sample store. -/
def forumAjuda : Forum := ⟨2, "Ajuda", "perguntas", 0⟩

/-- A forum whose name is the label of the admin screen. -/
def forumAdministracao : Forum := ⟨3, "Administração", "avisos", 0⟩

/-- A topic of the forum `forumGeral`. -/
def topicOla : Topic := ⟨10, 1, 7, "bia", "Olá", 0⟩

/-- A topic of the forum `forumAdministracao`. -/
def topicAvisos : Topic := ⟨11, 3, 7, "bia", "Avisos", 0⟩

/-- A store in which every call succeeds: it holds the forums `forumGeral`
and `forumAjuda`, the topic `topicOla` in the first, and knows every user
name as a moderator with ID 7. -/
def sampleStore : Store where
  GetUserByUsername := fun u => .ok (some (⟨7, u, "moderator", 0⟩, "hash"))
  GetAllUsers := .ok []
  CreateUser := fun _ _ => none
  UpdateUserPassword := fun _ _ _ => none
  DeleteUser := fun _ => none
  AdminResetPassword := fun _ _ => none
  SetUserRole := fun _ _ => none
  GetAllForums := .ok [forumGeral, forumAjuda]
  CreateForum := fun _ _ => none
  UpdateForum := fun _ _ _ => none
  DeleteForum := fun _ => none
  GetTopicsByForumID := fun id => if id = 1 then .ok [topicOla] else .ok []
  CreateTopic := fun _ _ _ => none
  DeleteTopic := fun _ => none
  GetPostsByTopicID := fun _ => .ok []
  CreatePost := fun _ _ _ => none
  DeletePost := fun _ => none

/-- A store in which every call fails with the same error. -/
def failingStore : Store where
  GetUserByUsername := fun _ => .error "database is locked"
  GetAllUsers := .error "database is locked"
  CreateUser := fun _ _ => some "database is locked"
  UpdateUserPassword := fun _ _ _ => some "database is locked"
  DeleteUser := fun _ => some "database is locked"
  AdminResetPassword := fun _ _ => some "database is locked"
  SetUserRole := fun _ _ => some "database is locked"
  GetAllForums := .error "database is locked"
  CreateForum := fun _ _ => some "database is locked"
  UpdateForum := fun _ _ _ => some "database is locked"
  DeleteForum := fun _ => some "database is locked"
  GetTopicsByForumID := fun _ => .error "database is locked"
  CreateTopic := fun _ _ _ => some "database is locked"
  DeleteTopic := fun _ => some "database is locked"
  GetPostsByTopicID := fun _ => .error "database is locked"
  CreatePost := fun _ _ _ => some "database is locked"
  DeletePost := fun _ => some "database is locked"

/-- A widget library for the concrete statements: a focused text widget
appends the runes typed, the list widget moves its cursor on `up` and `down`
and selects the item under it. -/
def sampleWidgets : Widgets where
  inputUpdate := fun _ v msg =>
    match msg with
    | .KeyMsg k => if k.Typ = KeyType.KeyRunes then (v ++ String.mk k.Runes, Cmd.nil) else (v, Cmd.nil)
    | _ => (v, Cmd.nil)
  listUpdate := fun l msg =>
    match msg with
    | .KeyMsg k =>
        if k.String = "down" then
          ({ l with state := if l.state + 1 < l.items.length then l.state + 1 else l.state }, Cmd.nil)
        else if k.String = "up" then ({ l with state := l.state - 1 }, Cmd.nil)
        else (l, Cmd.nil)
    | _ => (l, Cmd.nil)
  listSelectedItem := fun l => l.items.get? l.state
  listSetSize := fun l w h => { l with width := w, height := h }
  setValue := fun _ v => v

/-- The sample environment: the store in which every call succeeds. -/
def sampleEnv : Env := ⟨sampleStore, sampleWidgets⟩

/-- The key message for a special key. -/
def keyOf (t : KeyType) : Msg := Msg.KeyMsg (specialKey t)

/-- The key message for a typed character. -/
def charKey (c : Char) : Msg := Msg.KeyMsg (runeKey c)

/-- The messages that take a fresh session to the Topics screen of
`forumGeral` with its topic loaded: Enter on the first menu entry, the forum
list, Enter on the first forum, the topic list. -/
def toTopics : List Msg :=
  [keyOf KeyType.KeyEnter, Msg.forumsLoadedMsg [forumGeral, forumAjuda], keyOf KeyType.KeyEnter,
   Msg.topicsLoadedMsg [topicOla] none]

/-- The messages that take a fresh session on to the Posts screen of
`topicOla`. -/
def toPosts : List Msg :=
  toTopics ++ [keyOf KeyType.KeyEnter, Msg.postsLoadedMsg [] none]

/-- The state of the user "ana" on the Topics screen of `forumGeral`, as the
messages `toTopics` leave it. -/
def userOnTopics : mainModel :=
  { InitialModel "ana" "user" with
    currentView := view.topicsView
    forumsModel := some { NewForumsModel with forums := [forumGeral, forumAjuda] }
    topicsModel := some { NewTopicsModel (some forumGeral) with topics := [topicOla] }
    breadcrumbs := ["Home", "Fóruns", "Geral"] }

/-- The state of the user "ana" on the Posts screen of `topicOla`, as the
messages `toPosts` leave it. -/
def userOnPosts : mainModel :=
  { userOnTopics with
    currentView := view.postsView
    postsModel := some (NewPostsModel (some topicOla))
    breadcrumbs := ["Home", "Fóruns", "Geral", "Olá"] }

/-- The messages of a moderator who opens the Topics screen of "Geral",
presses `n`, types the title "Oi" and presses Enter on the title field. -/
def toSubmittedTopic : List Msg :=
  toTopics ++ [charKey 'n', charKey 'O', charKey 'i', keyOf KeyType.KeyEnter]

/-- The messages of a user who opens Forums when the store holds a forum named
"Administração", selects it, selects its topic and presses `esc` on Posts;
the last message is the `navigateBackMsg` that the command of `esc` delivers. -/
def toAdminByLabel : List Msg :=
  [keyOf KeyType.KeyEnter, Msg.forumsLoadedMsg [forumAdministracao], keyOf KeyType.KeyEnter,
   Msg.topicsLoadedMsg [topicAvisos] none, keyOf KeyType.KeyEnter, Msg.postsLoadedMsg [] none,
   keyOf KeyType.KeyEsc, Msg.navigateBackMsg]

/-- The state of the moderator "bia" on the Topics screen of `forumGeral`
with the confirmation overlay shown, as the messages `toTopics` and the key
`d` leave it. -/
def moderatorConfirming : mainModel :=
  { userOnTopics with
    User := "bia"
    Role := "moderator"
    topicsModel :=
      some { NewTopicsModel (some forumGeral) with topics := [topicOla], confirmingDelete := true } }

/-- The state of a session on the Topics screen of `forumAjuda`, opened after
a visit to the Topics screen of `forumGeral` whose load is still in flight:
Enter on the menu, the forum list, Enter on "Geral", back to Forums, down,
Enter on "Ajuda". -/
def toTopicsOfSecondForum : List Msg :=
  [keyOf KeyType.KeyEnter, Msg.forumsLoadedMsg [forumGeral, forumAjuda], keyOf KeyType.KeyEnter,
   keyOf KeyType.KeyEsc, Msg.navigateBackMsg, keyOf KeyType.KeyDown, keyOf KeyType.KeyEnter]

/-- A Forum Management screen with two forums listed, the cursor on the first
and the confirmation overlay shown. -/
def forumManagementConfirming : forumManagementModel :=
  { NewForumManagementModel with forums := [forumGeral, forumAjuda], confirmingDelete := true }

/-- The state that the messages `toTopicsOfSecondForum` leave: the Topics
screen of `forumAjuda`, its list still empty. -/
def userOnTopicsOfAjuda : mainModel :=
  { InitialModel "ana" "user" with
    currentView := view.topicsView
    forumsModel := some { NewForumsModel with forums := [forumGeral, forumAjuda], cursor := 1 }
    topicsModel := some (NewTopicsModel (some forumAjuda))
    breadcrumbs := ["Home", "Fóruns", "Ajuda"] }

/-- The state of the user "ana" back on the Forums screen after a visit to the
Topics screen of `forumGeral`. -/
def userBackOnForums : mainModel :=
  { userOnTopics with
    currentView := view.forumsView
    breadcrumbs := ["Home", "Fóruns"] }

/-! ## Notions for the claims on deletion, forms and authentication -/

/-- Whether a store call deletes a record. -/
def StoreCall.isDelete : StoreCall → Bool
  | .DeleteUser _ => true
  | .DeleteForum _ => true
  | .DeleteTopic _ => true
  | .DeletePost _ => true
  | _ => false

/-- The delete calls among the store calls of a command, in order. -/
def deletions (calls : List StoreCall) : List StoreCall :=
  calls.filter StoreCall.isDelete

/-- The store calls that the execution of a command makes; none when the
command panics. -/
def Cmd.calls (db : Store) (c : Cmd) : List StoreCall :=
  match c.run db with
  | .ok r => r.2
  | .error _ => []

/-- The messages that the execution of a command delivers; none when the
command panics. -/
def Cmd.msgs (db : Store) (c : Cmd) : List Msg :=
  match c.run db with
  | .ok r => r.1
  | .error _ => []

/-- A post of the topic `topicOla`. -/
def postOi : Post := ⟨20, 10, 7, "bia", "Oi, pessoal", 0⟩

/-- A Topics screen of `forumGeral` with its topic listed and the
confirmation overlay shown. -/
def topicsConfirming : topicsModel :=
  { NewTopicsModel (some forumGeral) with topics := [topicOla], confirmingDelete := true }

/-- A Posts screen of `topicOla` with one post listed and the confirmation
overlay shown. -/
def postsConfirming : postsModel :=
  { NewPostsModel (some topicOla) with posts := [postOi], confirmingDelete := true }

/-- The state of the moderator "bia" on the Topics screen of `forumGeral`,
as the messages `toTopics` leave it. -/
def moderatorOnTopics : mainModel :=
  { userOnTopics with User := "bia", Role := "moderator" }

/-- The state of the moderator "bia" on the Posts screen of `topicOla`, still
without posts, as the messages `toPosts` leave it. -/
def moderatorOnPosts : mainModel :=
  { userOnPosts with User := "bia", Role := "moderator" }

/-- The keys that make `formModel.Update` call `submit`: the submit key
`ctrl+s`, and Enter when the focused field is the last one and is a
single-line field. -/
def formModel.isSubmitKey (m : formModel) (k : KeyMsg) : Bool :=
  decide (k.Typ = KeyType.KeyCtrlS) ||
    (decide (k.Typ = KeyType.KeyEnter) && decide (m.focusIndex = len m.fields - 1) &&
      match index m.fields m.focusIndex with
      | .ok f => decide (f.Input.kind = InputKind.TextInput)
      | .error _ => false)

/-- What a message handled by a form does in all: the messages that the
command returned by `formModel.Update` delivers when the runtime executes it,
and the store calls made by the update and then by the command. -/
def formOutcome (env : Env) (parent : mainModel) (m : formModel) (msg : Msg) :
    Res (List Msg × List StoreCall) := do
  let r ← formModel.Update env parent (some m) msg
  let c ← r.2.1.run env.db
  .ok (c.1, r.2.2 ++ c.2)

/-- The new-topic form of `forumGeral` as `NewTopicFormModel` returns it. -/
def topicFormGeral : formModel where
  title := "Novo Tópico em 'Geral'"
  fields := [⟨"Título", (newTextInput "Título do Tópico").Focus.1⟩]
  focusIndex := 0
  submitAction := SubmitAction.newTopic forumGeral
  quitting := false

/-- The new-post form of `topicOla` as `NewPostFormModel` returns it. -/
def postFormOla : formModel where
  title := "Re: Olá"
  fields := [⟨"Conteúdo", (newTextArea "Escreva sua resposta...").Focus.1⟩]
  focusIndex := 0
  submitAction := SubmitAction.newPost topicOla
  quitting := false

/-- The new-user form with the name "caio" and the secret "s3nha" typed and
the role "root" in the third field, which has the focus. -/
def userFormBadRole : formModel :=
  { NewUserFormModel with
    fields :=
      [⟨"Username", { newTextInput "Nome de Usuário" with value := "caio" }⟩,
       ⟨"Password", { newTextInput "Senha" with EchoPassword := true, value := "s3nha" }⟩,
       ⟨"Role", { (newTextInput "Papel (user, moderator, admin)").Focus.1 with value := "root" }⟩]
    focusIndex := 2 }

/-- The messages of an admin who visits Forums (so that the Forums screen
exists when a forum list arrives), goes back to the menu, opens
"Administração", moves down to "Gerenciamento de Fóruns" and opens it, gets the
forum list that the screen's `Init` loads, and presses `n`: the New Forum form
is active. -/
def toNewForumForm : List Msg :=
  [keyOf KeyType.KeyEnter, Msg.forumsLoadedMsg [forumGeral, forumAjuda], keyOf KeyType.KeyEsc,
   Msg.navigateBackMsg, keyOf KeyType.KeyDown, keyOf KeyType.KeyDown, keyOf KeyType.KeyEnter,
   keyOf KeyType.KeyDown, keyOf KeyType.KeyEnter, Msg.forumsLoadedMsg [forumGeral, forumAjuda],
   charKey 'n']

/-- The messages `toNewForumForm` followed by the name "Novo" typed into the
first field of the form. -/
def toNamedForumForm : List Msg :=
  toNewForumForm ++ [charKey 'N', charKey 'o', charKey 'v', charKey 'o']

/-- The Edit Forum form of `forumGeral` as `NewEditForumFormModel` returns
it. -/
def editFormGeral : formModel where
  title := "Editando Fórum: Geral"
  fields :=
    [⟨"Nome", { (newTextInput "Nome do Fórum").Focus.1 with value := "Geral" }⟩,
     ⟨"Descrição", { newTextArea "Descrição do Fórum" with value := "conversa" }⟩]
  focusIndex := 0
  submitAction := SubmitAction.editForum forumGeral
  quitting := false

/-- The Edit Forum form of `forumGeral` after the name was erased. -/
def editFormCleared : formModel :=
  { editFormGeral with
    fields :=
      [⟨"Nome", (newTextInput "Nome do Fórum").Focus.1⟩,
       ⟨"Descrição", { newTextArea "Descrição do Fórum" with value := "conversa" }⟩] }

/-- The keys of an admin who opens "Configurações" from the menu and presses
Enter on its third entry, "Criar Novo Usuário". -/
def toNewUserForm : List Msg :=
  [keyOf KeyType.KeyDown, keyOf KeyType.KeyEnter, keyOf KeyType.KeyDown, keyOf KeyType.KeyDown,
   keyOf KeyType.KeyEnter]

/-! ## internal/ssh/server.go: the password callback -/

/-- The type `ssh.Permissions`. -/
structure Permissions where
  CriticalOptions : List (String × String)
  Extensions : List (String × String)
  deriving DecidableEq, Repr

/-- What the password callback returns, `(*ssh.Permissions, error)`, with the
line it writes to the server log. -/
structure AuthResult where
  permissions : Option Permissions
  err : Option String
  log : String
  deriving DecidableEq, Repr

/-- The `PasswordCallback` closure of `NewServer`, for the user name
`c.User()` and the secret `pass`. `CheckPasswordHash` is the bcrypt comparison
of `database`, a parameter here; it is not called when the user is unknown. -/
def PasswordCallback (db : Store) (CheckPasswordHash : String → String → Bool)
    (user pass : String) : AuthResult :=
  match db.GetUserByUsername user with
  | .error err =>
      ⟨none, some "erro interno do servidor",
        "Erro ao buscar usuário '" ++ user ++ "': " ++ err⟩
  | .ok none =>
      ⟨none, some "usuário ou senha inválidos",
        "Falha na autenticação para o usuário: " ++ user⟩
  | .ok (some (_, passwordHash)) =>
      if !CheckPasswordHash pass passwordHash then
        ⟨none, some "usuário ou senha inválidos",
          "Falha na autenticação para o usuário: " ++ user⟩
      else
        ⟨none, none, "Usuário '" ++ user ++ "' autenticado com sucesso."⟩

/-- A store that knows the single user "bia". -/
def oneUserStore : Store :=
  { sampleStore with
    GetUserByUsername := fun u =>
      if u = "bia" then .ok (some (⟨7, "bia", "moderator", 0⟩, "hash-of-segredo")) else .ok none }

/-- A comparison for the concrete statements: the hash of a secret is the
secret after the text "hash-of-". -/
def sampleCheck (password hash : String) : Bool :=
  hash = "hash-of-" ++ password

/-- A user listed on the User Management screen of the sample sessions. -/
def userCaio : User := ⟨8, "caio", "user", 0⟩

/-- The keys of a session that opens "Configurações" from the menu, moves
down to its second entry and presses Enter; for a moderator or an admin that
entry is "Gerenciar Usuários". -/
def toUserManagementFromSettings : List Msg :=
  [keyOf KeyType.KeyDown, keyOf KeyType.KeyEnter, keyOf KeyType.KeyDown, keyOf KeyType.KeyEnter]

/-- The messages of an admin who opens "Administração", presses Enter on
"Gerenciamento de Usuários", gets the user list, presses Enter on the first
user and on "Alterar Papel", and moves down twice, to "admin". -/
def toRoleChoiceAsAdmin : List Msg :=
  [keyOf KeyType.KeyDown, keyOf KeyType.KeyDown, keyOf KeyType.KeyEnter, keyOf KeyType.KeyEnter,
   Msg.usersLoadedMsg [userCaio], keyOf KeyType.KeyEnter, keyOf KeyType.KeyEnter,
   keyOf KeyType.KeyDown, keyOf KeyType.KeyDown]

/-- The User Management screen with one user listed, nothing selected. -/
def userManagementBrowsing : userManagementModel :=
  { NewUserManagementModel with users := [userCaio] }

/-- The User Management screen with the actions for `userCaio` shown. -/
def userManagementActions : userManagementModel :=
  { userManagementBrowsing with selectedUser := some userCaio, isSelectingAction := true }

/-- The User Management screen with the roles for `userCaio` shown. -/
def userManagementRoles : userManagementModel :=
  { userManagementBrowsing with selectedUser := some userCaio, isSelectingRole := true }

/-- The session's own user as the store lists it. -/
def userRoot : User := ⟨1, "root", "admin", 0⟩

/-- The messages of an admin "root" who opens User Management from
"Administração", selects the own account, selects "Alterar Papel", and
presses Enter on the first role, "user"; the store accepts the change, and the
command's two messages follow: the reloaded list, in which "root" now has the
role "user", and the success message. -/
def toOwnRoleChanged : List Msg :=
  [keyOf KeyType.KeyDown, keyOf KeyType.KeyDown, keyOf KeyType.KeyEnter, keyOf KeyType.KeyEnter,
   Msg.usersLoadedMsg [userRoot], keyOf KeyType.KeyEnter, keyOf KeyType.KeyEnter,
   keyOf KeyType.KeyEnter, Msg.usersLoadedMsg [{ userRoot with Role := "user" }],
   Msg.statusMessage true "Papel de root alterado para user"]

/-- A second topic of the forum `forumGeral`. -/
def topicTchau : Topic := ⟨12, 1, 7, "bia", "Tchau", 0⟩

/-- The messages that take a fresh session to the Topics screen of
`forumGeral` with two topics loaded and the cursor moved down to the
second. -/
def toSecondTopic : List Msg :=
  [keyOf KeyType.KeyEnter, Msg.forumsLoadedMsg [forumGeral, forumAjuda], keyOf KeyType.KeyEnter,
   Msg.topicsLoadedMsg [topicOla, topicTchau] none, keyOf KeyType.KeyDown]

/-- The messages `toSecondTopic` followed by `esc` and the `navigateBackMsg`
that its command delivers: Forums is active again, the cursor on
`forumGeral`. -/
def toForumsAgain : List Msg :=
  toSecondTopic ++ [keyOf KeyType.KeyEsc, Msg.navigateBackMsg]

/-- The state of the user "ana" back on the menu after a visit to Forums and
to the Topics screen of `forumGeral`. -/
def userBackOnMenu : mainModel :=
  { userBackOnForums with
    currentView := view.mainMenuView
    breadcrumbs := ["Home"] }

/-! ## Notions for the claims on forms -/

/-- The focus flags of the fields of a form, in order. -/
def formModel.focused (m : formModel) : List Bool :=
  m.fields.map fun f => f.Input.focus

/-- The names and the values of the fields of a form, in order. -/
def formModel.contents (m : formModel) : List (String × String) :=
  m.fields.map fun f => (f.Name, f.Input.value)

/-- The focus flags of `n` fields of which exactly the field `i` is focused. -/
def onlyFocused (n i : Nat) : List Bool :=
  (List.range n).map fun j => decide (j = i)

/-- The focus of a form is in order: `focusIndex` is an index of `fields` and
the field at that index is the one focused field. -/
def formModel.focusOk (m : formModel) : Prop :=
  0 ≤ m.focusIndex ∧ m.focusIndex < len m.fields ∧
    m.focused = onlyFocused m.fields.length m.focusIndex.toNat

instance (m : formModel) : Decidable m.focusOk := by
  unfold formModel.focusOk
  infer_instance

/-- The form states that key messages can lead to: what the six constructors
of form.go return, and what `formModel.Update` returns for a key message
handled in such a state, whatever the session state, the store and the widgets
are. -/
inductive FormReachable : formModel → Prop where
  | newTopic (forum : Option Forum) (m : formModel) :
      NewTopicFormModel forum = .ok m → FormReachable m
  | newPost (topic : Option Topic) (m : formModel) :
      NewPostFormModel topic = .ok m → FormReachable m
  | newUser : FormReachable NewUserFormModel
  | changePassword : FormReachable NewChangePasswordFormModel
  | editForum (w : Widgets) (forum : Option Forum) (m : formModel) :
      NewEditForumFormModel w forum = .ok m → FormReachable m
  | newForum : FormReachable NewForumFormModel
  | key (env : Env) (parent : mainModel) (k : KeyMsg) (m m' : formModel) (cmd : Cmd)
      (calls : List StoreCall) :
      FormReachable m →
      formModel.Update env parent (some m) (Msg.KeyMsg k) = .ok (some m', cmd, calls) →
      FormReachable m'

/-- The form after a list of messages handled in order; `none` when one of
the updates panics. -/
def runForm (env : Env) (parent : mainModel) (m : formModel) : List Msg → Option formModel
  | [] => some m
  | msg :: rest =>
      match formModel.Update env parent (some m) msg with
      | .ok (some m', _, _) => runForm env parent m' rest
      | _ => none

/-- The new-user form after Shift-Tab on the first field: the focus is on the
third field, "Role". -/
def userFormOnRole : formModel :=
  { NewUserFormModel with
    fields :=
      [⟨"Username", newTextInput "Nome de Usuário"⟩,
       ⟨"Password", { newTextInput "Senha" with EchoPassword := true }⟩,
       ⟨"Role", (newTextInput "Papel (user, moderator, admin)").Focus.1⟩]
    focusIndex := 2 }

/-- The new-user form after Enter on the first field: the focus is on the
second field, "Password". -/
def userFormOnPassword : formModel :=
  { NewUserFormModel with
    fields :=
      [⟨"Username", newTextInput "Nome de Usuário"⟩,
       ⟨"Password", ({ newTextInput "Senha" with EchoPassword := true }).Focus.1⟩,
       ⟨"Role", newTextInput "Papel (user, moderator, admin)"⟩]
    focusIndex := 1 }

/-- Whether the sub-screen model that `mainModel.View` and the dispatch of
`mainModel.Update` call for the active screen is there; the menu needs
none. -/
def mainModel.activeModelPresent (m : mainModel) : Bool :=
  match m.currentView with
  | .mainMenuView => true
  | .forumsView => m.forumsModel.isSome
  | .topicsView => m.topicsModel.isSome
  | .postsView => m.postsModel.isSome
  | .formView => m.formModel.isSome
  | .settingsView => m.settingsModel.isSome
  | .userManagementView => m.userManagementModel.isSome
  | .forumManagementView => m.forumManagementModel.isSome
  | .adminView => m.adminModel.isSome

/-- The list of a Forum Management screen; empty when there is no such
screen. -/
def listedForums (p : Option forumManagementModel) : List Forum :=
  match p with
  | some fm => fm.forums
  | none => []

/-- The list of the session's Forum Management screen. -/
def mainModel.managedForums (m : mainModel) : List Forum :=
  listedForums m.forumManagementModel

/-- The messages of a user who opens the Posts screen of `topicOla`, presses
`n` for the new-post form and submits it empty with `ctrl+s`; the last message
is the failure message that the command of the submit delivers. -/
def toEmptyPostSubmitted : List Msg :=
  toPosts ++ [charKey 'n', keyOf KeyType.KeyCtrlS,
    Msg.statusMessage false "O conteúdo não pode estar vazio."]

/-- The messages of an admin who visits Forums, goes back to the menu, opens
"Administração" and presses Enter on "Gerenciamento de Fóruns": Forum
Management is active and its `Init` command is on its way. -/
def toForumManagement : List Msg :=
  [keyOf KeyType.KeyEnter, Msg.forumsLoadedMsg [forumGeral, forumAjuda], keyOf KeyType.KeyEsc,
   Msg.navigateBackMsg, keyOf KeyType.KeyDown, keyOf KeyType.KeyDown, keyOf KeyType.KeyEnter,
   keyOf KeyType.KeyDown, keyOf KeyType.KeyEnter]

/-- The messages of an admin who opens "Administração" and "Gerenciamento de
Fóruns" without a visit to Forums. -/
def toForumManagementDirectly : List Msg :=
  [keyOf KeyType.KeyDown, keyOf KeyType.KeyDown, keyOf KeyType.KeyEnter, keyOf KeyType.KeyDown,
   keyOf KeyType.KeyEnter]

/-- The messages of a moderator on the Topics screen of `forumGeral`, two
topics loaded and the cursor on the second, who presses `d` and confirms with
`s`; then the `reloadTopicsMsg` that the delete command delivers and the
`topicsLoadedMsg` of the reload, with the one topic that is left. -/
def toLastTopicDeleted : List Msg :=
  toSecondTopic ++ [charKey 'd', charKey 's', Msg.reloadTopicsMsg,
    Msg.topicsLoadedMsg [topicOla] none]

/-- Whether the confirmation overlay of a Forum Management screen is shown;
not when there is no such screen. -/
def listedOverlay (p : Option forumManagementModel) : Bool :=
  match p with
  | some fm => fm.confirmingDelete
  | none => false

/-- The state of the moderator "bia" on the Posts screen of `topicOla`, one
post loaded and the confirmation overlay shown. -/
def moderatorPostsConfirming : mainModel :=
  { moderatorOnPosts with
    postsModel := some { NewPostsModel (some topicOla) with
      posts := [postOi], confirmingDelete := true } }

/-- The messages that lead to `moderatorPostsConfirming`: the Posts screen of
`topicOla`, its one post, and the key `d`. -/
def toPostsConfirming : List Msg :=
  toTopics ++ [keyOf KeyType.KeyEnter, Msg.postsLoadedMsg [postOi] none, charKey 'd']

/-- The messages of an admin who opens User Management from "Administração"
with two users listed, moves down to the second, goes back to "Administração"
and opens User Management again; the list loaded on this second visit holds
one user, the other account having been deleted in the meantime. -/
def toShorterUserList : List Msg :=
  [keyOf KeyType.KeyDown, keyOf KeyType.KeyDown, keyOf KeyType.KeyEnter, keyOf KeyType.KeyEnter,
   Msg.usersLoadedMsg [userCaio, userRoot], keyOf KeyType.KeyDown, keyOf KeyType.KeyEsc,
   Msg.navigateBackMsg, keyOf KeyType.KeyEnter, Msg.usersLoadedMsg [userCaio]]

/-! ## Properties -/

/-! ### Slices and pointers -/

theorem index_ok_of_lt {α : Type} (xs : List α) (i : Int) (h0 : 0 ≤ i) (h1 : i < len xs) :
    ∃ a, index xs i = .ok a ∧ xs.get? i.toNat = some a := by
  unfold index
  have hlt : i.toNat < xs.length := by unfold len at h1; omega
  have hne : ¬ i < 0 := by omega
  rw [if_neg hne]
  obtain ⟨a, ha⟩ : ∃ a, xs.get? i.toNat = some a := ⟨xs.get ⟨i.toNat, hlt⟩, List.get?_eq_get hlt⟩
  exact ⟨a, by rw [ha], ha⟩

/-! ### The `navigateBackMsg` case -/

theorem navigateBack_pop (env : Env) (m : mainModel) (h : 1 < m.breadcrumbs.length) :
    ∃ newView, index m.breadcrumbs.dropLast (len m.breadcrumbs.dropLast - 1) = .ok newView ∧
      mainModel.Update env m Msg.navigateBackMsg =
        .ok ⟨{ m with breadcrumbs := m.breadcrumbs.dropLast
                      currentView := backView newView m.currentView }, Cmd.nil, []⟩ := by
  have hl : len m.breadcrumbs > 1 := by unfold len; omega
  have hd : 0 < m.breadcrumbs.dropLast.length := by simp; omega
  obtain ⟨a, ha, _⟩ := index_ok_of_lt m.breadcrumbs.dropLast (len m.breadcrumbs.dropLast - 1)
    (by unfold len; omega) (by omega)
  refine ⟨a, ha, ?_⟩
  simp only [mainModel.Update, if_pos hl, ha, backView]
  rfl

theorem navigateBack_home (env : Env) (m : mainModel) (h : ¬ 1 < m.breadcrumbs.length) :
    mainModel.Update env m Msg.navigateBackMsg = .ok ⟨m, Cmd.nil, []⟩ := by
  have hl : ¬ len m.breadcrumbs > 1 := by unfold len; omega
  simp only [mainModel.Update, if_neg hl]

theorem navigateBack_iterate (env : Env) (k : Nat) :
    ∀ m : mainModel, 1 ≤ m.breadcrumbs.length →
      ∃ m', runMsgs env m (List.replicate k Msg.navigateBackMsg) = some m' ∧
        m'.breadcrumbs.length = max 1 (m.breadcrumbs.length - k) := by
  induction k with
  | zero => intro m h; exact ⟨m, rfl, by simp; omega⟩
  | succ k ih =>
      intro m h
      by_cases h1 : 1 < m.breadcrumbs.length
      · obtain ⟨v, _, hu⟩ := navigateBack_pop env m h1
        obtain ⟨m', hr, hlen⟩ := ih { m with breadcrumbs := m.breadcrumbs.dropLast
                                             currentView := backView v m.currentView }
          (by simp; omega)
        refine ⟨m', ?_, ?_⟩
        · simp only [List.replicate_succ, runMsgs, hu]; exact hr
        · rw [hlen]; simp; omega
      · have hu := navigateBack_home env m h1
        obtain ⟨m', hr, hlen⟩ := ih m h
        refine ⟨m', ?_, ?_⟩
        · simp only [List.replicate_succ, runMsgs, hu]; exact hr
        · rw [hlen]; omega


/-! ### Navigation requests -/

@[simp] theorem flagSet_some {α : Type} (a : α) (f : α → Bool) : flagSet (some a) f = f a := rfl
@[simp] theorem flagSet_none {α : Type} (f : α → Bool) : flagSet (none : Option α) f = false := rfl

theorem flagSet_map_false {α : Type} (p : Option α) (f : α → Bool) (g : α → α)
    (h : ∀ a, f (g a) = false) : flagSet (p.map g) f = false := by
  cases p <;> simp [h]

theorem flagSet_map_same {α : Type} (p : Option α) (f : α → Bool) (g : α → α)
    (h : ∀ a, f (g a) = f a) : flagSet (p.map g) f = flagSet p f := by
  cases p <;> simp [h]

theorem atMostOne_cases :
    ∀ b1 b2 b3 b4 b5 b6 b7 b8 : Bool, [b1, b2, b3, b4, b5, b6, b7, b8].count true ≤ 1 →
      (b1 = true → b2 = false ∧ b3 = false ∧ b4 = false ∧ b5 = false ∧ b6 = false ∧ b7 = false ∧ b8 = false) ∧
      (b2 = true → b3 = false ∧ b4 = false ∧ b5 = false ∧ b6 = false ∧ b7 = false ∧ b8 = false) ∧
      (b3 = true → b4 = false ∧ b5 = false ∧ b6 = false ∧ b7 = false ∧ b8 = false) ∧
      (b4 = true → b5 = false ∧ b6 = false ∧ b7 = false ∧ b8 = false) ∧
      (b5 = true → b6 = false ∧ b7 = false ∧ b8 = false) ∧
      (b6 = true → b7 = false ∧ b8 = false) ∧
      (b7 = true → b8 = false) := by
  intro b1 b2 b3 b4 b5 b6 b7 b8
  cases b1 <;> cases b2 <;> cases b3 <;> cases b4 <;> cases b5 <;> cases b6 <;> cases b7 <;>
    cases b8 <;> decide

theorem isSome_false {α : Type} {o : Option α} : o.isSome = false ↔ o = none := by
  cases o <;> simp

theorem noPending_iff {m : mainModel} :
    NoPending m ↔
      flagSet m.adminModel (fun a => a.navigateToUserManagement) = false ∧
      flagSet m.adminModel (fun a => a.navigateToForumManagement) = false ∧
      flagSet m.forumManagementModel (fun f => f.navigateToForm) = false ∧
      flagSet m.forumManagementModel (fun f => f.navigateToEditForm) = false ∧
      (m.forumsModel.bind fun f => f.navToTopics) = none ∧
      (m.topicsModel.bind fun t => t.navToPosts) = none ∧
      flagSet m.topicsModel (fun t => t.creatingTopic) = false ∧
      flagSet m.postsModel (fun p => p.creatingPost) = false := by
  simp only [NoPending, pending, List.cons.injEq, and_true, isSome_false]

theorem forwardNav_of_noPending (env : Env) (m : mainModel) (cmd : Cmd) (h : NoPending m) :
    mainModel.forwardNav env m cmd = .ok (m, cmd) := by
  obtain ⟨h1, h2, h3, h4, h5, h6, h7, h8⟩ := noPending_iff.1 h
  simp [mainModel.forwardNav, h1, h2, h3, h4, h5, h6, h7, h8]

set_option maxHeartbeats 4000000 in
theorem forwardNav_noPending (env : Env) (m : mainModel) (cmd : Cmd) (r : mainModel × Cmd)
    (ha : AtMostOnePending m) (h : mainModel.forwardNav env m cmd = .ok r) : NoPending r.1 := by
  obtain ⟨c1, c2, c3, c4, c5, c6, c7⟩ := atMostOne_cases _ _ _ _ _ _ _ _ ha
  simp only [isSome_false, Option.isSome_iff_exists] at c1 c2 c3 c4 c5 c6 c7
  unfold mainModel.forwardNav at h
  rw [noPending_iff]
  by_cases f1 : flagSet m.adminModel (fun a => a.navigateToUserManagement) = true
  · obtain ⟨h2, h3, h4, h5, h6, h7, h8⟩ := c1 f1
    rw [if_pos f1] at h
    cases h
    refine ⟨?_, ?_, ?_, ?_, ?_, ?_, ?_, ?_⟩ <;> first
      | assumption
      | (cases hA : m.adminModel <;> cases hU : m.userManagementModel <;>
          cases hF : m.forumManagementModel <;>
          simp_all [NewForumManagementModel, flagSet])
  rw [if_neg f1] at h
  by_cases f2 : flagSet m.adminModel (fun a => a.navigateToForumManagement) = true
  · obtain ⟨h3, h4, h5, h6, h7, h8⟩ := c2 f2
    rw [if_pos f2] at h
    cases h
    refine ⟨?_, ?_, ?_, ?_, ?_, ?_, ?_, ?_⟩ <;> first
      | assumption
      | (cases hA : m.adminModel <;> cases hF : m.forumManagementModel <;>
          simp_all [NewForumManagementModel, flagSet])
  rw [if_neg f2] at h
  by_cases f3 : flagSet m.forumManagementModel (fun f => f.navigateToForm) = true
  · obtain ⟨h4, h5, h6, h7, h8⟩ := c3 f3
    rw [if_pos f3] at h
    cases h
    refine ⟨?_, ?_, ?_, ?_, ?_, ?_, ?_, ?_⟩ <;> first
      | assumption
      | (cases hF : m.forumManagementModel <;> simp_all [flagSet])
  rw [if_neg f3] at h
  by_cases f4 : flagSet m.forumManagementModel (fun f => f.navigateToEditForm) = true
  · obtain ⟨h5, h6, h7, h8⟩ := c4 f4
    rw [if_pos f4] at h
    cases hE : NewEditForumFormModel env.widgets (m.forumManagementModel.bind fun f => f.selectedForum) with
    | error e => rw [hE] at h; cases h
    | ok fm =>
      rw [hE] at h
      cases h
      refine ⟨?_, ?_, ?_, ?_, ?_, ?_, ?_, ?_⟩ <;> first
        | assumption
        | (cases hF : m.forumManagementModel <;> simp_all [flagSet])
  rw [if_neg f4] at h
  cases f5 : (m.forumsModel.bind fun f => f.navToTopics) with
  | some forum =>
    obtain ⟨h6, h7, h8⟩ := c5 ⟨forum, f5⟩
    clear c1 c2 c3 c4 c5 c6 c7 ha
    rw [f5] at h
    cases h
    refine ⟨?_, ?_, ?_, ?_, ?_, ?_, ?_, ?_⟩ <;> first
      | assumption
      | (cases hf : m.forumsModel <;> simp_all [flagSet, NewTopicsModel])
  | none =>
  rw [f5] at h
  cases f6 : (m.topicsModel.bind fun t => t.navToPosts) with
  | some topic =>
    obtain ⟨h7, h8⟩ := c6 ⟨topic, f6⟩
    clear c1 c2 c3 c4 c5 c6 c7 ha
    rw [f6] at h
    cases h
    refine ⟨?_, ?_, ?_, ?_, ?_, ?_, ?_, ?_⟩ <;> first
      | assumption
      | (cases ht : m.topicsModel <;> simp_all [flagSet, NewPostsModel])
  | none =>
  rw [f6] at h
  simp only [] at h
  by_cases f7 : flagSet m.topicsModel (fun t => t.creatingTopic) = true
  · have h8 := c7 f7
    rw [if_pos f7] at h
    cases hE : NewTopicFormModel (m.topicsModel.bind fun t => t.forum) with
    | error e => rw [hE] at h; cases h
    | ok fm =>
      rw [hE] at h
      cases h
      refine ⟨?_, ?_, ?_, ?_, ?_, ?_, ?_, ?_⟩ <;> first
        | assumption
        | (cases ht : m.topicsModel <;> simp_all [flagSet])
  rw [if_neg f7] at h
  by_cases f8 : flagSet m.postsModel (fun p => p.creatingPost) = true
  · clear c1 c2 c3 c4 c5 c6 c7 ha
    rw [if_pos f8] at h
    cases hE : NewPostFormModel (m.postsModel.bind fun p => p.topic) with
    | error e => rw [hE] at h; cases h
    | ok fm =>
      rw [hE] at h
      cases h
      refine ⟨?_, ?_, ?_, ?_, ?_, ?_, ?_, ?_⟩ <;> first
        | assumption
        | (cases hp : m.postsModel <;> simp_all [flagSet])
  rw [if_neg f8] at h
  clear c1 c2 c3 c4 c5 c6 c7 ha
  cases h
  refine ⟨?_, ?_, ?_, ?_, ?_, ?_, ?_, ?_⟩ <;> simp_all

theorem topicsModel_Update_flags (parent : mainModel) (recv : Option topicsModel) (msg : Msg)
    (r : Option topicsModel × Cmd) (h : topicsModel.Update parent recv msg = .ok r)
    (h6 : (recv.bind fun t => t.navToPosts) = none)
    (h7 : flagSet recv (fun t => t.creatingTopic) = false) :
    (r.1.bind fun t => t.navToPosts) = none ∨ flagSet r.1 (fun t => t.creatingTopic) = false := by
  cases recv with
  | none =>
    cases msg <;> simp only [topicsModel.Update, deref, bind, Except.bind, topicsModel.Init] at h <;>
      repeat' split at h
    all_goals (cases h <;> simp)
  | some tm =>
    simp at h6 h7
    cases msg <;> simp only [topicsModel.Update, deref, bind, Except.bind, topicsModel.Init] at h <;>
      repeat' split at h
    all_goals (cases h <;> simp [h6, h7])

theorem forumManagementModel_updateKeys_flags (m : forumManagementModel) (k : KeyMsg)
    (r : forumManagementModel × Cmd) (h : m.updateKeys k = .ok r)
    (h3 : m.navigateToForm = false) (h4 : m.navigateToEditForm = false) :
    r.1.navigateToForm = false ∨ r.1.navigateToEditForm = false := by
  simp only [forumManagementModel.updateKeys, bind, Except.bind] at h
  repeat' split at h
  all_goals (cases h <;> simp [h3, h4])

set_option linter.unusedTactic false in
theorem forumManagementModel_Update_flags (recv : Option forumManagementModel) (msg : Msg)
    (r : Option forumManagementModel × Cmd) (h : forumManagementModel.Update recv msg = .ok r)
    (h3 : flagSet recv (fun f => f.navigateToForm) = false)
    (h4 : flagSet recv (fun f => f.navigateToEditForm) = false) :
    flagSet r.1 (fun f => f.navigateToForm) = false ∨
      flagSet r.1 (fun f => f.navigateToEditForm) = false := by
  cases recv with
  | none =>
    cases msg <;> simp only [forumManagementModel.Update, deref, bind, Except.bind] at h <;>
      repeat' split at h
    all_goals (cases h <;> simp)
  | some fm =>
    simp at h3 h4
    cases msg <;> simp only [forumManagementModel.Update, deref, bind, Except.bind] at h <;>
      repeat' split at h
    all_goals (cases h <;> first
      | (simp [h3, h4]; done)
      | (rename_i heq; simpa using forumManagementModel_updateKeys_flags _ _ _ heq h3 h4))

theorem adminModel_Update_flags (env : Env) (recv : Option adminModel) (msg : Msg)
    (a : Option adminModel) (c : Cmd) (h : adminModel.Update env recv msg = .ok (Returned.self a, c))
    (h1 : flagSet recv (fun a => a.navigateToUserManagement) = false)
    (h2 : flagSet recv (fun a => a.navigateToForumManagement) = false) :
    flagSet a (fun a => a.navigateToUserManagement) = false ∨
      flagSet a (fun a => a.navigateToForumManagement) = false := by
  cases recv with
  | none =>
    cases msg <;> simp only [adminModel.Update, adminModel.updateList, deref, bind, Except.bind] at h <;>
      repeat' split at h
    all_goals (cases h)
  | some fm =>
    simp at h1 h2
    cases msg <;> simp only [adminModel.Update, adminModel.updateList, deref, bind, Except.bind] at h <;>
      repeat' split at h
    all_goals (cases h <;> simp [h1, h2])

set_option linter.unusedTactic false in
theorem forumsModel_Update_frame (parent : mainModel) (recv : Option forumsModel) (msg : Msg)
    (r : mainModel × Option forumsModel × Cmd) (h : forumsModel.Update parent recv msg = .ok r) :
    r.1 = parent ∨ r.1 = { parent with isLoading := false } := by
  cases recv with
  | none =>
    cases msg <;> simp only [forumsModel.Update, deref, bind, Except.bind] at h <;>
      repeat' split at h
    all_goals (cases h <;> simp)
  | some fm =>
    cases msg <;> simp only [forumsModel.Update, deref, bind, Except.bind] at h <;>
      repeat' split at h
    all_goals (cases h <;> simp)

set_option linter.unusedTactic false in
theorem settingsModel_Update_frame (parent : mainModel) (recv : Option settingsModel) (msg : Msg)
    (p : mainModel) (s : Option settingsModel) (c : Cmd)
    (h : settingsModel.Update parent recv msg = .ok (p, Returned.self s, c)) : p = parent := by
  cases recv with
  | none =>
    cases msg <;> simp only [settingsModel.Update, deref, bind, Except.bind] at h <;>
      repeat' split at h
    all_goals (cases h <;> rfl)
  | some fm =>
    cases msg <;> simp only [settingsModel.Update, deref, bind, Except.bind] at h <;>
      repeat' split at h
    all_goals (cases h <;> rfl)


theorem updateView_topics_noPending (env : Env) (m : mainModel) (msg : Msg) (out : Out)
    (hv : m.currentView = view.topicsView)
    (hp : NoPending m) (h : mainModel.updateView env m msg = .ok out) : NoPending out.model := by
  obtain ⟨h1, h2, h3, h4, h5, h6, h7, h8⟩ := noPending_iff.1 hp
  simp only [mainModel.updateView, hv, bind, Except.bind] at h
  split at h
  · cases h
  rename_i r hr
  split at h
  · cases h
  rename_i n hn
  cases h
  refine forwardNav_noPending env _ _ n ?_ hn
  have := topicsModel_Update_flags _ _ _ _ hr h6 h7
  simp only [AtMostOnePending, pending, h1, h2, h3, h4, h5, h8]
  rcases this with h | h
  · simp [h]
    cases flagSet r.1 (fun t => t.creatingTopic) <;> decide
  · simp [h]
    cases (r.1.bind fun t => t.navToPosts).isSome <;> decide


theorem atMostOne_of_noPending {m : mainModel} (h : NoPending m) : AtMostOnePending m := by
  unfold AtMostOnePending; rw [h]; decide

theorem updateView_form_noPending (env : Env) (m : mainModel) (msg : Msg) (out : Out)
    (hv : m.currentView = view.formView)
    (hp : NoPending m) (h : mainModel.updateView env m msg = .ok out) : NoPending out.model := by
  simp only [mainModel.updateView, hv, bind, Except.bind] at h
  split at h
  · cases h
  rename_i r hr
  split at h
  · cases h
  rename_i n hn
  cases h
  refine forwardNav_noPending env _ _ n ?_ hn
  exact atMostOne_of_noPending hp

theorem updateView_userManagement_noPending (env : Env) (m : mainModel) (msg : Msg) (out : Out)
    (hv : m.currentView = view.userManagementView)
    (hp : NoPending m) (h : mainModel.updateView env m msg = .ok out) : NoPending out.model := by
  simp only [mainModel.updateView, hv, bind, Except.bind] at h
  split at h
  · cases h
  rename_i r hr
  split at h
  · cases h
  rename_i n hn
  cases h
  refine forwardNav_noPending env _ _ n ?_ hn
  exact atMostOne_of_noPending hp

theorem updateView_posts_noPending (env : Env) (m : mainModel) (msg : Msg) (out : Out)
    (hv : m.currentView = view.postsView)
    (hp : NoPending m) (h : mainModel.updateView env m msg = .ok out) : NoPending out.model := by
  obtain ⟨h1, h2, h3, h4, h5, h6, h7, h8⟩ := noPending_iff.1 hp
  simp only [mainModel.updateView, hv, bind, Except.bind] at h
  split at h
  · cases h
  rename_i r hr
  split at h
  · cases h
  rename_i n hn
  cases h
  refine forwardNav_noPending env _ _ n ?_ hn
  simp only [AtMostOnePending, pending, h1, h2, h3, h4, h5, h6, h7]
  simp
  cases flagSet r.1 (fun p => p.creatingPost) <;> decide

theorem updateView_forums_noPending (env : Env) (m : mainModel) (msg : Msg) (out : Out)
    (hv : m.currentView = view.forumsView)
    (hp : NoPending m) (h : mainModel.updateView env m msg = .ok out) : NoPending out.model := by
  obtain ⟨h1, h2, h3, h4, h5, h6, h7, h8⟩ := noPending_iff.1 hp
  simp only [mainModel.updateView, hv, bind, Except.bind] at h
  split at h
  · cases h
  rename_i r hr
  split at h
  · cases h
  rename_i n hn
  cases h
  refine forwardNav_noPending env _ _ n ?_ hn
  rcases forumsModel_Update_frame _ _ _ _ hr with e | e <;> rw [e] <;>
    simp only [AtMostOnePending, pending, h1, h2, h3, h4, h6, h7, h8] <;> simp <;>
    cases (r.2.1.bind fun f => f.navToTopics).isSome <;> decide

theorem updateView_forumManagement_noPending (env : Env) (m : mainModel) (msg : Msg) (out : Out)
    (hv : m.currentView = view.forumManagementView)
    (hp : NoPending m) (h : mainModel.updateView env m msg = .ok out) : NoPending out.model := by
  obtain ⟨h1, h2, h3, h4, h5, h6, h7, h8⟩ := noPending_iff.1 hp
  simp only [mainModel.updateView, hv, bind, Except.bind] at h
  split at h
  · cases h
  rename_i r hr
  split at h
  · cases h
  rename_i n hn
  cases h
  refine forwardNav_noPending env _ _ n ?_ hn
  have := forumManagementModel_Update_flags _ _ _ hr h3 h4
  simp only [AtMostOnePending, pending, h1, h2, h5, h6, h7, h8]
  rcases this with h | h
  · simp [h]
    cases flagSet r.1 (fun f => f.navigateToEditForm) <;> decide
  · simp [h]
    cases flagSet r.1 (fun f => f.navigateToForm) <;> decide

theorem updateView_admin_noPending (env : Env) (m : mainModel) (msg : Msg) (out : Out)
    (hv : m.currentView = view.adminView)
    (hp : NoPending m) (h : mainModel.updateView env m msg = .ok out) : NoPending out.model := by
  obtain ⟨h1, h2, h3, h4, h5, h6, h7, h8⟩ := noPending_iff.1 hp
  simp only [mainModel.updateView, hv, bind, Except.bind] at h
  split at h
  · cases h
  rename_i r hr
  obtain ⟨ret, c⟩ := r
  cases ret with
  | main => cases h; exact hp
  | self a =>
    simp only [] at h
    split at h
    · cases h
    rename_i n hn
    cases h
    refine forwardNav_noPending env _ _ n ?_ hn
    have := adminModel_Update_flags _ _ _ _ _ hr h1 h2
    simp only [AtMostOnePending, pending, h3, h4, h5, h6, h7, h8]
    rcases this with h | h
    · simp [h]
      cases flagSet a (fun a => a.navigateToForumManagement) <;> decide
    · simp [h]
      cases flagSet a (fun a => a.navigateToUserManagement) <;> decide

theorem updateView_settings_noPending (env : Env) (m : mainModel) (msg : Msg) (out : Out)
    (hv : m.currentView = view.settingsView)
    (hp : NoPending m) (h : mainModel.updateView env m msg = .ok out) : NoPending out.model := by
  simp only [mainModel.updateView, hv, bind, Except.bind] at h
  split at h
  · cases h
  rename_i r hr
  obtain ⟨p, ret, c⟩ := r
  cases ret with
  | main => cases h
  | self s =>
    simp only [] at h
    split at h
    · cases h
    rename_i n hn
    cases h
    refine forwardNav_noPending env _ _ n ?_ hn
    rw [settingsModel_Update_frame _ _ _ _ _ _ hr]
    exact atMostOne_of_noPending hp

set_option linter.unusedTactic false in
theorem updateMainMenu_noPending (m : mainModel) (msg : Msg) (r : mainModel × Cmd)
    (hp : NoPending m) (h : m.updateMainMenu msg = .ok r) : NoPending r.1 := by
  obtain ⟨h1, h2, h3, h4, h5, h6, h7, h8⟩ := noPending_iff.1 hp
  cases msg <;> simp only [mainModel.updateMainMenu, forumsModel.Init, deref, bind, Except.bind] at h <;>
    repeat' split at h
  all_goals (cases h <;> (try subst_vars) <;> rw [noPending_iff] <;>
    refine ⟨?_, ?_, ?_, ?_, ?_, ?_, ?_, ?_⟩ <;> first
      | assumption
      | (cases hA : m.adminModel <;> cases hf : m.forumsModel <;>
          simp_all [NewAdminModel, NewForumsModel, flagSet] <;> (try subst_vars) <;> (try rfl)))

theorem forumsModel_Update_navToTopics (parent : mainModel) (recv : Option forumsModel)
    (forums : List Forum) (r : mainModel × Option forumsModel × Cmd)
    (h : forumsModel.Update parent recv (Msg.forumsLoadedMsg forums) = .ok r) :
    (r.2.1.bind fun f => f.navToTopics) = (recv.bind fun f => f.navToTopics) := by
  cases recv <;> simp only [forumsModel.Update, deref, bind, Except.bind] at h <;> cases h
  rfl

theorem Update_noPending (env : Env) (m : mainModel) (msg : Msg) (out : Out)
    (hp : NoPending m) (h : mainModel.Update env m msg = .ok out) : NoPending out.model := by
  have hview : mainModel.updateView env m msg = .ok out → NoPending out.model := by
    intro h
    cases hv : m.currentView
    case formView => exact updateView_form_noPending env m msg out hv hp h
    case postsView => exact updateView_posts_noPending env m msg out hv hp h
    case topicsView => exact updateView_topics_noPending env m msg out hv hp h
    case forumsView => exact updateView_forums_noPending env m msg out hv hp h
    case adminView => exact updateView_admin_noPending env m msg out hv hp h
    case userManagementView => exact updateView_userManagement_noPending env m msg out hv hp h
    case forumManagementView => exact updateView_forumManagement_noPending env m msg out hv hp h
    case settingsView => exact updateView_settings_noPending env m msg out hv hp h
    case mainMenuView =>
      simp only [mainModel.updateView, hv, bind, Except.bind] at h
      split at h
      · cases h
      rename_i r hr
      cases h
      exact updateMainMenu_noPending _ _ _ hp hr
  obtain ⟨h1, h2, h3, h4, h5, h6, h7, h8⟩ := noPending_iff.1 hp
  cases msg
  case KeyMsg k => exact hview h
  case WindowSizeMsg w ht => exact hview h
  case userCreatedMsg => exact hview h
  case topicsLoadedMsg ts e => exact hview h
  case reloadTopicsMsg => exact hview h
  case postsLoadedMsg ps e => exact hview h
  case reloadPostsMsg => exact hview h
  case widgetMsg t => exact hview h
  case statusMessageTimeoutMsg => cases h; exact hp
  case statusMessage s t => cases h; exact hp
  case errorMsg e => cases h; exact hp
  case passwordUpdatedMsg => cases h; exact hp
  case topicCreatedMsg f =>
    cases h
    exact noPending_iff.2 ⟨h1, h2, h3, h4, h5, rfl, rfl, h8⟩
  case postCreatedMsg t =>
    cases h
    exact noPending_iff.2 ⟨h1, h2, h3, h4, h5, h6, h7, rfl⟩
  case navigateBackMsg =>
    simp only [mainModel.Update, bind, Except.bind] at h
    repeat' split at h
    all_goals (cases h <;> exact hp)
  case forumsLoadedMsg fs =>
    simp only [mainModel.Update, bind, Except.bind] at h
    split at h
    · cases h
    rename_i r hr
    cases h
    have e := forumsModel_Update_navToTopics _ _ _ _ hr
    rcases forumsModel_Update_frame _ _ _ _ hr with e1 | e1 <;> rw [noPending_iff, e1] <;>
      exact ⟨h1, h2, h3, h4, e.trans h5, h6, h7, h8⟩
  case usersLoadedMsg us =>
    simp only [mainModel.Update, bind, Except.bind] at h
    split at h
    · cases h
    cases h
    exact hp

theorem reachable_noPending (user role : String) (m : mainModel) (h : Reachable user role m) :
    NoPending m := by
  induction h with
  | init => rfl
  | step env msg m out _ hu ih => exact Update_noPending env m msg out ih hu

/-! ### The role and the user of the session -/

theorem forwardNav_role (env : Env) (m : mainModel) (cmd : Cmd) (r : mainModel × Cmd)
    (h : mainModel.forwardNav env m cmd = .ok r) : r.1.Role = m.Role ∧ r.1.User = m.User := by
  simp only [mainModel.forwardNav, bind, Except.bind] at h
  repeat' split at h
  all_goals (cases h <;> exact ⟨rfl, rfl⟩)

set_option linter.unusedTactic false in
theorem updateMainMenu_role (m : mainModel) (msg : Msg) (r : mainModel × Cmd)
    (h : m.updateMainMenu msg = .ok r) : r.1.Role = m.Role ∧ r.1.User = m.User := by
  cases msg <;> simp only [mainModel.updateMainMenu, forumsModel.Init, deref, bind, Except.bind] at h <;>
    repeat' split at h
  all_goals (cases h <;> exact ⟨rfl, rfl⟩)

theorem updateView_role (env : Env) (m : mainModel) (msg : Msg) (out : Out)
    (h : mainModel.updateView env m msg = .ok out) :
    out.model.Role = m.Role ∧ out.model.User = m.User := by
  cases hv : m.currentView <;> simp only [mainModel.updateView, hv, bind, Except.bind] at h
  case mainMenuView =>
    split at h
    · cases h
    rename_i r hr
    cases h
    exact updateMainMenu_role _ _ _ hr
  case forumsView =>
    split at h
    · cases h
    rename_i r hr
    split at h
    · cases h
    rename_i n hn
    cases h
    have := forwardNav_role _ _ _ _ hn
    rcases forumsModel_Update_frame _ _ _ _ hr with e | e <;> rw [e] at this <;> exact this
  case settingsView =>
    split at h
    · cases h
    rename_i r hr
    obtain ⟨p, ret, c⟩ := r
    cases ret with
    | main => cases h
    | self s =>
      simp only [] at h
      split at h
      · cases h
      rename_i n hn
      cases h
      have := forwardNav_role _ _ _ _ hn
      rw [settingsModel_Update_frame _ _ _ _ _ _ hr] at this
      exact this
  case adminView =>
    split at h
    · cases h
    rename_i r hr
    obtain ⟨ret, c⟩ := r
    cases ret with
    | main => cases h; exact ⟨rfl, rfl⟩
    | self s =>
      simp only [] at h
      split at h
      · cases h
      rename_i n hn
      cases h
      have := forwardNav_role _ _ _ _ hn
      exact this
  all_goals
    split at h
    · cases h
    rename_i r hr
    split at h
    · cases h
    rename_i n hn
    cases h
    have := forwardNav_role _ _ _ _ hn
    exact this

theorem Update_role (env : Env) (m : mainModel) (msg : Msg) (out : Out)
    (h : mainModel.Update env m msg = .ok out) :
    out.model.Role = m.Role ∧ out.model.User = m.User := by
  cases msg
  case KeyMsg k => exact updateView_role env m _ out h
  case WindowSizeMsg w ht => exact updateView_role env m _ out h
  case userCreatedMsg => exact updateView_role env m _ out h
  case topicsLoadedMsg ts e => exact updateView_role env m _ out h
  case reloadTopicsMsg => exact updateView_role env m _ out h
  case postsLoadedMsg ps e => exact updateView_role env m _ out h
  case reloadPostsMsg => exact updateView_role env m _ out h
  case widgetMsg t => exact updateView_role env m _ out h
  case statusMessageTimeoutMsg => cases h; exact ⟨rfl, rfl⟩
  case statusMessage s t => cases h; exact ⟨rfl, rfl⟩
  case errorMsg e => cases h; exact ⟨rfl, rfl⟩
  case passwordUpdatedMsg => cases h; exact ⟨rfl, rfl⟩
  case topicCreatedMsg f => cases h; exact ⟨rfl, rfl⟩
  case postCreatedMsg t => cases h; exact ⟨rfl, rfl⟩
  case navigateBackMsg =>
    simp only [mainModel.Update, bind, Except.bind] at h
    repeat' split at h
    all_goals (cases h <;> exact ⟨rfl, rfl⟩)
  case forumsLoadedMsg fs =>
    simp only [mainModel.Update, bind, Except.bind] at h
    split at h
    · cases h
    rename_i r hr
    cases h
    rcases forumsModel_Update_frame _ _ _ _ hr with e | e <;> rw [e] <;> exact ⟨rfl, rfl⟩
  case usersLoadedMsg us =>
    simp only [mainModel.Update, bind, Except.bind] at h
    split at h
    · cases h
    cases h
    exact ⟨rfl, rfl⟩

theorem reachable_role (user role : String) (m : mainModel) (h : Reachable user role m) :
    m.Role = role ∧ m.User = user := by
  induction h with
  | init => exact ⟨rfl, rfl⟩
  | step env msg m out _ hu ih =>
    obtain ⟨h1, h2⟩ := Update_role env m msg out hu
    exact ⟨h1.trans ih.1, h2.trans ih.2⟩


/-! ### Sessions whose role is not admin -/

theorem forwardNav_nonAdmin (env : Env) (m : mainModel) (cmd : Cmd) (r : mainModel × Cmd)
    (hn : NonAdminState m) (h : mainModel.forwardNav env m cmd = .ok r) : NonAdminState r.1 := by
  obtain ⟨ha, hv, hc⟩ := hn
  simp only [mainModel.forwardNav, ha, flagSet_none, Bool.false_eq_true, if_false, bind,
    Except.bind] at h
  repeat' split at h
  all_goals (cases h <;> exact ⟨by simp [ha], by simp [hv], hc⟩)

theorem index_mem {α : Type} (xs : List α) (i : Int) (a : α) (h : index xs i = .ok a) : a ∈ xs := by
  unfold index at h
  split at h
  · cases h
  split at h
  · rename_i b hb
    cases h
    exact List.get?_mem hb
  · cases h

set_option linter.unusedTactic false in
theorem updateMainMenu_nonAdmin (m : mainModel) (msg : Msg) (r : mainModel × Cmd)
    (hn : NonAdminState m) (hmenu : m.currentView = view.mainMenuView)
    (h : m.updateMainMenu msg = .ok r) : NonAdminState r.1 := by
  obtain ⟨ha, hv, hc⟩ := hn
  cases msg <;> simp only [mainModel.updateMainMenu, forumsModel.Init, deref, bind, Except.bind] at h <;>
    repeat' split at h
  all_goals first
    | (subst_vars; exfalso; apply hc; apply index_mem m.Choices m.Cursor; assumption)
    | (cases h <;> exact ⟨ha, by simp [hmenu], hc⟩)

theorem adminModel_Update_nil (env : Env) (msg : Msg) (r : Returned adminModel × Cmd) :
    adminModel.Update env none msg ≠ .ok r := by
  intro h
  cases msg <;> simp only [adminModel.Update, deref, bind, Except.bind] at h <;>
    repeat' split at h
  all_goals cases h

theorem updateView_nonAdmin (env : Env) (m : mainModel) (msg : Msg) (out : Out)
    (hn : NonAdminState m) (h : mainModel.updateView env m msg = .ok out) :
    NonAdminState out.model := by
  have ha := hn.adminModel
  have hv := hn.view
  have hc := hn.choices
  cases hcv : m.currentView <;> simp only [mainModel.updateView, hcv, bind, Except.bind] at h
  case mainMenuView =>
    split at h
    · cases h
    rename_i r hr
    cases h
    exact updateMainMenu_nonAdmin _ _ _ hn hcv hr
  case forumManagementView => exact absurd hcv hv
  case adminView =>
    rw [ha] at h
    split at h
    · cases h
    rename_i r hr
    exact absurd hr (adminModel_Update_nil env msg r)
  case forumsView =>
    split at h
    · cases h
    rename_i r hr
    split at h
    · cases h
    rename_i n hnav
    cases h
    refine forwardNav_nonAdmin env _ _ n ?_ hnav
    rcases forumsModel_Update_frame _ _ _ _ hr with e | e <;> rw [e] <;>
      exact ⟨ha, by simp [hcv], hc⟩
  case settingsView =>
    split at h
    · cases h
    rename_i r hr
    obtain ⟨p, ret, c⟩ := r
    cases ret with
    | main => cases h
    | self s =>
      simp only [] at h
      split at h
      · cases h
      rename_i n hnav
      cases h
      refine forwardNav_nonAdmin env _ _ n ?_ hnav
      rw [settingsModel_Update_frame _ _ _ _ _ _ hr]
      exact ⟨ha, by simp [hcv], hc⟩
  all_goals
    split at h
    · cases h
    rename_i r hr
    split at h
    · cases h
    rename_i n hnav
    cases h
    refine forwardNav_nonAdmin env _ _ n ?_ hnav
    exact ⟨ha, by simp, hc⟩

theorem backView_ne_forumManagement (s : String) (v : view) (hv : v ≠ view.forumManagementView) :
    backView s v ≠ view.forumManagementView := by
  unfold backView
  repeat' split
  all_goals first | exact hv | decide

theorem Update_nonAdmin (env : Env) (m : mainModel) (msg : Msg) (out : Out)
    (hn : NonAdminState m) (h : mainModel.Update env m msg = .ok out) :
    NonAdminState out.model := by
  have ha := hn.adminModel
  have hv := hn.view
  have hc := hn.choices
  cases msg
  case KeyMsg k => exact updateView_nonAdmin env m _ out hn h
  case WindowSizeMsg w ht => exact updateView_nonAdmin env m _ out hn h
  case userCreatedMsg => exact updateView_nonAdmin env m _ out hn h
  case topicsLoadedMsg ts e => exact updateView_nonAdmin env m _ out hn h
  case reloadTopicsMsg => exact updateView_nonAdmin env m _ out hn h
  case postsLoadedMsg ps e => exact updateView_nonAdmin env m _ out hn h
  case reloadPostsMsg => exact updateView_nonAdmin env m _ out hn h
  case widgetMsg t => exact updateView_nonAdmin env m _ out hn h
  case statusMessageTimeoutMsg => cases h; exact ⟨ha, hv, hc⟩
  case statusMessage s t => cases h; exact ⟨ha, by simp, hc⟩
  case errorMsg e => cases h; exact ⟨ha, hv, hc⟩
  case passwordUpdatedMsg => cases h; exact ⟨ha, by simp, hc⟩
  case topicCreatedMsg f => cases h; exact ⟨ha, by simp, hc⟩
  case postCreatedMsg t => cases h; exact ⟨ha, by simp, hc⟩
  case navigateBackMsg =>
    by_cases hl : 1 < m.breadcrumbs.length
    · obtain ⟨v, _, hu⟩ := navigateBack_pop env m hl
      rw [hu] at h
      cases h
      exact ⟨ha, backView_ne_forumManagement _ _ hv, hc⟩
    · rw [navigateBack_home env m hl] at h
      cases h
      exact hn
  case forumsLoadedMsg fs =>
    simp only [mainModel.Update, bind, Except.bind] at h
    split at h
    · cases h
    rename_i r hr
    cases h
    rcases forumsModel_Update_frame _ _ _ _ hr with e | e <;> rw [e] <;> exact ⟨ha, hv, hc⟩
  case usersLoadedMsg us =>
    simp only [mainModel.Update, bind, Except.bind] at h
    split at h
    · cases h
    cases h
    exact ⟨ha, hv, hc⟩

/-- In a session whose role is not "admin" no admin model is ever made and
Forum Management is never the active screen. -/
theorem reachable_nonAdmin (user role : String) (m : mainModel) (hrole : role ≠ "admin")
    (h : Reachable user role m) : NonAdminState m := by
  induction h with
  | init => exact ⟨rfl, by simp [InitialModel], by simp [InitialModel, hrole]⟩
  | step env msg m out _ hu ih => exact Update_nonAdmin env m msg out ih hu

/-! ### Failure messages -/

theorem statusMessage_makes_settings_active (env : Env) (m : mainModel) (success : Bool)
    (message : String) :
    mainModel.Update env m (Msg.statusMessage success message) =
      .ok ⟨{ m with
              statusMessage := if success then message else "Erro: " ++ message
              currentView := view.settingsView },
            Cmd.statusTimeout 5, []⟩ := rfl

theorem errorMsg_keeps_screen (env : Env) (m : mainModel) (err : String) :
    mainModel.Update env m (Msg.errorMsg err) =
      .ok ⟨{ m with isLoading := false, statusMessage := "Erro: " ++ err },
            Cmd.statusTimeout 5, []⟩ := rfl

theorem failed_topics_load_returns_quit (user role : String) (env : Env) (m : mainModel)
    (topics : List Topic) (err : String)
    (hr : Reachable user role m) (hv : m.currentView = view.topicsView) :
    mainModel.Update env m (Msg.topicsLoadedMsg topics (some err)) = .ok ⟨m, Cmd.Quit, []⟩ := by
  have hp := reachable_noPending _ _ _ hr
  have hm : { m with currentView := view.topicsView, topicsModel := m.topicsModel } = m := by
    rw [← hv]
  have hu : topicsModel.Update m m.topicsModel (Msg.topicsLoadedMsg topics (some err)) =
      .ok (m.topicsModel, Cmd.Quit) := by
    simp [topicsModel.Update]
  show mainModel.updateView env m _ = _
  simp only [mainModel.updateView, hv, hu, bind, Except.bind, hm,
    forwardNav_of_noPending env _ Cmd.Quit hp]

theorem failed_posts_load_returns_quit (user role : String) (env : Env) (m : mainModel)
    (posts : List Post) (err : String)
    (hr : Reachable user role m) (hv : m.currentView = view.postsView) :
    mainModel.Update env m (Msg.postsLoadedMsg posts (some err)) = .ok ⟨m, Cmd.Quit, []⟩ := by
  have hp := reachable_noPending _ _ _ hr
  have hm : { m with currentView := view.postsView, postsModel := m.postsModel } = m := by
    rw [← hv]
  have hu : postsModel.Update m m.postsModel (Msg.postsLoadedMsg posts (some err)) =
      .ok (m.postsModel, Cmd.Quit) := by
    simp [postsModel.Update]
  show mainModel.updateView env m _ = _
  simp only [mainModel.updateView, hv, hu, bind, Except.bind, hm,
    forwardNav_of_noPending env _ Cmd.Quit hp]

/-! ### Sample sessions -/

theorem runMsgs_reachable (user role : String) (env : Env) (msgs : List Msg) :
    ∀ m m' : mainModel, Reachable user role m → runMsgs env m msgs = some m' →
      Reachable user role m' := by
  induction msgs with
  | nil => intro m m' hr h; cases h; exact hr
  | cons msg rest ih =>
    intro m m' hr h
    simp only [runMsgs] at h
    split at h
    · rename_i out hu
      exact ih out.model m' (Reachable.step env msg m out hr hu) h
    · cases h

/-! ### The claims -/

/-- Claim C1: in every state with at least one breadcrumb, `navigateBackMsg`
removes exactly the last breadcrumb when there are more than one (only the
breadcrumbs and the view may change, no command is returned), leaves the whole
state unchanged when there is exactly one, and `k` of them in a row leave
`max 1 (n - k)` breadcrumbs out of `n`. -/
theorem C1_navigateBack_pops_one_breadcrumb (env : Env) (m : mainModel) (k : Nat)
    (h : 1 ≤ m.breadcrumbs.length) :
    (1 < m.breadcrumbs.length →
      ∃ v, mainModel.Update env m Msg.navigateBackMsg =
        .ok ⟨{ m with breadcrumbs := m.breadcrumbs.dropLast, currentView := v }, Cmd.nil, []⟩) ∧
    (m.breadcrumbs.length = 1 →
      mainModel.Update env m Msg.navigateBackMsg = .ok ⟨m, Cmd.nil, []⟩) ∧
    (∃ m', runMsgs env m (List.replicate k Msg.navigateBackMsg) = some m' ∧
      m'.breadcrumbs.length = max 1 (m.breadcrumbs.length - k)) := by
  refine ⟨fun h1 => ?_, fun h1 => navigateBack_home env m (by omega), navigateBack_iterate env k m h⟩
  obtain ⟨v, _, hu⟩ := navigateBack_pop env m h1
  exact ⟨_, hu⟩


theorem userOnTopics_run :
    runMsgs sampleEnv (InitialModel "ana" "user") toTopics = some userOnTopics := by
  decide

theorem userOnPosts_run :
    runMsgs sampleEnv (InitialModel "ana" "user") toPosts = some userOnPosts := by
  decide

/-- The statement of C1 at the Posts screen of the sample session, four
breadcrumbs deep, with six back steps. -/
theorem C1_navigateBack_witness :
    1 ≤ userOnPosts.breadcrumbs.length ∧
    (1 < userOnPosts.breadcrumbs.length →
      ∃ v, mainModel.Update sampleEnv userOnPosts Msg.navigateBackMsg =
        .ok ⟨{ userOnPosts with
                breadcrumbs := userOnPosts.breadcrumbs.dropLast, currentView := v }, Cmd.nil, []⟩) ∧
    (userOnPosts.breadcrumbs.length = 1 →
      mainModel.Update sampleEnv userOnPosts Msg.navigateBackMsg = .ok ⟨userOnPosts, Cmd.nil, []⟩) ∧
    (∃ m', runMsgs sampleEnv userOnPosts (List.replicate 6 Msg.navigateBackMsg) = some m' ∧
      m'.breadcrumbs.length = max 1 (userOnPosts.breadcrumbs.length - 6)) :=
  ⟨by decide, C1_navigateBack_pops_one_breadcrumb sampleEnv userOnPosts 6 (by decide)⟩

/-- Claim C2, the code at the failing input: a user opens Forums, selects the
forum "Geral", selects its topic "Olá" (Posts is active, the breadcrumbs are
Home, Fóruns, Geral, Olá) and goes back once. The last breadcrumb is removed
and the topics model is the one from before, but the active screen is still
Posts: the label "Geral" on top of the breadcrumbs has no case in the switch
of the `navigateBackMsg` handler. -/
theorem C2_back_from_posts_keeps_posts_active :
    (runMsgs sampleEnv (InitialModel "ana" "user") toPosts).map
        (fun m => (m.currentView, m.breadcrumbs)) =
      some (view.postsView, ["Home", "Fóruns", "Geral", "Olá"]) ∧
    (runMsgs sampleEnv (InitialModel "ana" "user") (toPosts ++ [Msg.navigateBackMsg])).map
        (fun m => (m.currentView, m.breadcrumbs)) =
      some (view.postsView, ["Home", "Fóruns", "Geral"]) ∧
    (runMsgs sampleEnv (InitialModel "ana" "user") (toPosts ++ [Msg.navigateBackMsg])).map
        (fun m => m.topicsModel) =
      (runMsgs sampleEnv (InitialModel "ana" "user") toPosts).map (fun m => m.topicsModel) := by
  decide

/-- Claim C3, the code at the failing input: a moderator on the Topics screen
of "Geral" (three breadcrumbs) opens the new-topic form (four breadcrumbs, the
last one "Novo Tópico"), submits the title "Oi", and the command returned by
the submit delivers `topicCreatedMsg`. After that message is handled the
active screen is Topics again, but the breadcrumbs still are the four of the
form and the last one still is "Novo Tópico". -/
theorem C3_topicCreated_keeps_form_breadcrumb :
    (runMsgs sampleEnv (InitialModel "bia" "moderator") toTopics).map
        (fun m => (m.currentView, m.breadcrumbs)) =
      some (view.topicsView, ["Home", "Fóruns", "Geral"]) ∧
    (runMsgs sampleEnv (InitialModel "bia" "moderator")
        (toTopics ++ [charKey 'n', charKey 'O', charKey 'i'])).map
        (fun m => (mainModel.Update sampleEnv m (keyOf KeyType.KeyEnter)).map
          fun out => (out.cmd.run sampleStore).map fun r => r.1) =
      some (.ok (.ok [Msg.topicCreatedMsg (some forumGeral)])) ∧
    (runMsgs sampleEnv (InitialModel "bia" "moderator")
        (toSubmittedTopic ++ [Msg.topicCreatedMsg (some forumGeral)])).map
        (fun m => (m.currentView, m.breadcrumbs)) =
      some (view.topicsView, ["Home", "Fóruns", "Geral", "Novo Tópico"]) := by
  exact ⟨by decide, by rfl, by decide⟩

/-- Claim C4, the code at the failing input: a session with role "user"
reaches a state whose active screen is the Admin screen. -/
theorem C4_user_reaches_adminView :
    ∃ m, Reachable "ana" "user" m ∧ m.Role = "user" ∧ m.currentView = view.adminView ∧
      m.breadcrumbs = ["Home", "Fóruns", "Administração"] ∧ m.adminModel = none := by
  have h : ∃ m, runMsgs sampleEnv (InitialModel "ana" "user") toAdminByLabel = some m ∧
      m.Role = "user" ∧ m.currentView = view.adminView ∧
      m.breadcrumbs = ["Home", "Fóruns", "Administração"] ∧ m.adminModel = none := by
    decide
  obtain ⟨m, hm, h1⟩ := h
  exact ⟨m, runMsgs_reachable _ _ _ _ _ _ Reachable.init hm, h1⟩

theorem noPending_set_topics (m : mainModel) (tm : topicsModel) (ts : List Topic)
    (hp : NoPending m) (ht : m.topicsModel = some tm) :
    NoPending { m with topicsModel := some { tm with topics := ts } } := by
  obtain ⟨h1, h2, h3, h4, h5, h6, h7, h8⟩ := noPending_iff.1 hp
  rw [ht] at h6 h7
  exact noPending_iff.2 ⟨h1, h2, h3, h4, h5, h6, h7, h8⟩

theorem matches_of_string (k : KeyMsg) (s : String) (b : Binding) (h : k.String = s) :
    Matches k b = b.keys.contains s := by
  simp [Matches, h]

/-- Claim C5: in every state of a session with role "user", with Topics
active and no confirmation overlay, the keys `n` and `d` return the state
unchanged, no command and no store call; with Posts active and no overlay,
the key `d` does the same. -/
theorem C5_user_new_and_delete_keys_do_nothing (user : String) (env : Env) (m : mainModel)
    (hr : Reachable user "user" m) :
    (∀ tm k, m.currentView = view.topicsView → m.topicsModel = some tm →
      tm.confirmingDelete = false → (k.String = "n" ∨ k.String = "d") →
      mainModel.Update env m (Msg.KeyMsg k) = .ok ⟨m, Cmd.nil, []⟩) ∧
    (∀ pm k, m.currentView = view.postsView → m.postsModel = some pm →
      pm.confirmingDelete = false → k.String = "d" →
      mainModel.Update env m (Msg.KeyMsg k) = .ok ⟨m, Cmd.nil, []⟩) := by
  have hp := reachable_noPending _ _ _ hr
  have hrole := (reachable_role _ _ _ hr).1
  constructor
  · intro tm k hv ht hc hk
    have hm : { m with currentView := view.topicsView, topicsModel := some tm } = m := by
      rw [← ht, ← hv]
    have hu : topicsModel.Update m (some tm) (Msg.KeyMsg k) = .ok (some tm, Cmd.nil) := by
      rcases hk with hk | hk <;>
        simp [topicsModel.Update, deref, bind, Except.bind, hc, matches_of_string k _ _ hk,
          DefaultKeyMap, hrole]
    show mainModel.updateView env m (Msg.KeyMsg k) = _
    simp only [mainModel.updateView, hv, ht, hu, bind, Except.bind, hm,
      forwardNav_of_noPending env m Cmd.nil hp]
  · intro pm k hv ht hc hk
    have hm : { m with currentView := view.postsView, postsModel := some pm } = m := by
      rw [← ht, ← hv]
    have hu : postsModel.Update m (some pm) (Msg.KeyMsg k) = .ok (some pm, Cmd.nil) := by
      simp [postsModel.Update, deref, bind, Except.bind, hc, matches_of_string k _ _ hk,
        DefaultKeyMap, hrole]
    show mainModel.updateView env m (Msg.KeyMsg k) = _
    simp only [mainModel.updateView, hv, ht, hu, bind, Except.bind, hm,
      forwardNav_of_noPending env m Cmd.nil hp]


/-- The statement of C5 at the Topics and Posts screens of the sample session
of the user "ana", for the keys `n` and `d`. -/
theorem C5_user_keys_witness :
    Reachable "ana" "user" userOnTopics ∧ Reachable "ana" "user" userOnPosts ∧
    mainModel.Update sampleEnv userOnTopics (charKey 'n') = .ok ⟨userOnTopics, Cmd.nil, []⟩ ∧
    mainModel.Update sampleEnv userOnTopics (charKey 'd') = .ok ⟨userOnTopics, Cmd.nil, []⟩ ∧
    mainModel.Update sampleEnv userOnPosts (charKey 'd') = .ok ⟨userOnPosts, Cmd.nil, []⟩ :=
  have h1 : Reachable "ana" "user" userOnTopics :=
    runMsgs_reachable _ _ _ _ _ _ Reachable.init userOnTopics_run
  have h2 : Reachable "ana" "user" userOnPosts :=
    runMsgs_reachable _ _ _ _ _ _ Reachable.init userOnPosts_run
  ⟨h1, h2,
    (C5_user_new_and_delete_keys_do_nothing "ana" sampleEnv userOnTopics h1).1 _ (runeKey 'n')
      rfl rfl rfl (Or.inl (by decide)),
    (C5_user_new_and_delete_keys_do_nothing "ana" sampleEnv userOnTopics h1).1 _ (runeKey 'd')
      rfl rfl rfl (Or.inr (by decide)),
    (C5_user_new_and_delete_keys_do_nothing "ana" sampleEnv userOnPosts h2).2 _ (runeKey 'd')
      rfl rfl rfl (by decide)⟩


/-- Claim C6, the code at the failing input: the moderator "bia" on the Topics
screen of "Geral" presses `d` and confirms with `s`; the command returned is
the delete closure for topic 10, which against a store whose calls fail
delivers the failure `statusMessage`. Handling that message sets the banner,
leaves the breadcrumbs as they are, and makes Settings the active screen, for
which this session holds no model. -/
theorem C6_failed_delete_leaves_topics_screen :
    runMsgs sampleEnv (InitialModel "bia" "moderator") (toTopics ++ [charKey 'd']) =
      some moderatorConfirming ∧
    mainModel.Update sampleEnv moderatorConfirming (charKey 's') =
      .ok ⟨{ moderatorConfirming with
              topicsModel :=
                some { NewTopicsModel (some forumGeral) with topics := [topicOla] } },
            Cmd.deleteTopic 10, []⟩ ∧
    Cmd.run failingStore (Cmd.deleteTopic 10) =
      .ok ([Msg.statusMessage false "Erro ao deletar tópico: database is locked"],
        [StoreCall.DeleteTopic 10]) ∧
    (runMsgs sampleEnv (InitialModel "bia" "moderator")
        (toTopics ++ [charKey 'd', charKey 's',
          Msg.statusMessage false "Erro ao deletar tópico: database is locked"])).map
        (fun m => (m.currentView, m.breadcrumbs, m.statusMessage, m.settingsModel)) =
      some (view.settingsView, ["Home", "Fóruns", "Geral"],
        "Erro: Erro ao deletar tópico: database is locked", none) :=
  ⟨by decide, by rfl, by rfl, by decide⟩

/-- Claim C7, the code at the failing input: a user selects the forum "Geral";
the update returns the load closure of the new Topics screen, which against a
store whose calls fail delivers `topicsLoadedMsg` with an error. Handling that
message returns `tea.Quit`. For Posts, a `postsLoadedMsg` with an error does
the same. -/
theorem C7_failed_topics_load_quits :
    (runMsgs sampleEnv (InitialModel "ana" "user")
        [keyOf KeyType.KeyEnter, Msg.forumsLoadedMsg [forumGeral, forumAjuda]]).map
        (fun m => (mainModel.Update sampleEnv m (keyOf KeyType.KeyEnter)).toOption.map
          fun out => (out.model.currentView, out.cmd)) =
      some (some (view.topicsView, Cmd.topicsInit (some forumGeral))) ∧
    (Cmd.run failingStore (Cmd.topicsInit (some forumGeral))).toOption =
      some ([Msg.topicsLoadedMsg [] (some "database is locked")],
        [StoreCall.GetTopicsByForumID 1]) ∧
    (runMsgs sampleEnv (InitialModel "ana" "user")
        [keyOf KeyType.KeyEnter, Msg.forumsLoadedMsg [forumGeral, forumAjuda],
          keyOf KeyType.KeyEnter]).map
        (fun m => (mainModel.Update sampleEnv m
            (Msg.topicsLoadedMsg [] (some "database is locked"))).toOption.map
          fun out => (out.cmd, out.cmd.quits)) =
      some (some (Cmd.Quit, true)) ∧
    (mainModel.Update sampleEnv userOnPosts
        (Msg.postsLoadedMsg [] (some "database is locked"))).toOption.map
        (fun out => (out.cmd, out.cmd.quits)) =
      some (Cmd.Quit, true) := by
  decide

/-- Counterexample to C8 as stated: the Topics screen of "Geral" issues its
load, the user goes back and opens the Topics screen of "Ajuda", whose list is
empty; the message that the load of "Geral" delivers is then handled, and the
list shown for "Ajuda" becomes the topics of "Geral". -/
theorem C8_stale_result_replaces_list :
    forumGeral ≠ forumAjuda ∧
    (runMsgs sampleEnv (InitialModel "ana" "user")
        [keyOf KeyType.KeyEnter, Msg.forumsLoadedMsg [forumGeral, forumAjuda]]).map
        (fun m => (mainModel.Update sampleEnv m (keyOf KeyType.KeyEnter)).toOption.map
          fun out => out.cmd) =
      some (some (Cmd.topicsInit (some forumGeral))) ∧
    (Cmd.run sampleStore (Cmd.topicsInit (some forumGeral))).toOption.map (fun r => r.1) =
      some [Msg.topicsLoadedMsg [topicOla] none] ∧
    runMsgs sampleEnv (InitialModel "ana" "user") toTopicsOfSecondForum =
      some userOnTopicsOfAjuda ∧
    userOnTopicsOfAjuda.topicsModel = some (NewTopicsModel (some forumAjuda)) ∧
    (mainModel.Update sampleEnv userOnTopicsOfAjuda (Msg.topicsLoadedMsg [topicOla] none)).toOption.map
        (fun out => out.model.topicsModel) =
      some (some { NewTopicsModel (some forumAjuda) with topics := [topicOla] }) ∧
    ¬ ((mainModel.Update sampleEnv userOnTopicsOfAjuda
          (Msg.topicsLoadedMsg [topicOla] none)).toOption.map
        (fun out => out.model.topicsModel.map fun t => t.topics) =
      some (userOnTopicsOfAjuda.topicsModel.map fun t => t.topics)) := by
  decide

/-- Claim C8 as amended: a `topicsLoadedMsg` without error is applied to the
Topics screen that is active when it is handled, whichever screen issued the
load: in every state of a session with Topics active, the list of the active
topics model becomes the list of the message, and nothing else changes. -/
theorem C8_load_result_goes_to_active_topics_screen (user role : String) (env : Env)
    (m : mainModel) (tm : topicsModel) (topics : List Topic)
    (hr : Reachable user role m) (hv : m.currentView = view.topicsView)
    (ht : m.topicsModel = some tm) :
    mainModel.Update env m (Msg.topicsLoadedMsg topics none) =
      .ok ⟨{ m with topicsModel := some { tm with topics := topics } }, Cmd.nil, []⟩ := by
  have hp := noPending_set_topics m tm topics (reachable_noPending _ _ _ hr) ht
  have hm : { m with
      currentView := view.topicsView
      topicsModel := some { tm with topics := topics } } =
      { m with topicsModel := some { tm with topics := topics } } := by rw [← hv]
  have hu : topicsModel.Update m (some tm) (Msg.topicsLoadedMsg topics none) =
      .ok (some { tm with topics := topics }, Cmd.nil) := by
    simp [topicsModel.Update, deref, bind, Except.bind]
  show mainModel.updateView env m _ = _
  simp only [mainModel.updateView, hv, ht, hu, bind, Except.bind, hm,
    forwardNav_of_noPending env _ Cmd.nil hp]

/-- The amended C8 at the Topics screen of "Ajuda" of the sample session,
for the list loaded for "Geral". -/
theorem C8_load_result_witness :
    Reachable "ana" "user" userOnTopicsOfAjuda ∧
    mainModel.Update sampleEnv userOnTopicsOfAjuda (Msg.topicsLoadedMsg [topicOla] none) =
      .ok ⟨{ userOnTopicsOfAjuda with
              topicsModel := some { NewTopicsModel (some forumAjuda) with topics := [topicOla] } },
            Cmd.nil, []⟩ :=
  have h : Reachable "ana" "user" userOnTopicsOfAjuda :=
    runMsgs_reachable _ _ sampleEnv toTopicsOfSecondForum _ _ Reachable.init (by decide)
  ⟨h, C8_load_result_goes_to_active_topics_screen "ana" "user" sampleEnv userOnTopicsOfAjuda
    (NewTopicsModel (some forumAjuda)) [topicOla] h rfl rfl⟩

/-- Claim C9: in every state of a session with Topics active, if
`navigateBackMsg` makes Forums the active screen, then in the state it leaves
a `topicsLoadedMsg` with any list and any error is handled without a panic and
returns that state unchanged, with no command and no store call. -/
theorem C9_late_topics_result_on_forums_is_ignored (user role : String) (env env' : Env)
    (m : mainModel) (out : Out) (topics : List Topic) (err : Option String)
    (hr : Reachable user role m) (_hv : m.currentView = view.topicsView)
    (hb : mainModel.Update env m Msg.navigateBackMsg = .ok out)
    (hf : out.model.currentView = view.forumsView) :
    mainModel.Update env' out.model (Msg.topicsLoadedMsg topics err) =
      .ok ⟨out.model, Cmd.nil, []⟩ := by
  have hp := reachable_noPending _ _ _ (Reachable.step env _ m out hr hb)
  have hm : { out.model with
      currentView := view.forumsView, forumsModel := out.model.forumsModel } = out.model := by
    rw [← hf]
  have hu : forumsModel.Update out.model out.model.forumsModel (Msg.topicsLoadedMsg topics err) =
      .ok (out.model, out.model.forumsModel, Cmd.nil) := rfl
  show mainModel.updateView env' out.model _ = _
  simp only [mainModel.updateView, hf, hu, bind, Except.bind, hm,
    forwardNav_of_noPending env' _ Cmd.nil hp]

/-- The statement of C9 at the Topics screen of the sample session: going
back makes Forums active, and the late result of the load changes nothing. -/
theorem C9_late_topics_result_witness :
    Reachable "ana" "user" userOnTopics ∧
    userOnTopics.currentView = view.topicsView ∧
    mainModel.Update sampleEnv userOnTopics Msg.navigateBackMsg =
      .ok ⟨userBackOnForums, Cmd.nil, []⟩ ∧
    userBackOnForums.currentView = view.forumsView ∧
    mainModel.Update sampleEnv userBackOnForums (Msg.topicsLoadedMsg [topicOla] none) =
      .ok ⟨userBackOnForums, Cmd.nil, []⟩ :=
  have h : Reachable "ana" "user" userOnTopics :=
    runMsgs_reachable _ _ _ _ _ _ Reachable.init userOnTopics_run
  have hb : mainModel.Update sampleEnv userOnTopics Msg.navigateBackMsg =
      .ok ⟨userBackOnForums, Cmd.nil, []⟩ := by rfl
  ⟨h, rfl, hb, rfl,
    C9_late_topics_result_on_forums_is_ignored "ana" "user" sampleEnv sampleEnv userOnTopics
      ⟨userBackOnForums, Cmd.nil, []⟩ [topicOla] none h rfl hb rfl⟩

/-! ### The confirmation overlay -/

theorem topicsModel_overlay_suppresses_keys (parent : mainModel) (tm : topicsModel) (k : KeyMsg)
    (hc : tm.confirmingDelete = true)
    (hk : k.String ≠ "s" ∧ k.String ≠ "S" ∧ k.String ≠ "n" ∧ k.String ≠ "N") :
    topicsModel.Update parent (some tm) (Msg.KeyMsg k) = .ok (some tm, Cmd.nil) := by
  simp [topicsModel.Update, deref, bind, Except.bind, hc, hk.1, hk.2.1, hk.2.2.1, hk.2.2.2]

theorem postsModel_overlay_suppresses_keys (parent : mainModel) (pm : postsModel) (k : KeyMsg)
    (hc : pm.confirmingDelete = true)
    (hk : k.String ≠ "s" ∧ k.String ≠ "S" ∧ k.String ≠ "n" ∧ k.String ≠ "N") :
    postsModel.Update parent (some pm) (Msg.KeyMsg k) = .ok (some pm, Cmd.nil) := by
  simp [postsModel.Update, deref, bind, Except.bind, hc, hk.1, hk.2.1, hk.2.2.1, hk.2.2.2]

/-- The method `forumManagementModel.Update` taken alone, on a screen state
that no session gets into (the list of the screen stays empty in a session):
given a list of two forums and the key `d`, it raises the overlay, and with
the overlay shown the key `down` moves the cursor to the second forum, the key
`e` requests the edit form for the forum under the cursor, and `esc` returns
the command that navigates back; the overlay stays shown. -/
theorem forumManagement_overlay_lets_keys_through :
    forumManagementModel.Update (some NewForumManagementModel)
        (Msg.forumsLoadedMsg [forumGeral, forumAjuda]) =
      .ok (some { NewForumManagementModel with forums := [forumGeral, forumAjuda] }, Cmd.nil) ∧
    forumManagementModel.Update
        (some { NewForumManagementModel with forums := [forumGeral, forumAjuda] }) (charKey 'd') =
      .ok (some forumManagementConfirming, Cmd.nil) ∧
    forumManagementModel.Update (some forumManagementConfirming) (keyOf KeyType.KeyDown) =
      .ok (some { forumManagementConfirming with cursor := 1 }, Cmd.nil) ∧
    forumManagementModel.Update (some forumManagementConfirming) (charKey 'e') =
      .ok (some { forumManagementConfirming with
                    selectedForum := some forumGeral, navigateToEditForm := true }, Cmd.nil) ∧
    forumManagementModel.Update (some forumManagementConfirming) (keyOf KeyType.KeyEsc) =
      .ok (some forumManagementConfirming, Cmd.navigateBack) :=
  ⟨by rfl, by rfl, by rfl, by rfl, by rfl⟩

/-! ### Confirm, deny and the delete key -/

theorem deleteTopic_calls (db : Store) (id : Int) :
    (Cmd.deleteTopic id).calls db = [StoreCall.DeleteTopic id] := by
  simp only [Cmd.calls, Cmd.run]
  cases db.DeleteTopic id <;> rfl

theorem deletePost_calls (db : Store) (id : Int) :
    (Cmd.deletePost id).calls db = [StoreCall.DeletePost id] := by
  simp only [Cmd.calls, Cmd.run]
  cases db.DeletePost id <;> rfl

theorem deleteForum_deletions (db : Store) (id : Int) :
    deletions ((Cmd.deleteForum id).calls db) = [StoreCall.DeleteForum id] := by
  simp only [Cmd.calls, Cmd.run]
  cases db.DeleteForum id
  · cases db.GetAllForums <;> rfl
  · rfl

/-- Claim C11: on Topics, Posts and Forum Management, with the overlay shown
and the cursor on an item of the list, the key `s` or `S` hides the overlay,
changes nothing else in the screen, and returns the delete command for the ID
of the item under the cursor; the only delete call that command makes is the
one for that ID. -/
theorem C11_confirm_deletes_item_under_cursor (db : Store) (parent : mainModel) (k : KeyMsg)
    (hk : k.String = "s" ∨ k.String = "S") :
    (∀ m : topicsModel, m.confirmingDelete = true → 0 ≤ m.cursor → m.cursor < len m.topics →
      ∃ t, m.topics.get? m.cursor.toNat = some t ∧
        topicsModel.Update parent (some m) (Msg.KeyMsg k) =
          .ok (some { m with confirmingDelete := false }, Cmd.deleteTopic t.ID) ∧
        deletions ((Cmd.deleteTopic t.ID).calls db) = [StoreCall.DeleteTopic t.ID]) ∧
    (∀ m : postsModel, m.confirmingDelete = true → 0 ≤ m.cursor → m.cursor < len m.posts →
      ∃ p, m.posts.get? m.cursor.toNat = some p ∧
        postsModel.Update parent (some m) (Msg.KeyMsg k) =
          .ok (some { m with confirmingDelete := false }, Cmd.deletePost p.ID) ∧
        deletions ((Cmd.deletePost p.ID).calls db) = [StoreCall.DeletePost p.ID]) ∧
    (∀ m : forumManagementModel, m.confirmingDelete = true → 0 ≤ m.cursor →
      m.cursor < len m.forums →
      ∃ f, m.forums.get? m.cursor.toNat = some f ∧
        forumManagementModel.Update (some m) (Msg.KeyMsg k) =
          .ok (some { m with confirmingDelete := false }, Cmd.deleteForum f.ID) ∧
        deletions ((Cmd.deleteForum f.ID).calls db) = [StoreCall.DeleteForum f.ID]) := by
  refine ⟨fun m hc h0 h1 => ?_, fun m hc h0 h1 => ?_, fun m hc h0 h1 => ?_⟩
  · obtain ⟨t, hi, hg⟩ := index_ok_of_lt m.topics m.cursor h0 h1
    have hl : len m.topics > 0 := by omega
    refine ⟨t, hg, ?_, by rw [deleteTopic_calls]; rfl⟩
    simp [topicsModel.Update, deref, bind, Except.bind, hc, hk, hl, hi]
  · obtain ⟨p, hi, hg⟩ := index_ok_of_lt m.posts m.cursor h0 h1
    have hl : len m.posts > 0 := by omega
    refine ⟨p, hg, ?_, by rw [deletePost_calls]; rfl⟩
    simp [postsModel.Update, deref, bind, Except.bind, hc, hk, hl, hi]
  · obtain ⟨f, hi, hg⟩ := index_ok_of_lt m.forums m.cursor h0 h1
    have hl : len m.forums > 0 := by omega
    refine ⟨f, hg, ?_, deleteForum_deletions db f.ID⟩
    simp [forumManagementModel.Update, deref, bind, Except.bind, hc, hk, hl, hi]

/-- Claim C12: on Topics, Posts and Forum Management, with the overlay shown,
the key `n` or `N` hides the overlay, returns no command, and leaves every
other field of the screen (list, cursor, navigation requests) as it is. -/
theorem C12_deny_only_clears_overlay (parent : mainModel) (k : KeyMsg)
    (hk : k.String = "n" ∨ k.String = "N") :
    (∀ m : topicsModel, m.confirmingDelete = true →
      topicsModel.Update parent (some m) (Msg.KeyMsg k) =
        .ok (some { m with confirmingDelete := false }, Cmd.nil)) ∧
    (∀ m : postsModel, m.confirmingDelete = true →
      postsModel.Update parent (some m) (Msg.KeyMsg k) =
        .ok (some { m with confirmingDelete := false }, Cmd.nil)) ∧
    (∀ m : forumManagementModel, m.confirmingDelete = true →
      forumManagementModel.Update (some m) (Msg.KeyMsg k) =
        .ok (some { m with confirmingDelete := false }, Cmd.nil)) := by
  have hs : ¬ (k.String = "s" ∨ k.String = "S") := by
    rcases hk with h | h <;> rw [h] <;> decide
  refine ⟨fun m hc => ?_, fun m hc => ?_, fun m hc => ?_⟩
  · simp [topicsModel.Update, deref, bind, Except.bind, hc, hk, hs]
  · simp [postsModel.Update, deref, bind, Except.bind, hc, hk, hs]
  · simp [forumManagementModel.Update, deref, bind, Except.bind, hc, hk, hs]


/-- The statement of C11 at the sample screens with the overlay shown, for
the key `s`. -/
theorem C11_confirm_witness :
    topicsModel.Update userOnTopics (some topicsConfirming) (charKey 's') =
      .ok (some { topicsConfirming with confirmingDelete := false }, Cmd.deleteTopic 10) ∧
    deletions ((Cmd.deleteTopic 10).calls sampleStore) = [StoreCall.DeleteTopic 10] ∧
    postsModel.Update userOnTopics (some postsConfirming) (charKey 's') =
      .ok (some { postsConfirming with confirmingDelete := false }, Cmd.deletePost 20) ∧
    forumManagementModel.Update (some forumManagementConfirming) (charKey 's') =
      .ok (some { forumManagementConfirming with confirmingDelete := false },
        Cmd.deleteForum 1) :=
  have h := C11_confirm_deletes_item_under_cursor sampleStore userOnTopics (runeKey 's')
    (Or.inl (by decide))
  have ht := h.1 topicsConfirming rfl (by decide) (by decide)
  have hp := h.2.1 postsConfirming rfl (by decide) (by decide)
  have hf := h.2.2 forumManagementConfirming rfl (by decide) (by decide)
  ⟨by
      obtain ⟨t, hg, hu, _⟩ := ht
      cases (Option.some.inj ((show topicsConfirming.topics.get? topicsConfirming.cursor.toNat =
        some topicOla from rfl).symm.trans hg))
      exact hu,
    by
      obtain ⟨t, hg, _, hd⟩ := ht
      cases (Option.some.inj ((show topicsConfirming.topics.get? topicsConfirming.cursor.toNat =
        some topicOla from rfl).symm.trans hg))
      exact hd,
    by
      obtain ⟨p, hg, hu, _⟩ := hp
      cases (Option.some.inj ((show postsConfirming.posts.get? postsConfirming.cursor.toNat =
        some postOi from rfl).symm.trans hg))
      exact hu,
    by
      obtain ⟨f, hg, hu, _⟩ := hf
      cases (Option.some.inj ((show forumManagementConfirming.forums.get?
        forumManagementConfirming.cursor.toNat = some forumGeral from rfl).symm.trans hg))
      exact hu⟩

/-- The statement of C12 at the sample screens with the overlay shown, for
the key `n`. -/
theorem C12_deny_witness :
    topicsModel.Update userOnTopics (some topicsConfirming) (charKey 'n') =
      .ok (some { topicsConfirming with confirmingDelete := false }, Cmd.nil) ∧
    postsModel.Update userOnTopics (some postsConfirming) (charKey 'n') =
      .ok (some { postsConfirming with confirmingDelete := false }, Cmd.nil) ∧
    forumManagementModel.Update (some forumManagementConfirming) (charKey 'n') =
      .ok (some { forumManagementConfirming with confirmingDelete := false }, Cmd.nil) :=
  have h := C12_deny_only_clears_overlay userOnTopics (runeKey 'n') (Or.inl (by decide))
  ⟨h.1 topicsConfirming rfl, h.2.1 postsConfirming rfl, h.2.2 forumManagementConfirming rfl⟩

theorem noPending_set_topics_overlay (m : mainModel) (tm : topicsModel) (b : Bool)
    (hp : NoPending m) (ht : m.topicsModel = some tm) :
    NoPending { m with topicsModel := some { tm with confirmingDelete := b } } := by
  obtain ⟨h1, h2, h3, h4, h5, h6, h7, h8⟩ := noPending_iff.1 hp
  rw [ht] at h6 h7
  exact noPending_iff.2 ⟨h1, h2, h3, h4, h5, h6, h7, h8⟩

theorem noPending_set_posts_overlay (m : mainModel) (pm : postsModel) (b : Bool)
    (hp : NoPending m) (ht : m.postsModel = some pm) :
    NoPending { m with postsModel := some { pm with confirmingDelete := b } } := by
  obtain ⟨h1, h2, h3, h4, h5, h6, h7, h8⟩ := noPending_iff.1 hp
  rw [ht] at h8
  exact noPending_iff.2 ⟨h1, h2, h3, h4, h5, h6, h7, h8⟩

/-- Claim C13: in every state of a session whose role is "moderator" or
"admin", with Topics (or Posts) active and no overlay shown, the key `d`
shows the overlay when the list is not empty and returns the state unchanged
when it is empty; in both cases the active screen is the same, no command is
returned and no store call is made. -/
theorem C13_delete_key_raises_overlay_iff_list_nonempty (user role : String) (env : Env)
    (m : mainModel) (k : KeyMsg)
    (hrole : role = "moderator" ∨ role = "admin") (hr : Reachable user role m)
    (hk : k.String = "d") :
    (∀ tm, m.currentView = view.topicsView → m.topicsModel = some tm →
      tm.confirmingDelete = false →
      mainModel.Update env m (Msg.KeyMsg k) =
        .ok ⟨if tm.topics ≠ [] then
              { m with topicsModel := some { tm with confirmingDelete := true } }
            else m, Cmd.nil, []⟩) ∧
    (∀ pm, m.currentView = view.postsView → m.postsModel = some pm →
      pm.confirmingDelete = false →
      mainModel.Update env m (Msg.KeyMsg k) =
        .ok ⟨if pm.posts ≠ [] then
              { m with postsModel := some { pm with confirmingDelete := true } }
            else m, Cmd.nil, []⟩) := by
  have hp := reachable_noPending _ _ _ hr
  have hmrole : m.Role = "admin" ∨ m.Role = "moderator" := by
    rw [(reachable_role _ _ _ hr).1]; exact hrole.symm
  constructor
  · intro tm hv ht hc
    by_cases hl : tm.topics = []
    · have hm : { m with currentView := view.topicsView, topicsModel := some tm } = m := by
        rw [← ht, ← hv]
      have hu : topicsModel.Update m (some tm) (Msg.KeyMsg k) = .ok (some tm, Cmd.nil) := by
        simp [topicsModel.Update, deref, bind, Except.bind, hc, matches_of_string k _ _ hk,
          DefaultKeyMap, hl, len]
      show mainModel.updateView env m (Msg.KeyMsg k) = _
      simp only [mainModel.updateView, hv, ht, hu, bind, Except.bind, hm,
        forwardNav_of_noPending env m Cmd.nil hp, hl, ne_eq, not_true_eq_false, if_false]
    · have hlen : len tm.topics > 0 := by
        unfold len
        have := List.length_pos.2 hl
        omega
      have hp2 := noPending_set_topics_overlay m tm true hp ht
      have hm : { m with currentView := view.topicsView,
                         topicsModel := some { tm with confirmingDelete := true } } =
          { m with topicsModel := some { tm with confirmingDelete := true } } := by
        rw [← hv]
      have hu : topicsModel.Update m (some tm) (Msg.KeyMsg k) =
          .ok (some { tm with confirmingDelete := true }, Cmd.nil) := by
        simp [topicsModel.Update, deref, bind, Except.bind, hc, matches_of_string k _ _ hk,
          DefaultKeyMap, hmrole, hlen]
      show mainModel.updateView env m (Msg.KeyMsg k) = _
      simp only [mainModel.updateView, hv, ht, hu, bind, Except.bind, hm,
        forwardNav_of_noPending env _ Cmd.nil hp2, hl, ne_eq, not_false_eq_true, if_true]
  · intro pm hv ht hc
    by_cases hl : pm.posts = []
    · have hm : { m with currentView := view.postsView, postsModel := some pm } = m := by
        rw [← ht, ← hv]
      have hu : postsModel.Update m (some pm) (Msg.KeyMsg k) = .ok (some pm, Cmd.nil) := by
        simp [postsModel.Update, deref, bind, Except.bind, hc, matches_of_string k _ _ hk,
          DefaultKeyMap, hl, len]
      show mainModel.updateView env m (Msg.KeyMsg k) = _
      simp only [mainModel.updateView, hv, ht, hu, bind, Except.bind, hm,
        forwardNav_of_noPending env m Cmd.nil hp, hl, ne_eq, not_true_eq_false, if_false]
    · have hlen : len pm.posts > 0 := by
        unfold len
        have := List.length_pos.2 hl
        omega
      have hp2 := noPending_set_posts_overlay m pm true hp ht
      have hm : { m with currentView := view.postsView,
                         postsModel := some { pm with confirmingDelete := true } } =
          { m with postsModel := some { pm with confirmingDelete := true } } := by
        rw [← hv]
      have hu : postsModel.Update m (some pm) (Msg.KeyMsg k) =
          .ok (some { pm with confirmingDelete := true }, Cmd.nil) := by
        simp [postsModel.Update, deref, bind, Except.bind, hc, matches_of_string k _ _ hk,
          DefaultKeyMap, hmrole, hlen]
      show mainModel.updateView env m (Msg.KeyMsg k) = _
      simp only [mainModel.updateView, hv, ht, hu, bind, Except.bind, hm,
        forwardNav_of_noPending env _ Cmd.nil hp2, hl, ne_eq, not_false_eq_true, if_true]

theorem moderatorOnTopics_run :
    runMsgs sampleEnv (InitialModel "bia" "moderator") toTopics = some moderatorOnTopics := by
  decide

theorem moderatorOnPosts_run :
    runMsgs sampleEnv (InitialModel "bia" "moderator") toPosts = some moderatorOnPosts := by
  decide

/-- The statement of C13 in the sample session of the moderator "bia": on
Topics, where one topic is listed, `d` shows the overlay; on Posts, where the
list is empty, `d` changes nothing. -/
theorem C13_delete_key_witness :
    Reachable "bia" "moderator" moderatorOnTopics ∧
    Reachable "bia" "moderator" moderatorOnPosts ∧
    mainModel.Update sampleEnv moderatorOnTopics (charKey 'd') =
      .ok ⟨moderatorConfirming, Cmd.nil, []⟩ ∧
    mainModel.Update sampleEnv moderatorOnPosts (charKey 'd') =
      .ok ⟨moderatorOnPosts, Cmd.nil, []⟩ :=
  have h1 : Reachable "bia" "moderator" moderatorOnTopics :=
    runMsgs_reachable _ _ _ _ _ _ Reachable.init moderatorOnTopics_run
  have h2 : Reachable "bia" "moderator" moderatorOnPosts :=
    runMsgs_reachable _ _ _ _ _ _ Reachable.init moderatorOnPosts_run
  ⟨h1, h2,
    (C13_delete_key_raises_overlay_iff_list_nonempty "bia" "moderator" sampleEnv
      moderatorOnTopics (runeKey 'd') (Or.inl rfl) h1 (by decide)).1 _ rfl rfl rfl,
    (C13_delete_key_raises_overlay_iff_list_nonempty "bia" "moderator" sampleEnv
      moderatorOnPosts (runeKey 'd') (Or.inl rfl) h2 (by decide)).2 _ rfl rfl rfl⟩

/-! ### Forms: validation and completion -/

theorem formModel_Update_submitKey (env : Env) (parent : mainModel) (m : formModel) (k : KeyMsg)
    (hk : m.isSubmitKey k = true) :
    formModel.Update env parent (some m) (Msg.KeyMsg k) =
      (m.submit env parent).bind fun r => .ok (some m, r.1, r.2) := by
  simp only [formModel.isSubmitKey, Bool.or_eq_true, Bool.and_eq_true, decide_eq_true_eq] at hk
  rcases hk with hk | ⟨⟨hk, hl⟩, hf⟩
  · simp only [formModel.Update, hk, deref, bind, Except.bind]
  · simp only [formModel.Update, hk, deref, bind, Except.bind]
    cases hi : index m.fields m.focusIndex with
    | error e => rw [hi] at hf; cases hf
    | ok f =>
      rw [hi] at hf
      simp only [decide_eq_true_eq] at hf
      simp only [hf, hl, if_true]


theorem formOutcome_submitKey (env : Env) (parent : mainModel) (m : formModel) (k : KeyMsg)
    (hk : m.isSubmitKey k = true) (c : Cmd) (calls : List StoreCall)
    (hs : m.submit env parent = .ok (c, calls)) :
    formOutcome env parent m (Msg.KeyMsg k) =
      (c.run env.db).bind fun r => .ok (r.1, calls ++ r.2) := by
  simp only [formOutcome, formModel_Update_submitKey env parent m k hk, hs, bind, Except.bind]

/-- Claim C14: submitting a new-topic, new-post, change-password or new-user
form (with the submit key, or Enter on a last single-line field) while a
required field is empty, or a new-user form whose role is none of "user",
"moderator", "admin", delivers one failure `statusMessage` and makes no store
call, neither in the update nor in the command it returns. -/
theorem C14_invalid_form_rejected_before_any_store_call (env : Env) (parent : mainModel)
    (m : formModel) (k : KeyMsg) (hk : m.isSubmitKey k = true) :
    (∀ forum i, m.submitAction = SubmitAction.newTopic forum → m.fields = [⟨"Título", i⟩] →
      i.value = "" →
      formOutcome env parent m (Msg.KeyMsg k) =
        .ok ([Msg.statusMessage false "O título não pode estar vazio."], [])) ∧
    (∀ topic i, m.submitAction = SubmitAction.newPost topic → m.fields = [⟨"Conteúdo", i⟩] →
      i.value = "" →
      formOutcome env parent m (Msg.KeyMsg k) =
        .ok ([Msg.statusMessage false "O conteúdo não pode estar vazio."], [])) ∧
    (∀ a b, m.submitAction = SubmitAction.changePassword →
      m.fields = [⟨"CurrentPassword", a⟩, ⟨"NewPassword", b⟩] →
      a.value = "" ∨ b.value = "" →
      formOutcome env parent m (Msg.KeyMsg k) =
        .ok ([Msg.statusMessage false "Os campos de senha não podem estar vazios."], [])) ∧
    (∀ a b c, m.submitAction = SubmitAction.newUser →
      m.fields = [⟨"Username", a⟩, ⟨"Password", b⟩, ⟨"Role", c⟩] →
      a.value = "" ∨ b.value = "" ∨ c.value = "" →
      formOutcome env parent m (Msg.KeyMsg k) =
        .ok ([Msg.statusMessage false "Todos os campos são obrigatórios."], [])) ∧
    (∀ a b c, m.submitAction = SubmitAction.newUser →
      m.fields = [⟨"Username", a⟩, ⟨"Password", b⟩, ⟨"Role", c⟩] →
      a.value ≠ "" → b.value ≠ "" → c.value ≠ "" →
      c.value ≠ "user" → c.value ≠ "moderator" → c.value ≠ "admin" →
      formOutcome env parent m (Msg.KeyMsg k) =
        .ok ([Msg.statusMessage false "Papel inválido. Use 'user', 'moderator' ou 'admin'."],
          [])) := by
  refine ⟨fun forum i ha hf hv => ?_, fun topic i ha hf hv => ?_, fun a b ha hf hv => ?_,
    fun a b c ha hf hv => ?_, fun a b c ha hf h1 h2 h3 h4 h5 h6 => ?_⟩
  · have hs : m.submit env parent =
        .ok (Cmd.emit (Msg.statusMessage false "O título não pode estar vazio."), []) := by
      simp [formModel.submit, SubmitAction.call, ha, formModel.values, hf, Values.set,
        Values.get, hv]
    rw [formOutcome_submitKey env parent m k hk _ _ hs]
    rfl
  · have hs : m.submit env parent =
        .ok (Cmd.emit (Msg.statusMessage false "O conteúdo não pode estar vazio."), []) := by
      simp [formModel.submit, SubmitAction.call, ha, formModel.values, hf, Values.set,
        Values.get, hv]
    rw [formOutcome_submitKey env parent m k hk _ _ hs]
    rfl
  · have hs : m.submit env parent =
        .ok (Cmd.updatePassword parent.User a.value b.value, []) := by
      simp [formModel.submit, SubmitAction.call, ha, formModel.values, hf, Values.set,
        Values.get]
    rw [formOutcome_submitKey env parent m k hk _ _ hs]
    simp [Cmd.run, hv, Except.bind]
  · have hs : m.submit env parent =
        .ok (Cmd.createUser a.value b.value c.value, []) := by
      simp [formModel.submit, SubmitAction.call, ha, formModel.values, hf, Values.set,
        Values.get]
    rw [formOutcome_submitKey env parent m k hk _ _ hs]
    simp [Cmd.run, hv, Except.bind]
  · have hs : m.submit env parent =
        .ok (Cmd.createUser a.value b.value c.value, []) := by
      simp [formModel.submit, SubmitAction.call, ha, formModel.values, hf, Values.set,
        Values.get]
    rw [formOutcome_submitKey env parent m k hk _ _ hs]
    simp [Cmd.run, h1, h2, h3, h4, h5, h6, Except.bind]

/-- The statement of C14 at the fresh forms of the sample session, all fields
empty, and at a new-user form with the role "root". -/
theorem C14_invalid_form_witness :
    NewTopicFormModel (some forumGeral) = .ok topicFormGeral ∧
    NewPostFormModel (some topicOla) = .ok postFormOla ∧
    formOutcome sampleEnv moderatorOnTopics topicFormGeral (keyOf KeyType.KeyEnter) =
      .ok ([Msg.statusMessage false "O título não pode estar vazio."], []) ∧
    formOutcome sampleEnv moderatorOnPosts postFormOla (keyOf KeyType.KeyCtrlS) =
      .ok ([Msg.statusMessage false "O conteúdo não pode estar vazio."], []) ∧
    formOutcome sampleEnv moderatorOnTopics NewChangePasswordFormModel (keyOf KeyType.KeyCtrlS) =
      .ok ([Msg.statusMessage false "Os campos de senha não podem estar vazios."], []) ∧
    formOutcome sampleEnv moderatorOnTopics NewUserFormModel (keyOf KeyType.KeyCtrlS) =
      .ok ([Msg.statusMessage false "Todos os campos são obrigatórios."], []) ∧
    formOutcome sampleEnv moderatorOnTopics userFormBadRole (keyOf KeyType.KeyEnter) =
      .ok ([Msg.statusMessage false "Papel inválido. Use 'user', 'moderator' ou 'admin'."],
        []) :=
  ⟨rfl, rfl,
    (C14_invalid_form_rejected_before_any_store_call sampleEnv moderatorOnTopics topicFormGeral
      (specialKey KeyType.KeyEnter) (by decide)).1 _ _ rfl rfl rfl,
    (C14_invalid_form_rejected_before_any_store_call sampleEnv moderatorOnPosts postFormOla
      (specialKey KeyType.KeyCtrlS) (by decide)).2.1 _ _ rfl rfl rfl,
    (C14_invalid_form_rejected_before_any_store_call sampleEnv moderatorOnTopics
      NewChangePasswordFormModel (specialKey KeyType.KeyCtrlS) (by decide)).2.2.1 _ _ rfl rfl
      (Or.inl rfl),
    (C14_invalid_form_rejected_before_any_store_call sampleEnv moderatorOnTopics
      NewUserFormModel (specialKey KeyType.KeyCtrlS) (by decide)).2.2.2.1 _ _ _ rfl rfl
      (Or.inl rfl),
    (C14_invalid_form_rejected_before_any_store_call sampleEnv moderatorOnTopics
      userFormBadRole (specialKey KeyType.KeyEnter) (by decide)).2.2.2.2 _ _ _ rfl rfl
      (by decide) (by decide) (by decide) (by decide) (by decide) (by decide)⟩

/-- Submitting a New Forum or Edit Forum form never stops at an empty name:
whatever the fields hold, the command calls `CreateForum` (resp.
`UpdateForum`) with the name and the description as they are. -/
theorem forum_forms_call_store_unchecked (env : Env) (parent : mainModel) (m : formModel)
    (k : KeyMsg) (hk : m.isSubmitKey k = true) (a b : formInput)
    (hf : m.fields = [⟨"Nome", a⟩, ⟨"Descrição", b⟩]) :
    (m.submitAction = SubmitAction.newForum →
      ∃ msgs, formOutcome env parent m (Msg.KeyMsg k) =
        .ok (msgs, [StoreCall.CreateForum a.value b.value])) ∧
    (∀ forum, m.submitAction = SubmitAction.editForum forum →
      ∃ msgs, formOutcome env parent m (Msg.KeyMsg k) =
        .ok (msgs, [StoreCall.UpdateForum forum.ID a.value b.value])) := by
  constructor
  · intro ha
    have hs : m.submit env parent = .ok (Cmd.createForum a.value b.value, []) := by
      simp [formModel.submit, SubmitAction.call, ha, formModel.values, hf, Values.set,
        Values.get]
    rw [formOutcome_submitKey env parent m k hk _ _ hs]
    simp only [Cmd.run]
    cases env.db.CreateForum a.value b.value <;> exact ⟨_, rfl⟩
  · intro forum ha
    have hs : m.submit env parent = .ok (Cmd.updateForum forum.ID a.value b.value, []) := by
      simp [formModel.submit, SubmitAction.call, ha, formModel.values, hf, Values.set,
        Values.get]
    rw [formOutcome_submitKey env parent m k hk _ _ hs]
    simp only [Cmd.run]
    cases env.db.UpdateForum forum.ID a.value b.value <;> exact ⟨_, rfl⟩

/-- Claim C15, the code at the failing input: an admin opens the New Forum
form and presses the submit key with both fields empty; the update returns the
create command, which calls `CreateForum` with the empty name and reports
success. The Edit Forum form of "Geral" with the name erased does the same
with `UpdateForum`. -/
theorem C15_forum_forms_submit_empty_name :
    (runMsgs sampleEnv (InitialModel "root" "admin") toNewForumForm).map
        (fun m => (m.currentView, m.formModel)) =
      some (view.formView, some NewForumFormModel) ∧
    (runMsgs sampleEnv (InitialModel "root" "admin") toNewForumForm).map
        (fun m => (mainModel.Update sampleEnv m (keyOf KeyType.KeyCtrlS)).map
          fun out => (out.cmd, out.calls, out.cmd.run sampleStore)) =
      some (.ok (Cmd.createForum "" "", [],
        .ok ([Msg.statusMessage true "Fórum '' criado com sucesso!"],
          [StoreCall.CreateForum "" ""]))) ∧
    NewEditForumFormModel sampleWidgets (some forumGeral) = .ok editFormGeral ∧
    formOutcome sampleEnv (InitialModel "root" "admin") editFormCleared
        (keyOf KeyType.KeyCtrlS) =
      .ok ([Msg.statusMessage true "Fórum '' atualizado com sucesso!"],
        [StoreCall.UpdateForum 1 "" "conversa"]) := by
  exact ⟨by decide, by rfl, by rfl, by rfl⟩

/-- Claim C16, the code at the failing input: an admin opens the New Forum
form from Forum Management, types the name "Novo" and submits. The command
delivers the success `statusMessage` (the failure one when the store fails);
when it is handled the banner holds the result text, but the active screen is
Settings, which this session never opened, not Forum Management. The New User
form is opened from Settings only, and Enter on that entry panics. -/
theorem C16_forum_form_completion_activates_settings :
    (runMsgs sampleEnv (InitialModel "root" "admin") toNamedForumForm).map
        (fun m => (m.currentView, m.breadcrumbs)) =
      some (view.formView, ["Home", "Administração", "Gerenciamento de Fóruns", "Novo Fórum"]) ∧
    (runMsgs sampleEnv (InitialModel "root" "admin") toNamedForumForm).map
        (fun m => (mainModel.Update sampleEnv m (keyOf KeyType.KeyCtrlS)).map
          fun out => (out.cmd.run sampleStore, out.cmd.run failingStore)) =
      some (.ok (
        .ok ([Msg.statusMessage true "Fórum 'Novo' criado com sucesso!"],
          [StoreCall.CreateForum "Novo" ""]),
        .ok ([Msg.statusMessage false "Erro ao criar fórum: database is locked"],
          [StoreCall.CreateForum "Novo" ""]))) ∧
    (runMsgs sampleEnv (InitialModel "root" "admin")
        (toNamedForumForm ++ [keyOf KeyType.KeyCtrlS,
          Msg.statusMessage true "Fórum 'Novo' criado com sucesso!"])).map
        (fun m => (m.currentView, m.statusMessage, m.settingsModel, m.breadcrumbs)) =
      some (view.settingsView, "Fórum 'Novo' criado com sucesso!", none,
        ["Home", "Administração", "Gerenciamento de Fóruns", "Novo Fórum"]) ∧
    (runMsgs sampleEnv (InitialModel "root" "admin")
        (toNamedForumForm ++ [keyOf KeyType.KeyCtrlS,
          Msg.statusMessage false "Erro ao criar fórum: database is locked"])).map
        (fun m => (m.currentView, m.statusMessage, m.settingsModel, m.breadcrumbs)) =
      some (view.settingsView, "Erro: Erro ao criar fórum: database is locked", none,
        ["Home", "Administração", "Gerenciamento de Fóruns", "Novo Fórum"]) ∧
    (runMsgs sampleEnv (InitialModel "root" "admin") toNewUserForm.dropLast).map
        (fun m => (m.currentView, m.settingsModel)) =
      some (view.settingsView,
        some ⟨["Alterar Senha", "Gerenciar Usuários", "Criar Novo Usuário"], 2⟩) ∧
    runMsgs sampleEnv (InitialModel "root" "admin") toNewUserForm = none := by
  exact ⟨by decide, by rfl, by decide, by decide, by decide, by decide⟩

/-! ### The error banner -/

/-- Claim C17: in every state and for every cause, `mainModel.Update` on
`errorMsg` sets the banner to "Erro: " followed by the cause, returns the
5-second timer, whose execution delivers exactly one `statusMessageTimeoutMsg`
and calls no store, and changes no other field but `isLoading`: the active
screen, the breadcrumbs, the role and every sub-screen model are the same. -/
theorem C17_errorMsg_sets_banner_and_keeps_state (env : Env) (m : mainModel) (cause : String) :
    mainModel.Update env m (Msg.errorMsg cause) =
      .ok ⟨{ m with isLoading := false, statusMessage := "Erro: " ++ cause },
        Cmd.statusTimeout 5, []⟩ ∧
    (Cmd.statusTimeout 5).run env.db = .ok ([Msg.statusMessageTimeoutMsg], []) ∧
    ∀ out, mainModel.Update env m (Msg.errorMsg cause) = .ok out →
      out.model.statusMessage = "Erro: " ++ cause ∧
      out.model.currentView = m.currentView ∧ out.model.breadcrumbs = m.breadcrumbs ∧
      out.model.Role = m.Role ∧ out.model.User = m.User ∧
      out.model.forumsModel = m.forumsModel ∧ out.model.topicsModel = m.topicsModel ∧
      out.model.postsModel = m.postsModel ∧ out.model.formModel = m.formModel ∧
      out.model.settingsModel = m.settingsModel ∧
      out.model.userManagementModel = m.userManagementModel ∧
      out.model.forumManagementModel = m.forumManagementModel ∧
      out.model.adminModel = m.adminModel := by
  refine ⟨rfl, rfl, fun out h => ?_⟩
  cases h
  exact ⟨rfl, rfl, rfl, rfl, rfl, rfl, rfl, rfl, rfl, rfl, rfl, rfl, rfl⟩

/-! ### Authentication -/

/-- Claim C18: for every user name `u` that the store does not know, every
stored user `v` and every secret `s` that does not match the hash of `v`, the
password callback returns the same for `(u, s)` and `(v, s)`: no permissions
and the error "usuário ou senha inválidos". -/
theorem C18_unknown_user_and_wrong_secret_fail_alike (db : Store)
    (check : String → String → Bool) (u v s : String) (user : User) (hash : String)
    (hu : db.GetUserByUsername u = .ok none)
    (hv : db.GetUserByUsername v = .ok (some (user, hash)))
    (hs : check s hash = false) :
    (PasswordCallback db check u s).permissions = none ∧
    (PasswordCallback db check u s).err = some "usuário ou senha inválidos" ∧
    (PasswordCallback db check v s).permissions = (PasswordCallback db check u s).permissions ∧
    (PasswordCallback db check v s).err = (PasswordCallback db check u s).err := by
  simp [PasswordCallback, hu, hv, hs]

/-- The statement of C18 for the store that knows only "bia": the unknown
name "zeca" and the name "bia" with the wrong secret "errado". -/
theorem C18_fail_alike_witness :
    (PasswordCallback oneUserStore sampleCheck "zeca" "errado").permissions = none ∧
    (PasswordCallback oneUserStore sampleCheck "zeca" "errado").err =
      some "usuário ou senha inválidos" ∧
    (PasswordCallback oneUserStore sampleCheck "bia" "errado").permissions =
      (PasswordCallback oneUserStore sampleCheck "zeca" "errado").permissions ∧
    (PasswordCallback oneUserStore sampleCheck "bia" "errado").err =
      (PasswordCallback oneUserStore sampleCheck "zeca" "errado").err :=
  C18_unknown_user_and_wrong_secret_fail_alike oneUserStore sampleCheck "zeca" "bia" "errado"
    ⟨7, "bia", "moderator", 0⟩ "hash-of-segredo" rfl rfl (by decide)

/-- Claim C19 as stated fails: when the lookup fails the callback returns the
error "erro interno do servidor", which is not the error it returns for an
unknown user or for a wrong secret. -/
theorem C19_lookup_failure_returns_another_error :
    (PasswordCallback failingStore sampleCheck "bia" "segredo").err =
      some "erro interno do servidor" ∧
    (PasswordCallback oneUserStore sampleCheck "zeca" "segredo").err =
      some "usuário ou senha inválidos" ∧
    (PasswordCallback oneUserStore sampleCheck "bia" "errado").err =
      some "usuário ou senha inválidos" ∧
    (PasswordCallback failingStore sampleCheck "bia" "segredo").err ≠
      (PasswordCallback oneUserStore sampleCheck "zeca" "segredo").err := by
  decide

/-- Claim C19, amended: a failing attempt returns one of two errors and never
permissions. When the lookup fails it is "erro interno do servidor"; when the
user is unknown or the secret does not match it is "usuário ou senha
inválidos"; the two differ, and an attempt fails in exactly these cases. -/
theorem C19_two_authentication_failures (db : Store) (check : String → String → Bool)
    (u s : String) :
    (∀ e, db.GetUserByUsername u = .error e →
      (PasswordCallback db check u s).err = some "erro interno do servidor") ∧
    (db.GetUserByUsername u = .ok none →
      (PasswordCallback db check u s).err = some "usuário ou senha inválidos") ∧
    (∀ user hash, db.GetUserByUsername u = .ok (some (user, hash)) → check s hash = false →
      (PasswordCallback db check u s).err = some "usuário ou senha inválidos") ∧
    (∀ user hash, db.GetUserByUsername u = .ok (some (user, hash)) → check s hash = true →
      (PasswordCallback db check u s).err = none) ∧
    (PasswordCallback db check u s).permissions = none ∧
    "erro interno do servidor" ≠ "usuário ou senha inválidos" := by
  refine ⟨fun e h => ?_, fun h => ?_, fun user hash h hc => ?_, fun user hash h hc => ?_, ?_,
    by decide⟩
  · simp [PasswordCallback, h]
  · simp [PasswordCallback, h]
  · simp [PasswordCallback, h, hc]
  · simp [PasswordCallback, h, hc]
  · unfold PasswordCallback
    repeat' split
    all_goals rfl

/-- The statement of the amended C19 at the failing store and at the store
that knows only "bia". -/
theorem C19_two_failures_witness :
    (PasswordCallback failingStore sampleCheck "bia" "segredo").err =
      some "erro interno do servidor" ∧
    (PasswordCallback oneUserStore sampleCheck "zeca" "segredo").err =
      some "usuário ou senha inválidos" ∧
    (PasswordCallback oneUserStore sampleCheck "bia" "errado").err =
      some "usuário ou senha inválidos" ∧
    (PasswordCallback oneUserStore sampleCheck "bia" "segredo").err = none :=
  ⟨(C19_two_authentication_failures failingStore sampleCheck "bia" "segredo").1
      "database is locked" rfl,
    (C19_two_authentication_failures oneUserStore sampleCheck "zeca" "segredo").2.1 rfl,
    (C19_two_authentication_failures oneUserStore sampleCheck "bia" "errado").2.2.1
      ⟨7, "bia", "moderator", 0⟩ "hash-of-segredo" rfl (by decide),
    (C19_two_authentication_failures oneUserStore sampleCheck "bia" "segredo").2.2.2.1
      ⟨7, "bia", "moderator", 0⟩ "hash-of-segredo" rfl (by decide)⟩

/-! ### The User Management screen and the role of the session -/

theorem forwardNav_notUserManagement (env : Env) (m : mainModel) (cmd : Cmd)
    (r : mainModel × Cmd) (ha : m.adminModel = none)
    (hv : m.currentView ≠ view.userManagementView)
    (h : mainModel.forwardNav env m cmd = .ok r) :
    r.1.currentView ≠ view.userManagementView := by
  simp only [mainModel.forwardNav, ha, flagSet_none, Bool.false_eq_true, if_false, bind,
    Except.bind] at h
  repeat' split at h
  all_goals (cases h <;> first | exact hv | simp)

set_option linter.unusedTactic false in
theorem updateMainMenu_notUserManagement (m : mainModel) (msg : Msg) (r : mainModel × Cmd)
    (hv : m.currentView ≠ view.userManagementView)
    (h : m.updateMainMenu msg = .ok r) : r.1.currentView ≠ view.userManagementView := by
  cases msg <;> simp only [mainModel.updateMainMenu, forumsModel.Init, deref, bind, Except.bind] at h <;>
    repeat' split at h
  all_goals (cases h <;> first | exact hv | simp)

theorem updateView_notUserManagement (env : Env) (m : mainModel) (msg : Msg) (out : Out)
    (ha : m.adminModel = none) (hv : m.currentView ≠ view.userManagementView)
    (h : mainModel.updateView env m msg = .ok out) :
    out.model.currentView ≠ view.userManagementView := by
  cases hcv : m.currentView <;> simp only [mainModel.updateView, hcv, bind, Except.bind] at h
  case mainMenuView =>
    split at h
    · cases h
    rename_i r hr
    cases h
    exact updateMainMenu_notUserManagement _ _ _ hv hr
  case userManagementView => exact absurd hcv hv
  case adminView =>
    rw [ha] at h
    split at h
    · cases h
    rename_i r hr
    exact absurd hr (adminModel_Update_nil env msg r)
  case forumsView =>
    split at h
    · cases h
    rename_i r hr
    split at h
    · cases h
    rename_i n hnav
    cases h
    refine forwardNav_notUserManagement env _ _ n ?_ ?_ hnav
    · rcases forumsModel_Update_frame _ _ _ _ hr with e | e <;> rw [e] <;> exact ha
    · rcases forumsModel_Update_frame _ _ _ _ hr with e | e <;> rw [e] <;> simp [hcv]
  case settingsView =>
    split at h
    · cases h
    rename_i r hr
    obtain ⟨p, ret, c⟩ := r
    cases ret with
    | main => cases h
    | self s =>
      simp only [] at h
      split at h
      · cases h
      rename_i n hnav
      cases h
      refine forwardNav_notUserManagement env _ _ n ?_ ?_ hnav
      · rw [settingsModel_Update_frame _ _ _ _ _ _ hr]; exact ha
      · rw [settingsModel_Update_frame _ _ _ _ _ _ hr]; simp [hcv]
  all_goals
    split at h
    · cases h
    rename_i r hr
    split at h
    · cases h
    rename_i n hnav
    cases h
    refine forwardNav_notUserManagement env _ _ n ?_ ?_ hnav
    · exact ha
    · simp

theorem backView_ne_userManagement (s : String) (v : view)
    (hv : v ≠ view.userManagementView) : backView s v ≠ view.userManagementView := by
  unfold backView
  repeat' split
  all_goals first | exact hv | decide

theorem Update_notUserManagement (env : Env) (m : mainModel) (msg : Msg) (out : Out)
    (ha : m.adminModel = none) (hv : m.currentView ≠ view.userManagementView)
    (h : mainModel.Update env m msg = .ok out) :
    out.model.currentView ≠ view.userManagementView := by
  cases msg
  case KeyMsg k => exact updateView_notUserManagement env m _ out ha hv h
  case WindowSizeMsg w ht => exact updateView_notUserManagement env m _ out ha hv h
  case userCreatedMsg => exact updateView_notUserManagement env m _ out ha hv h
  case topicsLoadedMsg ts e => exact updateView_notUserManagement env m _ out ha hv h
  case reloadTopicsMsg => exact updateView_notUserManagement env m _ out ha hv h
  case postsLoadedMsg ps e => exact updateView_notUserManagement env m _ out ha hv h
  case reloadPostsMsg => exact updateView_notUserManagement env m _ out ha hv h
  case widgetMsg t => exact updateView_notUserManagement env m _ out ha hv h
  case statusMessageTimeoutMsg => cases h; exact hv
  case statusMessage s t => cases h; simp
  case errorMsg e => cases h; exact hv
  case passwordUpdatedMsg => cases h; simp
  case topicCreatedMsg f => cases h; simp
  case postCreatedMsg t => cases h; simp
  case navigateBackMsg =>
    by_cases hl : 1 < m.breadcrumbs.length
    · obtain ⟨v, _, hu⟩ := navigateBack_pop env m hl
      rw [hu] at h
      cases h
      exact backView_ne_userManagement _ _ hv
    · rw [navigateBack_home env m hl] at h
      cases h
      exact hv
  case forumsLoadedMsg fs =>
    simp only [mainModel.Update, bind, Except.bind] at h
    split at h
    · cases h
    rename_i r hr
    cases h
    rcases forumsModel_Update_frame _ _ _ _ hr with e | e <;> rw [e] <;> exact hv
  case usersLoadedMsg us =>
    simp only [mainModel.Update, bind, Except.bind] at h
    split at h
    · cases h
    cases h
    exact hv

/-- In a session whose role is not "admin", User Management is never the
active screen: `userManagementModel.Update` never gets a key. -/
theorem reachable_notUserManagement (user role : String) (m : mainModel)
    (hrole : role ≠ "admin") (h : Reachable user role m) :
    m.currentView ≠ view.userManagementView := by
  induction h with
  | init => simp [InitialModel]
  | step env msg m out hr hu ih =>
    exact Update_notUserManagement env m msg out (reachable_nonAdmin _ _ _ hrole hr).adminModel ih hu

set_option linter.unusedTactic false in
theorem SubmitAction_call_never_sets_role (env : Env) (parent : mainModel) (a : SubmitAction)
    (values : Values) (r : Cmd × List StoreCall) (h : a.call env parent values = .ok r)
    (u ro : String) : StoreCall.SetUserRole u ro ∉ r.2 := by
  cases a <;> simp only [SubmitAction.call, deref, bind, Except.bind] at h <;>
    repeat' split at h
  all_goals (cases h <;> simp)

set_option linter.unusedTactic false in
theorem formModel_Update_never_sets_role (env : Env) (parent : mainModel)
    (recv : Option formModel) (msg : Msg) (r : Option formModel × Cmd × List StoreCall)
    (h : formModel.Update env parent recv msg = .ok r) (u ro : String) :
    StoreCall.SetUserRole u ro ∉ r.2.2 := by
  cases recv with
  | none =>
    cases msg <;>
      simp only [formModel.Update, formModel.updateFocused, deref, bind, Except.bind] at h <;>
      repeat' split at h
    all_goals (cases h <;> simp)
  | some fm =>
    cases msg <;>
      simp only [formModel.Update, formModel.updateFocused, formModel.submit, deref, bind,
        Except.bind] at h <;>
      repeat' split at h
    all_goals first
      | (cases h <;> simp; done)
      | (cases h
         rename_i hs
         exact SubmitAction_call_never_sets_role env parent _ _ _ hs u ro)

theorem userManagementModel_Update_usersLoaded_calls (env : Env)
    (recv : Option userManagementModel) (users : List User)
    (r : Option userManagementModel × Cmd × List StoreCall)
    (h : userManagementModel.Update env recv (Msg.usersLoadedMsg users) = .ok r) :
    r.2.2 = [] := by
  cases recv <;> simp only [userManagementModel.Update, deref, bind, Except.bind] at h <;>
    cases h
  rfl

theorem updateView_never_sets_role (env : Env) (m : mainModel) (msg : Msg) (out : Out)
    (hv : m.currentView ≠ view.userManagementView)
    (h : mainModel.updateView env m msg = .ok out) (u ro : String) :
    StoreCall.SetUserRole u ro ∉ out.calls := by
  cases hcv : m.currentView <;> simp only [mainModel.updateView, hcv, bind, Except.bind] at h
  case userManagementView => exact absurd hcv hv
  case formView =>
    split at h
    · cases h
    rename_i r hr
    split at h
    · cases h
    cases h
    exact formModel_Update_never_sets_role env m _ msg r hr u ro
  all_goals
    repeat' split at h
    all_goals (cases h <;> simp)

/-- In a session whose role is not "admin", no update calls `SetUserRole`:
the role selection of User Management, which makes that call, never gets a
key. -/
theorem nonAdmin_update_never_sets_role (user role : String) (env : Env) (m : mainModel)
    (msg : Msg) (out : Out) (hrole : role ≠ "admin") (hr : Reachable user role m)
    (h : mainModel.Update env m msg = .ok out) (u ro : String) :
    StoreCall.SetUserRole u ro ∉ out.calls := by
  have hv := reachable_notUserManagement user role m hrole hr
  cases msg
  case KeyMsg k => exact updateView_never_sets_role env m _ out hv h u ro
  case WindowSizeMsg w ht => exact updateView_never_sets_role env m _ out hv h u ro
  case userCreatedMsg => exact updateView_never_sets_role env m _ out hv h u ro
  case topicsLoadedMsg ts e => exact updateView_never_sets_role env m _ out hv h u ro
  case reloadTopicsMsg => exact updateView_never_sets_role env m _ out hv h u ro
  case postsLoadedMsg ps e => exact updateView_never_sets_role env m _ out hv h u ro
  case reloadPostsMsg => exact updateView_never_sets_role env m _ out hv h u ro
  case widgetMsg t => exact updateView_never_sets_role env m _ out hv h u ro
  case usersLoadedMsg us =>
    simp only [mainModel.Update, bind, Except.bind] at h
    split at h
    · cases h
    rename_i r hr2
    cases h
    simp [userManagementModel_Update_usersLoaded_calls env _ us r hr2]
  all_goals
    simp only [mainModel.Update, bind, Except.bind] at h
    repeat' split at h
    all_goals (cases h <;> simp)

/-- On Settings, Enter on the entry "Gerenciar Usuários" panics in every
state and for every store: `settingsModel.Update` returns the parent, which
the type assertion of `mainModel.Update` rejects. -/
theorem settings_enter_on_user_management_panics (env : Env) (m : mainModel)
    (s : settingsModel) (hv : m.currentView = view.settingsView)
    (hs : m.settingsModel = some s)
    (hc : index s.choices s.cursor = .ok "Gerenciar Usuários") :
    mainModel.Update env m (keyOf KeyType.KeyEnter) =
      .error "interface conversion: tea.Model is *tui.mainModel, not *tui.settingsModel" := by
  have hu : ¬ Matches (specialKey KeyType.KeyEnter) DefaultKeyMap.Up := by decide
  have hd : ¬ Matches (specialKey KeyType.KeyEnter) DefaultKeyMap.Down := by decide
  have he : Matches (specialKey KeyType.KeyEnter) DefaultKeyMap.Enter := by decide
  show mainModel.updateView env m (Msg.KeyMsg (specialKey KeyType.KeyEnter)) = _
  simp [mainModel.updateView, hv, hs, settingsModel.Update, deref, bind, Except.bind, hu, hd, he,
    hc]

/-- Claim C20, the code at the failing input: a moderator opens
"Configurações" and moves to "Gerenciar Usuários"; Enter on it panics, so the
session ends before the User Management screen handles a key and the whole
sequence of the claim has no final state. The same keys on the User Management
screen, which an admin reaches from "Administração", do call `SetUserRole`
with "admin" for the selected user. -/
theorem C20_moderator_enter_on_user_management_panics :
    (runMsgs sampleEnv (InitialModel "bia" "moderator")
        toUserManagementFromSettings.dropLast).map
        (fun m => (m.currentView, m.settingsModel)) =
      some (view.settingsView, some ⟨["Alterar Senha", "Gerenciar Usuários"], 1⟩) ∧
    (runMsgs sampleEnv (InitialModel "bia" "moderator")
        toUserManagementFromSettings.dropLast).map
        (fun m => mainModel.Update sampleEnv m (keyOf KeyType.KeyEnter)) =
      some (.error "interface conversion: tea.Model is *tui.mainModel, not *tui.settingsModel") ∧
    runMsgs sampleEnv (InitialModel "bia" "moderator")
        (toUserManagementFromSettings ++
          [Msg.usersLoadedMsg [userCaio], keyOf KeyType.KeyEnter, keyOf KeyType.KeyEnter,
           keyOf KeyType.KeyDown, keyOf KeyType.KeyDown, keyOf KeyType.KeyEnter]) = none ∧
    (runMsgs sampleEnv (InitialModel "root" "admin") toRoleChoiceAsAdmin).map
        (fun m => (mainModel.Update sampleEnv m (keyOf KeyType.KeyEnter)).map
          fun out => out.calls) =
      some (.ok [StoreCall.SetUserRole "caio" "admin"]) := by
  exact ⟨by decide, by rfl, by decide, by rfl⟩

/-! ### The sub-machine of User Management -/

set_option linter.unusedTactic false in
theorem updateUserList_role_list (m : userManagementModel) (k : KeyMsg)
    (r : userManagementModel × Cmd × List StoreCall) (h : m.updateUserList k = .ok r) :
    r.1.isSelectingRole = m.isSelectingRole := by
  simp only [userManagementModel.updateUserList, bind, Except.bind] at h
  repeat' split at h
  all_goals (cases h <;> rfl)

set_option linter.unusedTactic false in
theorem updateActionSelection_lists (env : Env) (m : userManagementModel) (k : KeyMsg)
    (r : userManagementModel × Cmd × List StoreCall)
    (h : m.updateActionSelection env k = .ok r) :
    r.1.isSelectingAction = false ∨ r.1.isSelectingRole = m.isSelectingRole := by
  simp only [userManagementModel.updateActionSelection, deref, bind, Except.bind] at h
  repeat' split at h
  all_goals (cases h <;> simp)

set_option linter.unusedTactic false in
theorem updateRoleSelection_action_list (env : Env) (m : userManagementModel) (k : KeyMsg)
    (r : userManagementModel × Cmd × List StoreCall)
    (h : m.updateRoleSelection env k = .ok r) :
    r.1.isSelectingAction = m.isSelectingAction := by
  simp only [userManagementModel.updateRoleSelection, deref, bind, Except.bind] at h
  repeat' split at h
  all_goals (cases h <;> rfl)

/-- The action list and the role list of User Management are never shown at
the same time: the screen starts with neither, and no update sets both. -/
theorem userManagement_lists_exclusive (env : Env) (m : userManagementModel) (msg : Msg)
    (r : Option userManagementModel × Cmd × List StoreCall)
    (hm : ¬ (m.isSelectingAction = true ∧ m.isSelectingRole = true))
    (h : userManagementModel.Update env (some m) msg = .ok r) :
    ∀ m', r.1 = some m' → ¬ (m'.isSelectingAction = true ∧ m'.isSelectingRole = true) := by
  intro m' hm'
  cases msg
  case usersLoadedMsg us =>
    simp only [userManagementModel.Update, deref, bind, Except.bind] at h
    cases h
    cases hm'
    exact hm
  case KeyMsg k =>
    cases hR : m.isSelectingRole
    · cases hA : m.isSelectingAction
      · simp only [userManagementModel.Update, deref, bind, Except.bind, hR, hA,
          Bool.false_eq_true, if_false] at h
        split at h
        · cases h
        rename_i r2 hr2
        cases h
        cases hm'
        intro hh
        rw [updateUserList_role_list m k r2 hr2, hR] at hh
        exact Bool.false_ne_true hh.2
      · simp only [userManagementModel.Update, deref, bind, Except.bind, hR, hA,
          Bool.false_eq_true, if_false, if_true] at h
        split at h
        · cases h
        rename_i r2 hr2
        cases h
        cases hm'
        rcases updateActionSelection_lists env m k r2 hr2 with e | e
        · intro hh; rw [e] at hh; exact Bool.false_ne_true hh.1
        · intro hh; rw [e, hR] at hh; exact Bool.false_ne_true hh.2
    · simp only [userManagementModel.Update, deref, bind, Except.bind, hR, if_true] at h
      split at h
      · cases h
      rename_i r2 hr2
      cases h
      cases hm'
      rw [updateRoleSelection_action_list env m k r2 hr2]
      intro hh
      exact hm ⟨hh.1, hR⟩
  all_goals
    simp only [userManagementModel.Update] at h
    cases h
    cases hm'
    exact hm

/-- The sub-machine of User Management: with the action list shown (resp.
the role list shown) the key `esc` hides it, so that neither list is shown,
calls no store and returns no command, and the user list and its cursor are as
before; with neither list shown, Enter with the cursor on a user of the list
shows the action list for that user; with the action list shown and its
cursor on "Alterar Papel", Enter shows the role list. -/
theorem userManagement_back_and_enter (env : Env) (m : userManagementModel) (k : KeyMsg) :
    (k.String = "esc" → m.isSelectingAction = true → m.isSelectingRole = false →
      userManagementModel.Update env (some m) (Msg.KeyMsg k) =
        .ok (some { m with isSelectingAction := false, isSelectingRole := false,
                           selectedUser := none }, Cmd.nil, [])) ∧
    (k.String = "esc" → m.isSelectingRole = true → m.isSelectingAction = false →
      userManagementModel.Update env (some m) (Msg.KeyMsg k) =
        .ok (some { m with isSelectingAction := false, isSelectingRole := false,
                           selectedUser := none }, Cmd.nil, [])) ∧
    (k.String = "enter" → m.isSelectingAction = false → m.isSelectingRole = false →
      0 ≤ m.cursor → m.cursor < len m.users →
      ∃ u, m.users.get? m.cursor.toNat = some u ∧
        userManagementModel.Update env (some m) (Msg.KeyMsg k) =
          .ok (some { m with selectedUser := some u, isSelectingAction := true,
                             actionCursor := 0 }, Cmd.nil, [])) ∧
    (k.String = "enter" → m.isSelectingAction = true → m.isSelectingRole = false →
      index m.actionChoices m.actionCursor = .ok "Alterar Papel" →
      userManagementModel.Update env (some m) (Msg.KeyMsg k) =
        .ok (some { m with isSelectingAction := false, isSelectingRole := true,
                           roleCursor := 0 }, Cmd.nil, [])) := by
  refine ⟨fun hk ha hr => ?_, fun hk hr ha => ?_, fun hk ha hr h0 h1 => ?_,
    fun hk ha hr hc => ?_⟩
  · have e : { m with isSelectingAction := false, isSelectingRole := false,
                      selectedUser := none } =
        { m with isSelectingAction := false, selectedUser := none } := by rw [← hr]
    rw [e]
    simp [userManagementModel.Update, userManagementModel.updateActionSelection, deref, bind,
      Except.bind, ha, hr, matches_of_string k _ _ hk, DefaultKeyMap]
  · have e : { m with isSelectingAction := false, isSelectingRole := false,
                      selectedUser := none } =
        { m with isSelectingRole := false, selectedUser := none } := by rw [← ha]
    rw [e]
    simp [userManagementModel.Update, userManagementModel.updateRoleSelection, deref, bind,
      Except.bind, hr, matches_of_string k _ _ hk, DefaultKeyMap]
  · obtain ⟨u, hi, hg⟩ := index_ok_of_lt m.users m.cursor h0 h1
    have hl : len m.users > 0 := by omega
    refine ⟨u, hg, ?_⟩
    simp [userManagementModel.Update, userManagementModel.updateUserList, deref, bind,
      Except.bind, ha, hr, matches_of_string k _ _ hk, DefaultKeyMap, hl, hi]
  · simp [userManagementModel.Update, userManagementModel.updateActionSelection, deref, bind,
      Except.bind, ha, hr, matches_of_string k _ _ hk, DefaultKeyMap, hc]

/-- The sub-machine of User Management at the sample screens with the user
"caio" listed. -/
theorem userManagement_back_and_enter_at_samples :
    userManagementModel.Update sampleEnv (some userManagementActions) (keyOf KeyType.KeyEsc) =
      .ok (some userManagementBrowsing, Cmd.nil, []) ∧
    userManagementModel.Update sampleEnv (some userManagementRoles) (keyOf KeyType.KeyEsc) =
      .ok (some userManagementBrowsing, Cmd.nil, []) ∧
    userManagementModel.Update sampleEnv (some userManagementBrowsing) (keyOf KeyType.KeyEnter) =
      .ok (some userManagementActions, Cmd.nil, []) ∧
    userManagementModel.Update sampleEnv (some userManagementActions) (keyOf KeyType.KeyEnter) =
      .ok (some userManagementRoles, Cmd.nil, []) :=
  ⟨(userManagement_back_and_enter sampleEnv userManagementActions
      (specialKey KeyType.KeyEsc)).1 (by decide) rfl rfl,
    (userManagement_back_and_enter sampleEnv userManagementRoles
      (specialKey KeyType.KeyEsc)).2.1 (by decide) rfl rfl,
    by
      obtain ⟨u, hg, hu⟩ := (userManagement_back_and_enter sampleEnv userManagementBrowsing
        (specialKey KeyType.KeyEnter)).2.2.1 (by decide) rfl rfl (by decide) (by decide)
      cases (Option.some.inj ((show userManagementBrowsing.users.get?
        userManagementBrowsing.cursor.toNat = some userCaio from rfl).symm.trans hg))
      exact hu,
    (userManagement_back_and_enter sampleEnv userManagementActions
      (specialKey KeyType.KeyEnter)).2.2.2 (by decide) rfl rfl rfl⟩

/-! ### The role, the user and the menus -/

/-- Claim C23: whatever the state, the message, the store and the widgets,
a state that `mainModel.Update` returns has the `Role` and the `User` of the
state it was called on; so every state of a session has the role and the user
given to `InitialModel`. -/
theorem C23_role_and_user_never_change (user role : String) (env : Env) (m : mainModel)
    (msg : Msg) (out : Out) :
    (mainModel.Update env m msg = .ok out →
      out.model.Role = m.Role ∧ out.model.User = m.User) ∧
    (Reachable user role m → m.Role = role ∧ m.User = user) :=
  ⟨fun h => Update_role env m msg out h, fun h => reachable_role user role m h⟩

/-- The statement of C23 in the session of the admin "root": for the key
`down` on the menu, and for the session in which "root" sets the role of the
own account to "user"; the store call is made and succeeds, and after the
reloaded list and the success message the session still has the role
"admin". -/
theorem C23_role_witness :
    (∃ out, mainModel.Update sampleEnv (InitialModel "root" "admin") (keyOf KeyType.KeyDown) =
        .ok out ∧ out.model.Role = "admin" ∧ out.model.User = "root") ∧
    (runMsgs sampleEnv (InitialModel "root" "admin") (toOwnRoleChanged.take 7)).map
        (fun m => (mainModel.Update sampleEnv m (keyOf KeyType.KeyEnter)).map
          fun out => (out.calls, out.model.Role, out.model.User)) =
      some (.ok ([StoreCall.SetUserRole "root" "user"], "admin", "root")) ∧
    ∃ m, runMsgs sampleEnv (InitialModel "root" "admin") toOwnRoleChanged = some m ∧
      m.Role = "admin" ∧ m.User = "root" := by
  refine ⟨⟨⟨{ InitialModel "root" "admin" with Cursor := 1 }, Cmd.nil, []⟩, rfl, ?_⟩, by rfl, ?_⟩
  · exact (C23_role_and_user_never_change "root" "admin" sampleEnv (InitialModel "root" "admin")
      (keyOf KeyType.KeyDown) ⟨{ InitialModel "root" "admin" with Cursor := 1 }, Cmd.nil, []⟩).1
      rfl
  · have hs : (runMsgs sampleEnv (InitialModel "root" "admin") toOwnRoleChanged).isSome = true := by
      decide
    obtain ⟨m, hm⟩ := Option.isSome_iff_exists.1 hs
    exact ⟨m, hm, (C23_role_and_user_never_change "root" "admin" sampleEnv m Msg.navigateBackMsg
      ⟨m, Cmd.nil, []⟩).2 (runMsgs_reachable _ _ _ _ _ _ Reachable.init hm)⟩

/-- Claim C24: the menu of `InitialModel` is "Ver Fóruns", "Configurações",
"Sair" in that order, with "Administração" before "Sair" exactly when the role
is "admin"; the Settings menu holds "Gerenciar Usuários" exactly when the role
is "moderator" or "admin", and "Criar Novo Usuário" exactly when it is
"admin". -/
theorem C24_menus_depend_on_role_alone (u r : String) (parent : mainModel) :
    ("Administração" ∈ (InitialModel u r).Choices ↔ r = "admin") ∧
    (InitialModel u r).Choices =
      (if r = "admin" then ["Ver Fóruns", "Configurações", "Administração", "Sair"]
       else ["Ver Fóruns", "Configurações", "Sair"]) ∧
    (InitialModel u r).Choices.filter (fun c => c ≠ "Administração") =
      ["Ver Fóruns", "Configurações", "Sair"] ∧
    ("Gerenciar Usuários" ∈ (NewSettingsModel parent).choices ↔
      (parent.Role = "moderator" ∨ parent.Role = "admin")) ∧
    ("Criar Novo Usuário" ∈ (NewSettingsModel parent).choices ↔ parent.Role = "admin") ∧
    (NewSettingsModel (InitialModel u r)).choices =
      (["Alterar Senha"] ++ (if r = "moderator" ∨ r = "admin" then ["Gerenciar Usuários"] else []))
        ++ (if r = "admin" then ["Criar Novo Usuário"] else []) := by
  refine ⟨?_, ?_, ?_, ?_, ?_, ?_⟩
  · by_cases h : r = "admin" <;> simp [InitialModel, h]
  · by_cases h : r = "admin" <;> simp [InitialModel, h]
  · by_cases h : r = "admin" <;> simp [InitialModel, h]
  · by_cases h1 : parent.Role = "moderator" <;> by_cases h2 : parent.Role = "admin" <;>
      simp [NewSettingsModel, h1, h2]
  · by_cases h1 : parent.Role = "moderator" <;> by_cases h2 : parent.Role = "admin" <;>
      simp [NewSettingsModel, h1, h2]
  · simp [NewSettingsModel, InitialModel]

/-! ### Which screens are kept and which are made anew -/

/-- Claim C22 as stated fails for Topics: a user on the Topics screen of
"Geral", two topics loaded and the cursor on the second, goes back to Forums
and presses Enter on "Geral" again; the topics model is a fresh one, with the
cursor 0 and an empty list, and the command is a new load. -/
theorem C22_revisited_topics_screen_is_fresh :
    (runMsgs sampleEnv (InitialModel "ana" "user") toSecondTopic).map
        (fun m => (m.currentView, m.topicsModel.map fun t => (t.cursor, t.topics))) =
      some (view.topicsView, some (1, [topicOla, topicTchau])) ∧
    (runMsgs sampleEnv (InitialModel "ana" "user") toForumsAgain).map
        (fun m => (m.currentView, m.topicsModel.map fun t => (t.cursor, t.topics))) =
      some (view.forumsView, some (1, [topicOla, topicTchau])) ∧
    (runMsgs sampleEnv (InitialModel "ana" "user") toForumsAgain).map
        (fun m => (mainModel.Update sampleEnv m (keyOf KeyType.KeyEnter)).map
          fun out => (out.model.currentView, out.model.topicsModel, out.cmd)) =
      some (.ok (view.topicsView, some (NewTopicsModel (some forumGeral)),
        Cmd.topicsInit (some forumGeral))) := by
  exact ⟨by decide, by decide, by rfl⟩

theorem forumsModel_set_navToTopics_none (fm : forumsModel) (h : fm.navToTopics = none) :
    { fm with navToTopics := none } = fm := by
  cases fm
  simp_all

theorem topicsModel_set_navToPosts_none (tm : topicsModel) (h : tm.navToPosts = none) :
    { tm with navToPosts := none } = tm := by
  cases tm
  simp_all

/-- Claim C22, amended: the Forums screen is made on the first visit and kept,
but every visit issues a new load; the Topics and Posts screens are made anew
at every entry. In every state of a session, for a key whose text is "enter":
on the menu with the cursor on "Ver Fóruns" and a forums model present, the
forums model stays as it is and the command is the forum load; on Forums with
the cursor on a forum, the topics model becomes a fresh one for that forum and
the command is its load, whatever topics model there was; on Topics with the
cursor on a topic, the posts model becomes a fresh one for that topic and the
command is its load. -/
theorem C22_forums_kept_topics_and_posts_made_anew (user role : String) (env : Env)
    (m : mainModel) (k : KeyMsg) (hr : Reachable user role m) (hk : k.String = "enter") :
    (∀ fm, m.currentView = view.mainMenuView → m.forumsModel = some fm →
      index m.Choices m.Cursor = .ok "Ver Fóruns" →
      mainModel.Update env m (Msg.KeyMsg k) =
        .ok ⟨{ m with currentView := view.forumsView, breadcrumbs := ["Home", "Fóruns"],
                      isLoading := true }, Cmd.loadForumsCmd, []⟩) ∧
    (∀ fm, m.currentView = view.forumsView → m.forumsModel = some fm →
      0 ≤ fm.cursor → fm.cursor < len fm.forums →
      ∃ f, fm.forums.get? fm.cursor.toNat = some f ∧
        mainModel.Update env m (Msg.KeyMsg k) =
          .ok ⟨{ m with currentView := view.topicsView, breadcrumbs := m.breadcrumbs ++ [f.Name],
                        topicsModel := some (NewTopicsModel (some f)) },
            Cmd.topicsInit (some f), []⟩) ∧
    (∀ tm, m.currentView = view.topicsView → m.topicsModel = some tm →
      tm.confirmingDelete = false → 0 ≤ tm.cursor → tm.cursor < len tm.topics →
      ∃ t, tm.topics.get? tm.cursor.toNat = some t ∧
        mainModel.Update env m (Msg.KeyMsg k) =
          .ok ⟨{ m with currentView := view.postsView, breadcrumbs := m.breadcrumbs ++ [t.Title],
                        postsModel := some (NewPostsModel (some t)) },
            Cmd.postsInit (some t), []⟩) := by
  have hp := reachable_noPending _ _ _ hr
  obtain ⟨h1, h2, h3, h4, h5, h6, h7, h8⟩ := noPending_iff.1 hp
  refine ⟨fun fm hv hf hc => ?_, fun fm hv hf h0 hl => ?_, fun tm hv ht hcd h0 hl => ?_⟩
  · have hq : ¬ (k.String = "ctrl+c" ∨ k.String = "q") := by rw [hk]; decide
    have hu : ¬ (k.String = "up" ∨ k.String = "k") := by rw [hk]; decide
    have hd : ¬ (k.String = "down" ∨ k.String = "j") := by rw [hk]; decide
    have hm : { m with currentView := view.forumsView, breadcrumbs := ["Home", "Fóruns"],
                       forumsModel := some fm, isLoading := true } =
        { m with currentView := view.forumsView, breadcrumbs := ["Home", "Fóruns"],
                 isLoading := true } := by rw [← hf]
    show mainModel.updateView env m (Msg.KeyMsg k) = _
    simp [mainModel.updateView, hv, mainModel.updateMainMenu, hq, hu, hd, hk, hc, hf,
      forumsModel.Init, deref, bind, Except.bind, hm]
  · obtain ⟨f, hi, hg⟩ := index_ok_of_lt fm.forums fm.cursor h0 hl
    have hlen : len fm.forums > 0 := by omega
    refine ⟨f, hg, ?_⟩
    have hnav : fm.navToTopics = none := by rw [hf] at h5; exact h5
    have hu : forumsModel.Update m (some fm) (Msg.KeyMsg k) =
        .ok (m, some { fm with navToTopics := some f }, Cmd.nil) := by
      simp [forumsModel.Update, deref, bind, Except.bind, matches_of_string k _ _ hk,
        DefaultKeyMap, hlen, hi]
    have hm : { m with currentView := view.topicsView, breadcrumbs := m.breadcrumbs ++ [f.Name],
                       topicsModel := some (NewTopicsModel (some f)),
                       forumsModel := some fm } =
        { m with currentView := view.topicsView, breadcrumbs := m.breadcrumbs ++ [f.Name],
                 topicsModel := some (NewTopicsModel (some f)) } := by rw [← hf]
    show mainModel.updateView env m (Msg.KeyMsg k) = _
    simp [mainModel.updateView, hv, hf, hu, bind, Except.bind, mainModel.forwardNav, h1, h2, h3,
      h4, topicsModel.Init, forumsModel_set_navToTopics_none fm hnav, hm]
    rfl
  · obtain ⟨t, hi, hg⟩ := index_ok_of_lt tm.topics tm.cursor h0 hl
    have hlen : len tm.topics > 0 := by omega
    refine ⟨t, hg, ?_⟩
    have hnav : tm.navToPosts = none := by rw [ht] at h6; exact h6
    have hu : topicsModel.Update m (some tm) (Msg.KeyMsg k) =
        .ok (some { tm with navToPosts := some t }, Cmd.nil) := by
      simp [topicsModel.Update, deref, bind, Except.bind, matches_of_string k _ _ hk,
        DefaultKeyMap, hlen, hi, hcd]
    have hm : { m with currentView := view.postsView, breadcrumbs := m.breadcrumbs ++ [t.Title],
                       postsModel := some (NewPostsModel (some t)),
                       topicsModel := some tm } =
        { m with currentView := view.postsView, breadcrumbs := m.breadcrumbs ++ [t.Title],
                 postsModel := some (NewPostsModel (some t)) } := by rw [← ht]
    show mainModel.updateView env m (Msg.KeyMsg k) = _
    simp [mainModel.updateView, hv, ht, hu, bind, Except.bind, mainModel.forwardNav, h1, h2, h3,
      h4, h5, postsModel.Init, topicsModel_set_navToPosts_none tm hnav, hm]
    rfl

/-- The amended C22 in the sample session of the user "ana": back on the
menu after a visit to Forums and Topics, Enter on "Ver Fóruns" keeps the
forums model and loads again; back on Forums, Enter on "Geral" makes a fresh
topics model although one exists; on Topics, Enter on "Olá" makes a fresh
posts model. -/
theorem C22_kept_and_made_anew_witness :
    Reachable "ana" "user" userBackOnMenu ∧
    mainModel.Update sampleEnv userBackOnMenu (keyOf KeyType.KeyEnter) =
      .ok ⟨{ userBackOnMenu with
              currentView := view.forumsView
              breadcrumbs := ["Home", "Fóruns"]
              isLoading := true }, Cmd.loadForumsCmd, []⟩ ∧
    Reachable "ana" "user" userBackOnForums ∧
    (∃ f, userBackOnForums.forumsModel.bind (fun fm => fm.forums.get? fm.cursor.toNat) = some f ∧
      mainModel.Update sampleEnv userBackOnForums (keyOf KeyType.KeyEnter) =
        .ok ⟨{ userBackOnForums with
                currentView := view.topicsView
                breadcrumbs := userBackOnForums.breadcrumbs ++ [f.Name]
                topicsModel := some (NewTopicsModel (some f)) },
          Cmd.topicsInit (some f), []⟩) ∧
    userBackOnForums.topicsModel ≠ some (NewTopicsModel (some forumGeral)) ∧
    (∃ t, userOnTopics.topicsModel.bind (fun tm => tm.topics.get? tm.cursor.toNat) = some t ∧
      mainModel.Update sampleEnv userOnTopics (keyOf KeyType.KeyEnter) =
        .ok ⟨{ userOnTopics with
                currentView := view.postsView
                breadcrumbs := userOnTopics.breadcrumbs ++ [t.Title]
                postsModel := some (NewPostsModel (some t)) },
          Cmd.postsInit (some t), []⟩) := by
  have h0 : Reachable "ana" "user" userBackOnMenu :=
    runMsgs_reachable _ _ sampleEnv
      (toTopics ++ [keyOf KeyType.KeyEsc, Msg.navigateBackMsg, keyOf KeyType.KeyEsc,
        Msg.navigateBackMsg]) _ _ Reachable.init (by decide)
  have h1 : Reachable "ana" "user" userBackOnForums :=
    runMsgs_reachable _ _ sampleEnv (toTopics ++ [keyOf KeyType.KeyEsc, Msg.navigateBackMsg]) _ _
      Reachable.init (by decide)
  have h2 : Reachable "ana" "user" userOnTopics :=
    runMsgs_reachable _ _ sampleEnv toTopics _ _ Reachable.init (by decide)
  refine ⟨h0, ?_, h1, ?_, by decide, ?_⟩
  · exact (C22_forums_kept_topics_and_posts_made_anew "ana" "user" sampleEnv
      userBackOnMenu (specialKey KeyType.KeyEnter) h0 (by decide)).1
      { NewForumsModel with forums := [forumGeral, forumAjuda] } rfl rfl rfl
  · obtain ⟨f, hg, hu⟩ := (C22_forums_kept_topics_and_posts_made_anew "ana" "user" sampleEnv
      userBackOnForums (specialKey KeyType.KeyEnter) h1 (by decide)).2.1
      { NewForumsModel with forums := [forumGeral, forumAjuda] } rfl rfl (by decide) (by decide)
    exact ⟨f, hg, hu⟩
  · obtain ⟨t, hg, hu⟩ := (C22_forums_kept_topics_and_posts_made_anew "ana" "user" sampleEnv
      userOnTopics (specialKey KeyType.KeyEnter) h2 (by decide)).2.2
      { NewTopicsModel (some forumGeral) with topics := [topicOla] } rfl rfl rfl (by decide)
      (by decide)
    exact ⟨t, hg, hu⟩

/-! ### Forms: the focus -/

theorem index_ok_bounds {α : Type} (xs : List α) (i : Int) (a : α) (h : index xs i = .ok a) :
    0 ≤ i ∧ i < len xs ∧ xs.get? i.toNat = some a := by
  unfold index at h
  split at h
  · cases h
  rename_i hi
  split at h
  · rename_i b hb
    cases h
    have hlt : i.toNat < xs.length := by
      by_contra hc
      rw [List.get?_eq_none.2 (by omega)] at hb
      cases hb
    refine ⟨by omega, ?_, hb⟩
    unfold len
    omega
  · cases h

theorem setIndex_ok_eq {α : Type} (xs ys : List α) (i : Int) (a : α)
    (h : setIndex xs i a = .ok ys) : ys = xs.set i.toNat a := by
  unfold setIndex at h
  split at h
  · cases h
  split at h
  · cases h; rfl
  · cases h

theorem setIndex_of_lt {α : Type} (xs : List α) (i : Int) (a : α) (h0 : 0 ≤ i)
    (h1 : i < len xs) : setIndex xs i a = .ok (xs.set i.toNat a) := by
  unfold setIndex
  have hne : ¬ i < 0 := by omega
  have hlt : i.toNat < xs.length := by unfold len at h1; omega
  rw [if_neg hne, if_pos hlt]

theorem onlyFocused_move (n i j : Nat) :
    ((onlyFocused n i).set i false).set j true = onlyFocused n j := by
  apply List.ext_getElem
  · simp [onlyFocused]
  · intro k h1 h2
    simp only [onlyFocused, List.getElem_set, List.getElem_map, List.getElem_range]
    by_cases hkj : j = k
    · simp [hkj]
    · by_cases hki : i = k
      · simp [hkj, hki]
        omega
      · simp [hkj, hki]
        constructor <;> omega

theorem onlyFocused_set_self (n i : Nat) :
    (onlyFocused n i).set i true = onlyFocused n i := by
  apply List.ext_getElem
  · simp [onlyFocused]
  · intro k h1 h2
    simp only [onlyFocused, List.getElem_set, List.getElem_map, List.getElem_range]
    by_cases hki : i = k
    · simp [hki]
    · simp [hki]

theorem map_set_of_eq {α β : Type} (g : α → β) (xs : List α) (i : Nat) (a b : α)
    (hb : xs.get? i = some b) (hg : g a = g b) : (xs.set i a).map g = xs.map g := by
  rw [List.map_set]
  apply List.ext_get?
  intro n
  rw [List.get?_eq_getElem?, List.get?_eq_getElem?, List.getElem?_set]
  by_cases hn : i = n
  · subst hn
    rw [List.get?_eq_getElem?] at hb
    simp [hb, hg]
    by_contra hlen
    rw [List.getElem?_eq_none (by omega)] at hb
    cases hb
  · simp [hn]

theorem nextInput_spec (m : formModel) (r : formModel × Cmd) (h : m.nextInput = .ok r) :
    0 ≤ m.focusIndex ∧ m.focusIndex < len m.fields ∧
    r.1.focusIndex = (m.focusIndex + 1) % len m.fields ∧
    r.1.focused = (m.focused.set m.focusIndex.toNat false).set r.1.focusIndex.toNat true ∧
    r.1.contents = m.contents ∧
    r.1.title = m.title ∧ r.1.submitAction = m.submitAction ∧ r.1.quitting = m.quitting ∧
    r.2 = Cmd.widget 0 := by
  unfold formModel.nextInput at h
  simp only [bind, Except.bind] at h
  split at h
  · cases h
  rename_i f hf
  split at h
  · cases h
  rename_i fields1 h1
  split at h
  · cases h
  split at h
  · cases h
  rename_i g hg
  split at h
  · cases h
  rename_i fields2 h2
  cases h
  obtain ⟨b0, b1, bf⟩ := index_ok_bounds _ _ _ hf
  have e1 := setIndex_ok_eq _ _ _ _ h1
  obtain ⟨c0, c1, cg⟩ := index_ok_bounds _ _ _ hg
  have e2 := setIndex_ok_eq _ _ _ _ h2
  subst e1
  subst e2
  refine ⟨b0, b1, ?_, ?_, ?_, rfl, rfl, rfl, rfl⟩
  · simp [len]
  · simp [formModel.focused, List.map_set, formInput.Blur, formInput.Focus, len]
  · simp only [formModel.contents]
    rw [map_set_of_eq (fun f => (f.Name, f.Input.value)) _ _ _ g cg (by rfl),
      map_set_of_eq (fun f => (f.Name, f.Input.value)) _ _ _ f bf (by rfl)]

theorem prevInput_spec (m : formModel) (r : formModel × Cmd) (h : m.prevInput = .ok r) :
    0 ≤ m.focusIndex ∧ m.focusIndex < len m.fields ∧
    r.1.focusIndex = (if m.focusIndex - 1 < 0 then len m.fields - 1 else m.focusIndex - 1) ∧
    r.1.focused = (m.focused.set m.focusIndex.toNat false).set r.1.focusIndex.toNat true ∧
    r.1.contents = m.contents ∧
    r.1.title = m.title ∧ r.1.submitAction = m.submitAction ∧ r.1.quitting = m.quitting ∧
    r.2 = Cmd.widget 0 := by
  unfold formModel.prevInput at h
  simp only [bind, Except.bind] at h
  split at h
  · cases h
  rename_i f hf
  split at h
  · cases h
  rename_i fields1 h1
  split at h
  · cases h
  rename_i g hg
  split at h
  · cases h
  rename_i fields2 h2
  cases h
  obtain ⟨b0, b1, bf⟩ := index_ok_bounds _ _ _ hf
  have e1 := setIndex_ok_eq _ _ _ _ h1
  obtain ⟨c0, c1, cg⟩ := index_ok_bounds _ _ _ hg
  have e2 := setIndex_ok_eq _ _ _ _ h2
  subst e1
  subst e2
  refine ⟨b0, b1, ?_, ?_, ?_, rfl, rfl, rfl, rfl⟩
  · simp [len]
  · simp [formModel.focused, List.map_set, formInput.Blur, formInput.Focus, len]
  · simp only [formModel.contents]
    rw [map_set_of_eq (fun f => (f.Name, f.Input.value)) _ _ _ g cg (by rfl),
      map_set_of_eq (fun f => (f.Name, f.Input.value)) _ _ _ f bf (by rfl)]

theorem updateFocused_spec (env : Env) (m : formModel) (msg : Msg)
    (r : Option formModel × Cmd × List StoreCall)
    (h : formModel.updateFocused env (some m) msg = .ok r) :
    ∃ m', r.1 = some m' ∧ m'.focusIndex = m.focusIndex ∧ m'.focused = m.focused ∧
      m'.fields.length = m.fields.length ∧ r.2.2 = [] := by
  unfold formModel.updateFocused at h
  simp only [deref, bind, Except.bind] at h
  split at h
  · cases h
  rename_i f hf
  split at h
  · cases h
  rename_i fields1 h1
  cases h
  obtain ⟨b0, b1, bf⟩ := index_ok_bounds _ _ _ hf
  have e1 := setIndex_ok_eq _ _ _ _ h1
  subst e1
  refine ⟨_, rfl, rfl, ?_, by simp, rfl⟩
  simp only [formModel.focused]
  rw [map_set_of_eq (fun f => f.Input.focus) _ _ _ f bf]
  simp only [formInput.Update]
  split <;> rfl

theorem nextInput_total (m : formModel) (h0 : 0 ≤ m.focusIndex)
    (h1 : m.focusIndex < len m.fields) : ∃ r, m.nextInput = .ok r := by
  obtain ⟨f, hf, _⟩ := index_ok_of_lt m.fields m.focusIndex h0 h1
  have hpos : (0 : Int) < len m.fields := by omega
  have hlen : ∀ a, len (m.fields.set m.focusIndex.toNat a) = len m.fields := by
    intro a; simp [len]
  have j0 : 0 ≤ (m.focusIndex + 1) % len m.fields := Int.emod_nonneg _ (by omega)
  have j1 : (m.focusIndex + 1) % len m.fields < len m.fields := Int.emod_lt_of_pos _ hpos
  obtain ⟨g, hg, _⟩ := index_ok_of_lt
    (m.fields.set m.focusIndex.toNat { f with Input := f.Input.Blur })
    ((m.focusIndex + 1) % len m.fields) j0 (by rw [hlen]; exact j1)
  have hne : ¬ len m.fields = 0 := by omega
  simp only [formModel.nextInput, hf, setIndex_of_lt _ _ _ h0 h1, bind, Except.bind, hlen, hne,
    if_false, hg, setIndex_of_lt _ _ _ j0 (show (m.focusIndex + 1) % len m.fields <
      len (m.fields.set m.focusIndex.toNat { f with Input := f.Input.Blur }) by
        rw [hlen]; exact j1)]
  exact ⟨_, rfl⟩

theorem prevInput_total (m : formModel) (h0 : 0 ≤ m.focusIndex)
    (h1 : m.focusIndex < len m.fields) : ∃ r, m.prevInput = .ok r := by
  obtain ⟨f, hf, _⟩ := index_ok_of_lt m.fields m.focusIndex h0 h1
  have hlen : ∀ a, len (m.fields.set m.focusIndex.toNat a) = len m.fields := by
    intro a; simp [len]
  have j0 : 0 ≤ (if m.focusIndex - 1 < 0 then len m.fields - 1 else m.focusIndex - 1) := by
    split <;> omega
  have j1 : (if m.focusIndex - 1 < 0 then len m.fields - 1 else m.focusIndex - 1) <
      len m.fields := by
    split <;> omega
  obtain ⟨g, hg, _⟩ := index_ok_of_lt
    (m.fields.set m.focusIndex.toNat { f with Input := f.Input.Blur })
    (if m.focusIndex - 1 < 0 then len m.fields - 1 else m.focusIndex - 1) j0
    (by rw [hlen]; exact j1)
  simp only [formModel.prevInput, hf, setIndex_of_lt _ _ _ h0 h1, bind, Except.bind, hlen, hg,
    setIndex_of_lt _ _ _ j0 (show (if m.focusIndex - 1 < 0 then len m.fields - 1
      else m.focusIndex - 1) < len (m.fields.set m.focusIndex.toNat
        { f with Input := f.Input.Blur }) by rw [hlen]; exact j1)]
  exact ⟨_, rfl⟩

theorem contents_length (m m' : formModel) (h : m'.contents = m.contents) :
    m'.fields.length = m.fields.length := by
  have := congrArg List.length h
  simpa [formModel.contents] using this

theorem nextInput_focusOk (m : formModel) (r : formModel × Cmd) (hm : m.focusOk)
    (h : m.nextInput = .ok r) : r.1.focusOk := by
  obtain ⟨b0, b1, hi, hf, hc, _⟩ := nextInput_spec m r h
  obtain ⟨_, _, hfo⟩ := hm
  have hl := contents_length m r.1 hc
  have hpos : (0 : Int) < len m.fields := by omega
  refine ⟨?_, ?_, ?_⟩
  · rw [hi]; exact Int.emod_nonneg _ (by omega)
  · rw [hi]
    have : len r.1.fields = len m.fields := by simp [len, hl]
    rw [this]
    exact Int.emod_lt_of_pos _ hpos
  · rw [hf, hfo, hl, onlyFocused_move]

theorem prevInput_focusOk (m : formModel) (r : formModel × Cmd) (hm : m.focusOk)
    (h : m.prevInput = .ok r) : r.1.focusOk := by
  obtain ⟨b0, b1, hi, hf, hc, _⟩ := prevInput_spec m r h
  obtain ⟨_, _, hfo⟩ := hm
  have hl := contents_length m r.1 hc
  have hlen : len r.1.fields = len m.fields := by simp [len, hl]
  refine ⟨?_, ?_, ?_⟩
  · rw [hi]; split <;> omega
  · rw [hi, hlen]; split <;> omega
  · rw [hf, hfo, hl, onlyFocused_move]

theorem updateFocused_focusOk (env : Env) (m m' : formModel) (msg : Msg) (cmd : Cmd)
    (calls : List StoreCall) (hm : m.focusOk)
    (h : formModel.updateFocused env (some m) msg = .ok (some m', cmd, calls)) : m'.focusOk := by
  obtain ⟨m2, e, hi, hf, hl, _⟩ := updateFocused_spec env m msg _ h
  cases e
  obtain ⟨h0, h1, hfo⟩ := hm
  refine ⟨by rw [hi]; exact h0, ?_, by rw [hf, hl, hi]; exact hfo⟩
  rw [hi]
  have : len m'.fields = len m.fields := by simp [len, hl]
  rw [this]
  exact h1

set_option linter.unusedTactic false in
theorem formModel_Update_focusOk (env : Env) (parent : mainModel) (m m' : formModel)
    (k : KeyMsg) (cmd : Cmd) (calls : List StoreCall) (hm : m.focusOk)
    (h : formModel.Update env parent (some m) (Msg.KeyMsg k) = .ok (some m', cmd, calls)) :
    m'.focusOk := by
  cases hT : k.Typ <;> simp only [formModel.Update, hT, deref, bind, Except.bind] at h
  case KeyEnter =>
    split at h
    · cases h
    split at h
    · split at h
      · split at h
        · cases h
        cases h
        exact hm
      · split at h
        · cases h
        rename_i r hr
        cases h
        exact nextInput_focusOk m r hm hr
    · exact updateFocused_focusOk env m m' _ cmd calls hm h
  case KeyCtrlS =>
    split at h
    · cases h
    cases h
    exact hm
  case KeyTab =>
    split at h
    · split at h
      · cases h
      rename_i r hr
      cases h
      exact nextInput_focusOk m r hm hr
    · split at h
      · cases h
      rename_i r hr
      cases h
      exact prevInput_focusOk m r hm hr
  case KeyShiftTab =>
    split at h
    · split at h
      · cases h
      rename_i r hr
      cases h
      exact nextInput_focusOk m r hm hr
    · split at h
      · cases h
      rename_i r hr
      cases h
      exact prevInput_focusOk m r hm hr
  case KeyCtrlC => cases h; exact hm
  case KeyEsc => cases h; exact hm
  all_goals exact updateFocused_focusOk env m m' _ cmd calls hm h

/-- Claim C25: in every form state that key messages can lead to from a form
constructor, `focusIndex` is an index of the fields and exactly one field is
focused, the one at `focusIndex`. -/
theorem C25_form_focus_is_one_valid_field (m : formModel) (h : FormReachable m) :
    0 ≤ m.focusIndex ∧ m.focusIndex < len m.fields ∧
    (∀ i : Nat, i < m.fields.length →
      ((m.fields.get? i).map (fun f => f.Input.focus) = some true ↔ (i : Int) = m.focusIndex)) ∧
    m.focusOk := by
  have hok : m.focusOk := by
    induction h with
    | newTopic forum m h =>
      cases forum <;> simp only [NewTopicFormModel, deref, bind, Except.bind] at h <;> cases h
      exact ⟨le_refl _, by simp [len], rfl⟩
    | newPost topic m h =>
      cases topic <;> simp only [NewPostFormModel, deref, bind, Except.bind] at h <;> cases h
      exact ⟨le_refl _, by simp [len], rfl⟩
    | newUser => decide
    | changePassword => decide
    | editForum w forum m h =>
      cases forum <;> simp only [NewEditForumFormModel, deref, bind, Except.bind] at h <;> cases h
      exact ⟨le_refl _, by simp [len], rfl⟩
    | newForum => decide
    | key env parent k m m' cmd calls _ hu ih =>
      exact formModel_Update_focusOk env parent m m' k cmd calls ih hu
  obtain ⟨h0, h1, hf⟩ := hok
  refine ⟨h0, h1, fun i hi => ?_, h0, h1, hf⟩
  have e : (m.fields.get? i).map (fun f => f.Input.focus) = m.focused.get? i := by
    simp [formModel.focused]
  rw [e, hf]
  simp only [onlyFocused, List.get?_eq_getElem?, List.getElem?_map, List.getElem?_range hi,
    Option.map_some', Option.some.injEq, decide_eq_true_eq]
  omega


/-! ### Forms: Tab, Shift-Tab, Enter and the submit key -/

theorem tab_string (k : KeyMsg) (hT : k.Typ = KeyType.KeyTab) (hA : k.Alt = false) :
    k.String = "tab" := by
  simp [KeyMsg.String, hT, hA, KeyType.name]

theorem shiftTab_string (k : KeyMsg) (hT : k.Typ = KeyType.KeyShiftTab) : k.String ≠ "tab" := by
  cases hA : k.Alt <;> simp [KeyMsg.String, hT, hA, KeyType.name]

theorem tab_step (env : Env) (parent : mainModel) (m : formModel) (k : KeyMsg)
    (hT : k.Typ = KeyType.KeyTab) (hA : k.Alt = false) :
    formModel.Update env parent (some m) (Msg.KeyMsg k) =
      m.nextInput.bind fun r => .ok (some r.1, r.2, []) := by
  simp only [formModel.Update, hT, deref, bind, Except.bind, tab_string k hT hA, if_true]

theorem shiftTab_step (env : Env) (parent : mainModel) (m : formModel) (k : KeyMsg)
    (hT : k.Typ = KeyType.KeyShiftTab) :
    formModel.Update env parent (some m) (Msg.KeyMsg k) =
      m.prevInput.bind fun r => .ok (some r.1, r.2, []) := by
  simp only [formModel.Update, hT, deref, bind, Except.bind, shiftTab_string k hT, if_false]

theorem len_of_contents (m m' : formModel) (h : m'.contents = m.contents) :
    len m'.fields = len m.fields := by
  simp [len, contents_length m m' h]

theorem tabs_focus (env : Env) (parent : mainModel) (k : KeyMsg)
    (hT : k.Typ = KeyType.KeyTab) (hA : k.Alt = false) (j : Nat) :
    ∀ m : formModel, 0 ≤ m.focusIndex → m.focusIndex < len m.fields →
      ∃ m', runForm env parent m (List.replicate j (Msg.KeyMsg k)) = some m' ∧
        m'.focusIndex = (m.focusIndex + j) % len m.fields ∧ m'.contents = m.contents := by
  induction j with
  | zero =>
    intro m h0 h1
    exact ⟨m, rfl, by simp [Int.emod_eq_of_lt h0 h1], rfl⟩
  | succ j ih =>
    intro m h0 h1
    obtain ⟨r, hr⟩ := nextInput_total m h0 h1
    obtain ⟨_, _, hi, _, hc, _⟩ := nextInput_spec m r hr
    have hl := len_of_contents m r.1 hc
    have hpos : (0 : Int) < len m.fields := by omega
    obtain ⟨m', hrun, hi', hc'⟩ := ih r.1
      (by rw [hi]; exact Int.emod_nonneg _ (by omega))
      (by rw [hi, hl]; exact Int.emod_lt_of_pos _ hpos)
    refine ⟨m', ?_, ?_, hc'.trans hc⟩
    · simp only [List.replicate_succ, runForm, tab_step env parent m k hT hA, hr, Except.bind]
      exact hrun
    · rw [hi', hi, hl, Int.emod_add_emod]
      congr 1
      push_cast
      ring

theorem prev_index_eq (i n : Int) (h0 : 0 ≤ i) (h1 : i < n) :
    (if i - 1 < 0 then n - 1 else i - 1) = (i - 1) % n := by
  split
  · have hi : i = 0 := by omega
    subst hi
    have : (0 - 1 : Int) = (n - 1) + (-1) * n := by ring
    rw [this, Int.add_mul_emod_self, Int.emod_eq_of_lt (by omega) (by omega)]
  · rw [Int.emod_eq_of_lt (by omega) (by omega)]

/-- Claim C27: in a form whose `focusIndex` is an index of its fields, the key
Tab moves the focus to `(i + 1) mod n` and Shift-Tab to `(i - 1) mod n`; Tab
then Shift-Tab, Shift-Tab then Tab, and `n` Tabs in a row each lead back to
`i`; none of these keys changes the name or the value of a field, calls the
store, or panics. -/
theorem C27_tab_and_shift_tab_cycle_the_focus (env : Env) (parent : mainModel) (m : formModel)
    (k kb : KeyMsg) (h0 : 0 ≤ m.focusIndex) (h1 : m.focusIndex < len m.fields)
    (hT : k.Typ = KeyType.KeyTab) (hA : k.Alt = false) (hB : kb.Typ = KeyType.KeyShiftTab) :
    (∃ m' cmd, formModel.Update env parent (some m) (Msg.KeyMsg k) = .ok (some m', cmd, []) ∧
      m'.focusIndex = (m.focusIndex + 1) % len m.fields ∧ m'.contents = m.contents) ∧
    (∃ m' cmd, formModel.Update env parent (some m) (Msg.KeyMsg kb) = .ok (some m', cmd, []) ∧
      m'.focusIndex = (m.focusIndex - 1) % len m.fields ∧ m'.contents = m.contents) ∧
    (∃ m', runForm env parent m [Msg.KeyMsg k, Msg.KeyMsg kb] = some m' ∧
      m'.focusIndex = m.focusIndex ∧ m'.contents = m.contents) ∧
    (∃ m', runForm env parent m [Msg.KeyMsg kb, Msg.KeyMsg k] = some m' ∧
      m'.focusIndex = m.focusIndex ∧ m'.contents = m.contents) ∧
    (∃ m', runForm env parent m (List.replicate m.fields.length (Msg.KeyMsg k)) = some m' ∧
      m'.focusIndex = m.focusIndex ∧ m'.contents = m.contents) := by
  have hpos : (0 : Int) < len m.fields := by omega
  obtain ⟨r, hr⟩ := nextInput_total m h0 h1
  obtain ⟨_, _, hi, _, hc, _⟩ := nextInput_spec m r hr
  have hl := len_of_contents m r.1 hc
  have r0 : 0 ≤ r.1.focusIndex := by rw [hi]; exact Int.emod_nonneg _ (by omega)
  have r1 : r.1.focusIndex < len r.1.fields := by
    rw [hi, hl]; exact Int.emod_lt_of_pos _ hpos
  obtain ⟨p, hp⟩ := prevInput_total m h0 h1
  obtain ⟨_, _, hpi, _, hpc, _⟩ := prevInput_spec m p hp
  have hpl := len_of_contents m p.1 hpc
  have p0 : 0 ≤ p.1.focusIndex := by rw [hpi]; split <;> omega
  have p1 : p.1.focusIndex < len p.1.fields := by rw [hpi, hpl]; split <;> omega
  obtain ⟨rp, hrp⟩ := prevInput_total r.1 r0 r1
  obtain ⟨_, _, hrpi, _, hrpc, _⟩ := prevInput_spec r.1 rp hrp
  obtain ⟨pr, hpr⟩ := nextInput_total p.1 p0 p1
  obtain ⟨_, _, hpri, _, hprc, _⟩ := nextInput_spec p.1 pr hpr
  refine ⟨⟨r.1, r.2, ?_, hi, hc⟩, ⟨p.1, p.2, ?_, ?_, hpc⟩, ⟨rp.1, ?_, ?_, hrpc.trans hc⟩,
    ⟨pr.1, ?_, ?_, hprc.trans hpc⟩, ?_⟩
  · rw [tab_step env parent m k hT hA, hr]; rfl
  · rw [shiftTab_step env parent m kb hB, hp]; rfl
  · rw [hpi]; exact prev_index_eq _ _ h0 h1
  · simp only [runForm, tab_step env parent m k hT hA, hr, Except.bind,
      shiftTab_step env parent r.1 kb hB, hrp]
  · rw [hrpi, hi, hl]
    by_cases hlast : m.focusIndex + 1 < len m.fields
    · rw [Int.emod_eq_of_lt (by omega) hlast]
      split <;> omega
    · have e : m.focusIndex + 1 = len m.fields := by omega
      rw [e, Int.emod_self]
      simp
      omega
  · simp only [runForm, shiftTab_step env parent m kb hB, hp, Except.bind,
      tab_step env parent p.1 k hT hA, hpr]
  · rw [hpri, hpi, hpl]
    split
    · have e : m.focusIndex = 0 := by omega
      rw [e]
      simp
    · rw [Int.emod_eq_of_lt (by omega) (by omega)]
      omega
  · obtain ⟨m', hrun, hi', hc'⟩ := tabs_focus env parent k hT hA m.fields.length m h0 h1
    refine ⟨m', hrun, ?_, hc'⟩
    rw [hi']
    show (m.focusIndex + len m.fields) % len m.fields = m.focusIndex
    rw [Int.add_emod_self, Int.emod_eq_of_lt h0 h1]


theorem Values_get_set_self (vs : Values) (k v : String) : (vs.set k v).get k = v := by
  simp [Values.set, Values.get]

theorem Values_get_set_other (vs : Values) (k k' v : String) (h : k' ≠ k) :
    (vs.set k v).get k' = vs.get k' := by
  have hk : ¬ k = k' := fun e => h e.symm
  simp only [Values.set, Values.get, List.find?_cons, decide_eq_true_eq, hk, decide_False,
    List.find?_filter]
  have e : (fun a : String × String => decide (a.1 ≠ k ∧ a.1 = k')) =
      (fun a : String × String => decide (a.1 = k')) := by
    funext a
    by_cases ha : a.1 = k'
    · simp [ha, h]
    · simp [ha]
  rw [e]

theorem foldl_set_get_other (fs : List FormField) (vs : Values) (name : String)
    (h : name ∉ fs.map (fun f => f.Name)) :
    (fs.foldl (fun vs f => vs.set f.Name f.Input.value) vs).get name = vs.get name := by
  induction fs generalizing vs with
  | nil => rfl
  | cons f rest ih =>
    simp only [List.map_cons, List.mem_cons, not_or] at h
    rw [List.foldl_cons, ih _ h.2, Values_get_set_other _ _ _ _ h.1]

theorem foldl_set_get_mem (fs : List FormField) (hn : (fs.map fun f => f.Name).Nodup)
    (fld : FormField) (hf : fld ∈ fs) (vs : Values) :
    (fs.foldl (fun vs f => vs.set f.Name f.Input.value) vs).get fld.Name = fld.Input.value := by
  induction fs generalizing vs with
  | nil => cases hf
  | cons f rest ih =>
    simp only [List.map_cons, List.nodup_cons] at hn
    rw [List.foldl_cons]
    rcases List.mem_cons.1 hf with e | e
    · subst e
      rw [foldl_set_get_other _ _ _ hn.1, Values_get_set_self]
    · exact ih hn.2 e _

/-- The map that `submit` builds holds, for every field, its current value
under its name, when no two fields have the same name. -/
theorem values_get_field (m : formModel) (hn : (m.fields.map fun f => f.Name).Nodup)
    (fld : FormField) (hf : fld ∈ m.fields) : m.values.get fld.Name = fld.Input.value :=
  foldl_set_get_mem m.fields hn fld hf []

/-- Claim C26: in a form whose focused field is `f`, Enter on a single-line
`f` that is not the last field moves the focus to the next field, returns only
that field's cursor command and calls no store; Enter on a single-line `f`
that is the last field, and `ctrl+s` on any field, return what `submitAction`
returns for the map of the fields, which holds every field's current value
under its name; Enter on a multi-line `f` is handed to the field: the focus
stays, nothing is submitted and no store is called. -/
theorem C26_enter_and_submit_key (env : Env) (parent : mainModel) (m : formModel) (k : KeyMsg)
    (f : FormField) :
    (k.Typ = KeyType.KeyEnter → index m.fields m.focusIndex = .ok f →
      f.Input.kind = InputKind.TextInput → m.focusIndex ≠ len m.fields - 1 →
      ∃ m', formModel.Update env parent (some m) (Msg.KeyMsg k) =
          .ok (some m', Cmd.widget 0, []) ∧
        m'.focusIndex = m.focusIndex + 1 ∧ m'.contents = m.contents) ∧
    (k.Typ = KeyType.KeyEnter → index m.fields m.focusIndex = .ok f →
      f.Input.kind = InputKind.TextInput → m.focusIndex = len m.fields - 1 →
      formModel.Update env parent (some m) (Msg.KeyMsg k) =
        (m.submitAction.call env parent m.values).bind fun r => .ok (some m, r.1, r.2)) ∧
    (k.Typ = KeyType.KeyCtrlS →
      formModel.Update env parent (some m) (Msg.KeyMsg k) =
        (m.submitAction.call env parent m.values).bind fun r => .ok (some m, r.1, r.2)) ∧
    ((m.fields.map fun g => g.Name).Nodup →
      ∀ fld ∈ m.fields, m.values.get fld.Name = fld.Input.value) ∧
    (k.Typ = KeyType.KeyEnter → index m.fields m.focusIndex = .ok f →
      f.Input.kind = InputKind.TextArea →
      ∃ m', formModel.Update env parent (some m) (Msg.KeyMsg k) =
          .ok (some m', (f.Input.Update env.widgets (Msg.KeyMsg k)).2, []) ∧
        m'.focusIndex = m.focusIndex ∧ m'.focused = m.focused ∧
        m'.fields = m.fields.set m.focusIndex.toNat
          { f with Input := (f.Input.Update env.widgets (Msg.KeyMsg k)).1 }) := by
  refine ⟨fun hT hf hk hl => ?_, fun hT hf hk hl => ?_, fun hT => ?_,
    fun hn fld hfld => values_get_field m hn fld hfld, fun hT hf hk => ?_⟩
  · obtain ⟨b0, b1, _⟩ := index_ok_bounds _ _ _ hf
    obtain ⟨r, hr⟩ := nextInput_total m b0 b1
    obtain ⟨_, _, hi, _, hc, _, _, _, hcmd⟩ := nextInput_spec m r hr
    refine ⟨r.1, ?_, ?_, hc⟩
    · simp only [formModel.Update, hT, deref, bind, Except.bind, hf, hk, hl, if_true, if_false,
        hr, hcmd]
    · rw [hi, Int.emod_eq_of_lt (by omega) (by omega)]
  · have hf2 := hf
    rw [hl] at hf2
    simp only [formModel.Update, hT, deref, bind, Except.bind, hl, hf2, hk, if_true,
      formModel.submit]
  · simp only [formModel.Update, hT, deref, bind, Except.bind, formModel.submit]
  · obtain ⟨b0, b1, _⟩ := index_ok_bounds _ _ _ hf
    have hne : ¬ (InputKind.TextArea = InputKind.TextInput) := by decide
    obtain ⟨fields1, h1⟩ : ∃ fields1, fields1 = m.fields.set m.focusIndex.toNat
        { f with Input := (f.Input.Update env.widgets (Msg.KeyMsg k)).1 } := ⟨_, rfl⟩
    have hu : formModel.updateFocused env (some m) (Msg.KeyMsg k) =
        .ok (some { m with fields := fields1 },
          (f.Input.Update env.widgets (Msg.KeyMsg k)).2, []) := by
      simp only [formModel.updateFocused, deref, bind, Except.bind, hf,
        setIndex_of_lt _ _ _ b0 b1, h1]
    obtain ⟨m2, e, _, hfo, _⟩ := updateFocused_spec env m _ _ hu
    cases e
    refine ⟨{ m with fields := fields1 }, ?_, rfl, hfo, h1⟩
    simp only [formModel.Update, hT, deref, bind, Except.bind, hf, hk, hne, if_false]
    exact hu

/-- The statement of C25 at the new-user form after Shift-Tab: the focus has
wrapped to the third of the three fields. -/
theorem C25_form_focus_witness :
    FormReachable userFormOnRole ∧
    (0 ≤ userFormOnRole.focusIndex ∧ userFormOnRole.focusIndex < len userFormOnRole.fields) ∧
    userFormOnRole.focusOk ∧
    userFormOnRole.focusIndex = 2 ∧ userFormOnRole.focused = [false, false, true] :=
  have h : FormReachable userFormOnRole :=
    FormReachable.key sampleEnv (InitialModel "root" "admin") (specialKey KeyType.KeyShiftTab)
      NewUserFormModel userFormOnRole (Cmd.widget 0) [] FormReachable.newUser (by rfl)
  ⟨h, ⟨(C25_form_focus_is_one_valid_field userFormOnRole h).1,
      (C25_form_focus_is_one_valid_field userFormOnRole h).2.1⟩,
    (C25_form_focus_is_one_valid_field userFormOnRole h).2.2.2, rfl, rfl⟩

/-- The statement of C26 at the new-user form with the focus on the first
field (Enter moves it to the second) and on the last field (Enter and `ctrl+s`
return the create-user command for the three values), and at the new-post
form, whose only field is multi-line (Enter stays in the field). -/
theorem C26_enter_witness :
    (∃ m', formModel.Update sampleEnv (InitialModel "root" "admin") (some NewUserFormModel)
          (keyOf KeyType.KeyEnter) = .ok (some m', Cmd.widget 0, []) ∧
        m'.focusIndex = NewUserFormModel.focusIndex + 1 ∧
        m'.contents = NewUserFormModel.contents) ∧
    formModel.Update sampleEnv (InitialModel "root" "admin") (some userFormBadRole)
        (keyOf KeyType.KeyEnter) =
      .ok (some userFormBadRole, Cmd.createUser "caio" "s3nha" "root", []) ∧
    formModel.Update sampleEnv (InitialModel "root" "admin") (some userFormBadRole)
        (keyOf KeyType.KeyCtrlS) =
      .ok (some userFormBadRole, Cmd.createUser "caio" "s3nha" "root", []) ∧
    userFormBadRole.values.get "Password" = "s3nha" ∧
    (∃ m', formModel.Update sampleEnv userOnPosts (some postFormOla) (keyOf KeyType.KeyEnter) =
          .ok (some m', Cmd.nil, []) ∧
        m'.focusIndex = postFormOla.focusIndex ∧ m'.focused = postFormOla.focused) :=
  ⟨(C26_enter_and_submit_key sampleEnv (InitialModel "root" "admin") NewUserFormModel
      (specialKey KeyType.KeyEnter) ⟨"Username", (newTextInput "Nome de Usuário").Focus.1⟩).1
      rfl rfl rfl (by decide),
    ((C26_enter_and_submit_key sampleEnv (InitialModel "root" "admin") userFormBadRole
      (specialKey KeyType.KeyEnter)
      ⟨"Role", { (newTextInput "Papel (user, moderator, admin)").Focus.1 with
        value := "root" }⟩).2.1 rfl rfl rfl (by decide)).trans (by rfl),
    ((C26_enter_and_submit_key sampleEnv (InitialModel "root" "admin") userFormBadRole
      (specialKey KeyType.KeyCtrlS)
      ⟨"Role", { (newTextInput "Papel (user, moderator, admin)").Focus.1 with
        value := "root" }⟩).2.2.1 rfl).trans (by rfl),
    (C26_enter_and_submit_key sampleEnv (InitialModel "root" "admin") userFormBadRole
      (specialKey KeyType.KeyCtrlS)
      ⟨"Role", { (newTextInput "Papel (user, moderator, admin)").Focus.1 with
        value := "root" }⟩).2.2.2.1 (by decide)
      ⟨"Password", { newTextInput "Senha" with EchoPassword := true, value := "s3nha" }⟩
      (by decide),
    by
      obtain ⟨m', hu, hi, hf, _⟩ := (C26_enter_and_submit_key sampleEnv userOnPosts postFormOla
        (specialKey KeyType.KeyEnter)
        ⟨"Conteúdo", (newTextArea "Escreva sua resposta...").Focus.1⟩).2.2.2.2 rfl rfl rfl
      exact ⟨m', hu, hi, hf⟩⟩

/-- The statement of C27 at the new-user form, three fields and the focus on
the first, for the keys Tab and Shift-Tab; three Tabs lead back to the form as
it was. -/
theorem C27_tab_witness :
    (∃ m' cmd, formModel.Update sampleEnv (InitialModel "root" "admin") (some NewUserFormModel)
        (keyOf KeyType.KeyTab) = .ok (some m', cmd, []) ∧
      m'.focusIndex = (NewUserFormModel.focusIndex + 1) % len NewUserFormModel.fields ∧
      m'.contents = NewUserFormModel.contents) ∧
    (∃ m' cmd, formModel.Update sampleEnv (InitialModel "root" "admin") (some NewUserFormModel)
        (keyOf KeyType.KeyShiftTab) = .ok (some m', cmd, []) ∧
      m'.focusIndex = (NewUserFormModel.focusIndex - 1) % len NewUserFormModel.fields ∧
      m'.contents = NewUserFormModel.contents) ∧
    (∃ m', runForm sampleEnv (InitialModel "root" "admin") NewUserFormModel
        (List.replicate NewUserFormModel.fields.length (keyOf KeyType.KeyTab)) = some m' ∧
      m'.focusIndex = NewUserFormModel.focusIndex ∧ m'.contents = NewUserFormModel.contents) ∧
    runForm sampleEnv (InitialModel "root" "admin") NewUserFormModel
        [keyOf KeyType.KeyTab, keyOf KeyType.KeyTab, keyOf KeyType.KeyTab] =
      some NewUserFormModel ∧
    runForm sampleEnv (InitialModel "root" "admin") NewUserFormModel [keyOf KeyType.KeyShiftTab] =
      some userFormOnRole :=
  have h := C27_tab_and_shift_tab_cycle_the_focus sampleEnv (InitialModel "root" "admin")
    NewUserFormModel (specialKey KeyType.KeyTab) (specialKey KeyType.KeyShiftTab)
    (by decide) (by decide) rfl rfl rfl
  ⟨h.1, h.2.1, h.2.2.2.2, by decide, by decide⟩

/-! ### The list of Forum Management -/

theorem forwardNav_managedForums (env : Env) (m : mainModel) (cmd : Cmd) (r : mainModel × Cmd)
    (hm : m.managedForums = []) (h : mainModel.forwardNav env m cmd = .ok r) :
    r.1.managedForums = [] := by
  cases hfm : m.forumManagementModel <;>
    simp only [mainModel.managedForums, listedForums, hfm] at hm <;>
    simp only [mainModel.forwardNav, hfm, bind, Except.bind] at h <;>
    repeat' split at h
  all_goals (cases h <;> simp [mainModel.managedForums, listedForums, hfm, hm,
    NewForumManagementModel])

set_option linter.unusedTactic false in
theorem forumManagementModel_updateKeys_forums (m : forumManagementModel) (k : KeyMsg)
    (r : forumManagementModel × Cmd) (h : m.updateKeys k = .ok r) : r.1.forums = m.forums := by
  simp only [forumManagementModel.updateKeys, bind, Except.bind] at h
  repeat' split at h
  all_goals (cases h <;> rfl)

set_option linter.unusedTactic false in
theorem forumManagementModel_Update_forums (recv : Option forumManagementModel) (msg : Msg)
    (r : Option forumManagementModel × Cmd) (hmsg : ∀ fs, msg ≠ Msg.forumsLoadedMsg fs)
    (h : forumManagementModel.Update recv msg = .ok r) : listedForums r.1 = listedForums recv := by
  cases msg
  case forumsLoadedMsg fs => exact absurd rfl (hmsg fs)
  case KeyMsg k =>
    cases recv with
    | none => simp only [forumManagementModel.Update, deref, bind, Except.bind] at h; cases h
    | some fm =>
      simp only [forumManagementModel.Update, deref, bind, Except.bind] at h
      repeat' split at h
      all_goals first
        | (cases h; done)
        | (cases h; rfl)
        | (cases h
           rename_i heq
           simpa [listedForums] using forumManagementModel_updateKeys_forums _ _ _ heq)
  all_goals
    simp only [forumManagementModel.Update] at h
    cases h
    rfl

theorem updateView_managedForums (env : Env) (m : mainModel) (msg : Msg) (out : Out)
    (hmsg : ∀ fs, msg ≠ Msg.forumsLoadedMsg fs) (hm : m.managedForums = [])
    (h : mainModel.updateView env m msg = .ok out) : out.model.managedForums = [] := by
  cases hcv : m.currentView <;> simp only [mainModel.updateView, hcv, bind, Except.bind] at h
  case mainMenuView =>
    split at h
    · cases h
    rename_i r hr
    cases h
    cases msg <;>
      simp only [mainModel.updateMainMenu, forumsModel.Init, deref, bind, Except.bind] at hr <;>
      repeat' split at hr
    all_goals (cases hr <;> exact hm)
  case forumManagementView =>
    split at h
    · cases h
    rename_i r hr
    split at h
    · cases h
    rename_i n hnav
    cases h
    refine forwardNav_managedForums env _ _ n ?_ hnav
    show listedForums r.1 = []
    rw [forumManagementModel_Update_forums _ _ _ hmsg hr]
    exact hm
  case adminView =>
    split at h
    · cases h
    rename_i r hr
    obtain ⟨ret, c⟩ := r
    cases ret with
    | main => cases h; exact hm
    | self s =>
      simp only [] at h
      split at h
      · cases h
      rename_i n hnav
      cases h
      exact forwardNav_managedForums env _ _ n (by exact hm) hnav
  case forumsView =>
    split at h
    · cases h
    rename_i r hr
    split at h
    · cases h
    rename_i n hnav
    cases h
    refine forwardNav_managedForums env _ _ n ?_ hnav
    rcases forumsModel_Update_frame _ _ _ _ hr with e | e <;> rw [e] <;> exact hm
  case settingsView =>
    split at h
    · cases h
    rename_i r hr
    obtain ⟨p, ret, c⟩ := r
    cases ret with
    | main => cases h
    | self s =>
      simp only [] at h
      split at h
      · cases h
      rename_i n hnav
      cases h
      refine forwardNav_managedForums env _ _ n ?_ hnav
      rw [settingsModel_Update_frame _ _ _ _ _ _ hr]
      exact hm
  all_goals
    split at h
    · cases h
    rename_i r hr
    split at h
    · cases h
    rename_i n hnav
    cases h
    exact forwardNav_managedForums env _ _ n (by exact hm) hnav

theorem Update_managedForums (env : Env) (m : mainModel) (msg : Msg) (out : Out)
    (hm : m.managedForums = []) (h : mainModel.Update env m msg = .ok out) :
    out.model.managedForums = [] := by
  cases msg
  case KeyMsg k => exact updateView_managedForums env m _ out (by intro fs; simp) hm h
  case WindowSizeMsg w ht => exact updateView_managedForums env m _ out (by intro fs; simp) hm h
  case userCreatedMsg => exact updateView_managedForums env m _ out (by intro fs; simp) hm h
  case topicsLoadedMsg ts e =>
    exact updateView_managedForums env m _ out (by intro fs; simp) hm h
  case reloadTopicsMsg => exact updateView_managedForums env m _ out (by intro fs; simp) hm h
  case postsLoadedMsg ps e =>
    exact updateView_managedForums env m _ out (by intro fs; simp) hm h
  case reloadPostsMsg => exact updateView_managedForums env m _ out (by intro fs; simp) hm h
  case widgetMsg t => exact updateView_managedForums env m _ out (by intro fs; simp) hm h
  case forumsLoadedMsg fs =>
    simp only [mainModel.Update, bind, Except.bind] at h
    split at h
    · cases h
    rename_i r hr
    cases h
    rcases forumsModel_Update_frame _ _ _ _ hr with e | e <;> rw [e] <;> exact hm
  case usersLoadedMsg us =>
    simp only [mainModel.Update, bind, Except.bind] at h
    split at h
    · cases h
    cases h
    exact hm
  case navigateBackMsg =>
    simp only [mainModel.Update, bind, Except.bind] at h
    repeat' split at h
    all_goals (cases h <;> exact hm)
  all_goals (cases h; exact hm)

/-- In every state of a session the list of the Forum Management screen is
empty: no message that `mainModel.Update` handles puts a forum into it. -/
theorem reachable_managedForums_empty (user role : String) (m : mainModel)
    (h : Reachable user role m) : m.managedForums = [] := by
  induction h with
  | init => rfl
  | step env msg m out _ hu ih => exact Update_managedForums env m msg out ih hu

theorem forumsLoadedMsg_skips_forum_management (env : Env) (m : mainModel) (forums : List Forum)
    (out : Out) (h : mainModel.Update env m (Msg.forumsLoadedMsg forums) = .ok out) :
    out.model.forumManagementModel = m.forumManagementModel := by
  simp only [mainModel.Update, bind, Except.bind] at h
  split at h
  · cases h
  rename_i r hr
  cases h
  rcases forumsModel_Update_frame _ _ _ _ hr with e | e <;> rw [e]

theorem forumsLoadedMsg_panics_without_forums_model (env : Env) (m : mainModel)
    (forums : List Forum) (h : m.forumsModel = none) :
    mainModel.Update env m (Msg.forumsLoadedMsg forums) =
      .error "invalid memory address or nil pointer dereference" := by
  simp [mainModel.Update, forumsModel.Update, h, deref, bind, Except.bind]

theorem key_panics_without_settings_model (env : Env) (m : mainModel) (k : KeyMsg)
    (hv : m.currentView = view.settingsView) (hs : m.settingsModel = none) :
    mainModel.Update env m (Msg.KeyMsg k) =
      .error "invalid memory address or nil pointer dereference" := by
  show mainModel.updateView env m (Msg.KeyMsg k) = _
  simp [mainModel.updateView, hv, hs, settingsModel.Update, deref, bind, Except.bind]

/-! ### Missing models and cursors past the end -/

/-- Claim C28, the code at the failing input: a user opens the new-post form
on the Posts screen of "Olá" and submits it empty; the command delivers the
failure `statusMessage`, and the state in which it leaves the session has
Settings as the active screen and no settings model (this session never
opened Settings); the next key panics on the nil receiver. -/
theorem C28_failure_message_activates_missing_settings_model :
    (runMsgs sampleEnv (InitialModel "ana" "user") (toPosts ++ [charKey 'n'])).map
        (fun m => (m.currentView, m.activeModelPresent,
          (mainModel.Update sampleEnv m (keyOf KeyType.KeyCtrlS)).map
            fun out => out.cmd.run sampleStore)) =
      some (view.formView, true,
        .ok (.ok ([Msg.statusMessage false "O conteúdo não pode estar vazio."], []))) ∧
    (∃ m, Reachable "ana" "user" m ∧ m.currentView = view.settingsView ∧
      m.settingsModel = none ∧ m.activeModelPresent = false ∧
      mainModel.Update sampleEnv m (keyOf KeyType.KeyDown) =
        .error "invalid memory address or nil pointer dereference") := by
  refine ⟨by rfl, ?_⟩
  have h : ∃ m, runMsgs sampleEnv (InitialModel "ana" "user") toEmptyPostSubmitted = some m ∧
      m.currentView = view.settingsView ∧ m.settingsModel = none ∧
      m.activeModelPresent = false := by
    decide
  obtain ⟨m, hm, hv, hs, ha⟩ := h
  exact ⟨m, runMsgs_reachable _ _ _ _ _ _ Reachable.init hm, hv, hs, ha,
    key_panics_without_settings_model sampleEnv m _ hv hs⟩

/-- Claim C29, the code at the failing input: an admin who has visited Forums
opens Forum Management; the command of that Enter loads the forums "Geral"
and "Ajuda", and when the `forumsLoadedMsg` is handled the list of Forum
Management is still empty: the Forums screen got it. Without the visit to
Forums the same message panics. -/
theorem C29_loaded_forums_go_to_the_forums_screen :
    (runMsgs sampleEnv (InitialModel "root" "admin") toForumManagement.dropLast).map
        (fun m => (mainModel.Update sampleEnv m (keyOf KeyType.KeyEnter)).map
          fun out => (out.model.currentView, out.cmd.run sampleStore)) =
      some (.ok (view.forumManagementView,
        .ok ([Msg.forumsLoadedMsg [forumGeral, forumAjuda]], [StoreCall.GetAllForums]))) ∧
    (runMsgs sampleEnv (InitialModel "root" "admin")
        (toForumManagement ++ [Msg.forumsLoadedMsg [forumGeral, forumAjuda]])).map
        (fun m => (m.currentView, m.forumManagementModel.map (fun f => f.forums),
          m.forumsModel.map fun f => f.forums)) =
      some (view.forumManagementView, some [], some [forumGeral, forumAjuda]) ∧
    (runMsgs sampleEnv (InitialModel "root" "admin") toForumManagementDirectly).map
        (fun m => (m.currentView, m.forumsModel, m.forumManagementModel)) =
      some (view.forumManagementView, none, some NewForumManagementModel) ∧
    (runMsgs sampleEnv (InitialModel "root" "admin") toForumManagementDirectly).map
        (fun m => mainModel.Update sampleEnv m (Msg.forumsLoadedMsg [forumGeral, forumAjuda])) =
      some (.error "invalid memory address or nil pointer dereference") := by
  exact ⟨by rfl, by decide, by decide, by rfl⟩

/-- Claim C30, the code at the failing input: a moderator on Topics, two
topics loaded and the cursor on the second, deletes that topic; the delete
command delivers `reloadTopicsMsg`, whose command loads the one topic that is
left. After that list is handled the cursor is 1 and the list has one topic,
and Enter panics with an index out of range. -/
theorem C30_cursor_stays_past_the_end_after_reload :
    (runMsgs sampleEnv (InitialModel "bia" "moderator") (toSecondTopic ++ [charKey 'd'])).map
        (fun m => (mainModel.Update sampleEnv m (charKey 's')).map
          fun out => (out.cmd, out.cmd.run sampleStore)) =
      some (.ok (Cmd.deleteTopic 12,
        .ok ([Msg.reloadTopicsMsg], [StoreCall.DeleteTopic 12]))) ∧
    (runMsgs sampleEnv (InitialModel "bia" "moderator")
        (toSecondTopic ++ [charKey 'd', charKey 's'])).map
        (fun m => (mainModel.Update sampleEnv m Msg.reloadTopicsMsg).map
          fun out => out.cmd.run sampleStore) =
      some (.ok (.ok ([Msg.topicsLoadedMsg [topicOla] none],
        [StoreCall.GetTopicsByForumID 1]))) ∧
    (∃ m, Reachable "bia" "moderator" m ∧ m.currentView = view.topicsView ∧
      m.topicsModel.map (fun t => (t.cursor, t.topics)) = some (1, [topicOla]) ∧
      runMsgs sampleEnv (InitialModel "bia" "moderator") toLastTopicDeleted = some m) ∧
    (runMsgs sampleEnv (InitialModel "bia" "moderator") toLastTopicDeleted).map
        (fun m => mainModel.Update sampleEnv m (keyOf KeyType.KeyEnter)) =
      some (.error "index out of range") := by
  refine ⟨by rfl, by rfl, ?_, by rfl⟩
  have h : ∃ m, runMsgs sampleEnv (InitialModel "bia" "moderator") toLastTopicDeleted = some m ∧
      m.currentView = view.topicsView ∧
      m.topicsModel.map (fun t => (t.cursor, t.topics)) = some (1, [topicOla]) := by
    decide
  obtain ⟨m, hm, hv, ht⟩ := h
  exact ⟨m, runMsgs_reachable _ _ _ _ _ _ Reachable.init hm, hv, ht, hm⟩

/-! ### The overlay of Forum Management in a session -/

theorem forwardNav_overlayOff (env : Env) (m : mainModel) (cmd : Cmd) (r : mainModel × Cmd)
    (hm : listedOverlay m.forumManagementModel = false)
    (h : mainModel.forwardNav env m cmd = .ok r) :
    listedOverlay r.1.forumManagementModel = false := by
  cases hfm : m.forumManagementModel <;>
    simp only [listedOverlay, hfm] at hm <;>
    simp only [mainModel.forwardNav, hfm, bind, Except.bind] at h <;>
    repeat' split at h
  all_goals (cases h <;> simp [listedOverlay, hfm, hm, NewForumManagementModel])

set_option linter.unusedTactic false in
theorem forumManagementModel_updateKeys_overlayOff (m : forumManagementModel) (k : KeyMsg)
    (r : forumManagementModel × Cmd) (hf : m.forums = []) (ho : m.confirmingDelete = false)
    (h : m.updateKeys k = .ok r) : r.1.confirmingDelete = false := by
  simp only [forumManagementModel.updateKeys, hf, len, List.length_nil, bind, Except.bind] at h
  repeat' split at h
  all_goals first
    | (cases h; exact ho)
    | (cases h <;> simp_all)

set_option linter.unusedTactic false in
theorem forumManagementModel_Update_overlayOff (recv : Option forumManagementModel) (msg : Msg)
    (r : Option forumManagementModel × Cmd) (hmsg : ∀ fs, msg ≠ Msg.forumsLoadedMsg fs)
    (hf : listedForums recv = []) (ho : listedOverlay recv = false)
    (h : forumManagementModel.Update recv msg = .ok r) : listedOverlay r.1 = false := by
  cases msg
  case forumsLoadedMsg fs => exact absurd rfl (hmsg fs)
  case KeyMsg k =>
    cases recv with
    | none => simp only [forumManagementModel.Update, deref, bind, Except.bind] at h; cases h
    | some fm =>
      simp only [listedForums] at hf
      simp only [listedOverlay] at ho
      simp only [forumManagementModel.Update, deref, bind, Except.bind, ho, Bool.false_eq_true,
        if_false] at h
      split at h
      · cases h
      rename_i r2 hr2
      cases h
      exact forumManagementModel_updateKeys_overlayOff fm k r2 hf ho hr2
  all_goals
    simp only [forumManagementModel.Update] at h
    cases h
    exact ho

theorem updateView_overlayOff (env : Env) (m : mainModel) (msg : Msg) (out : Out)
    (hmsg : ∀ fs, msg ≠ Msg.forumsLoadedMsg fs) (hf : m.managedForums = [])
    (ho : listedOverlay m.forumManagementModel = false)
    (h : mainModel.updateView env m msg = .ok out) :
    listedOverlay out.model.forumManagementModel = false := by
  cases hcv : m.currentView <;> simp only [mainModel.updateView, hcv, bind, Except.bind] at h
  case mainMenuView =>
    split at h
    · cases h
    rename_i r hr
    cases h
    cases msg <;>
      simp only [mainModel.updateMainMenu, forumsModel.Init, deref, bind, Except.bind] at hr <;>
      repeat' split at hr
    all_goals (cases hr <;> exact ho)
  case forumManagementView =>
    split at h
    · cases h
    rename_i r hr
    split at h
    · cases h
    rename_i n hnav
    cases h
    refine forwardNav_overlayOff env _ _ n ?_ hnav
    exact forumManagementModel_Update_overlayOff _ _ _ hmsg hf ho hr
  case adminView =>
    split at h
    · cases h
    rename_i r hr
    obtain ⟨ret, c⟩ := r
    cases ret with
    | main => cases h; exact ho
    | self s =>
      simp only [] at h
      split at h
      · cases h
      rename_i n hnav
      cases h
      exact forwardNav_overlayOff env _ _ n (by exact ho) hnav
  case forumsView =>
    split at h
    · cases h
    rename_i r hr
    split at h
    · cases h
    rename_i n hnav
    cases h
    refine forwardNav_overlayOff env _ _ n ?_ hnav
    rcases forumsModel_Update_frame _ _ _ _ hr with e | e <;> rw [e] <;> exact ho
  case settingsView =>
    split at h
    · cases h
    rename_i r hr
    obtain ⟨p, ret, c⟩ := r
    cases ret with
    | main => cases h
    | self s =>
      simp only [] at h
      split at h
      · cases h
      rename_i n hnav
      cases h
      refine forwardNav_overlayOff env _ _ n ?_ hnav
      rw [settingsModel_Update_frame _ _ _ _ _ _ hr]
      exact ho
  all_goals
    split at h
    · cases h
    rename_i r hr
    split at h
    · cases h
    rename_i n hnav
    cases h
    exact forwardNav_overlayOff env _ _ n (by exact ho) hnav

theorem Update_overlayOff (env : Env) (m : mainModel) (msg : Msg) (out : Out)
    (hf : m.managedForums = []) (ho : listedOverlay m.forumManagementModel = false)
    (h : mainModel.Update env m msg = .ok out) :
    listedOverlay out.model.forumManagementModel = false := by
  cases msg
  case KeyMsg k => exact updateView_overlayOff env m _ out (by intro fs; simp) hf ho h
  case WindowSizeMsg w ht => exact updateView_overlayOff env m _ out (by intro fs; simp) hf ho h
  case userCreatedMsg => exact updateView_overlayOff env m _ out (by intro fs; simp) hf ho h
  case topicsLoadedMsg ts e =>
    exact updateView_overlayOff env m _ out (by intro fs; simp) hf ho h
  case reloadTopicsMsg => exact updateView_overlayOff env m _ out (by intro fs; simp) hf ho h
  case postsLoadedMsg ps e =>
    exact updateView_overlayOff env m _ out (by intro fs; simp) hf ho h
  case reloadPostsMsg => exact updateView_overlayOff env m _ out (by intro fs; simp) hf ho h
  case widgetMsg t => exact updateView_overlayOff env m _ out (by intro fs; simp) hf ho h
  case forumsLoadedMsg fs =>
    rw [forumsLoadedMsg_skips_forum_management env m fs out h]
    exact ho
  case usersLoadedMsg us =>
    simp only [mainModel.Update, bind, Except.bind] at h
    split at h
    · cases h
    cases h
    exact ho
  case navigateBackMsg =>
    simp only [mainModel.Update, bind, Except.bind] at h
    repeat' split at h
    all_goals (cases h <;> exact ho)
  all_goals (cases h; exact ho)

/-- In every state of a session the confirmation overlay of Forum Management
is not shown: its list is always empty, and the key `d` raises the overlay
only over a non-empty list. -/
theorem reachable_overlayOff (user role : String) (m : mainModel)
    (h : Reachable user role m) : listedOverlay m.forumManagementModel = false := by
  induction h with
  | init => rfl
  | step env msg m out hr hu ih =>
    exact Update_overlayOff env m msg out (reachable_managedForums_empty _ _ _ hr) ih hu

/-- Claim C10: in every state of a session, with Topics (resp. Posts) active
and its confirmation overlay shown, a key that is none of `s`, `S`, `n`, `N`
returns the whole session state unchanged (so the cursor, the list, the
overlay and the navigation requests of the screen are as before), no command
and no store call; the overlay of Forum Management is never shown in a
session, so there no key can meet it. -/
theorem C10_overlay_suppresses_other_keys (user role : String) (env : Env) (m : mainModel)
    (k : KeyMsg) (hr : Reachable user role m)
    (hk : k.String ≠ "s" ∧ k.String ≠ "S" ∧ k.String ≠ "n" ∧ k.String ≠ "N") :
    (∀ tm, m.currentView = view.topicsView → m.topicsModel = some tm →
      tm.confirmingDelete = true →
      mainModel.Update env m (Msg.KeyMsg k) = .ok ⟨m, Cmd.nil, []⟩) ∧
    (∀ pm, m.currentView = view.postsView → m.postsModel = some pm →
      pm.confirmingDelete = true →
      mainModel.Update env m (Msg.KeyMsg k) = .ok ⟨m, Cmd.nil, []⟩) ∧
    (∀ fm, m.forumManagementModel = some fm →
      fm.confirmingDelete = false ∧ fm.forums = []) := by
  have hp := reachable_noPending _ _ _ hr
  refine ⟨fun tm hv ht hc => ?_, fun pm hv ht hc => ?_, fun fm hfm => ?_⟩
  · have hm : { m with currentView := view.topicsView, topicsModel := some tm } = m := by
      rw [← ht, ← hv]
    show mainModel.updateView env m (Msg.KeyMsg k) = _
    simp only [mainModel.updateView, hv, ht, topicsModel_overlay_suppresses_keys m tm k hc hk,
      bind, Except.bind, hm, forwardNav_of_noPending env m Cmd.nil hp]
  · have hm : { m with currentView := view.postsView, postsModel := some pm } = m := by
      rw [← ht, ← hv]
    show mainModel.updateView env m (Msg.KeyMsg k) = _
    simp only [mainModel.updateView, hv, ht, postsModel_overlay_suppresses_keys m pm k hc hk,
      bind, Except.bind, hm, forwardNav_of_noPending env m Cmd.nil hp]
  · have h1 := reachable_overlayOff _ _ _ hr
    have h2 := reachable_managedForums_empty _ _ _ hr
    rw [hfm] at h1
    simp only [mainModel.managedForums, hfm] at h2
    exact ⟨h1, h2⟩

/-- The statement of C10 in the session of the moderator "bia": on Topics and
on Posts with the overlay shown, the key `down` and the key `esc` change
nothing and return no command; and in the session of the admin "root" who
opens Forum Management, gets the loaded forums and presses `d`: the screen has
no forum listed and its overlay is not shown. -/
theorem C10_overlay_witness :
    Reachable "bia" "moderator" moderatorConfirming ∧
    Reachable "bia" "moderator" moderatorPostsConfirming ∧
    mainModel.Update sampleEnv moderatorConfirming (keyOf KeyType.KeyDown) =
      .ok ⟨moderatorConfirming, Cmd.nil, []⟩ ∧
    mainModel.Update sampleEnv moderatorConfirming (keyOf KeyType.KeyEsc) =
      .ok ⟨moderatorConfirming, Cmd.nil, []⟩ ∧
    mainModel.Update sampleEnv moderatorPostsConfirming (keyOf KeyType.KeyEsc) =
      .ok ⟨moderatorPostsConfirming, Cmd.nil, []⟩ ∧
    (∃ m, runMsgs sampleEnv (InitialModel "root" "admin")
        (toForumManagement ++ [Msg.forumsLoadedMsg [forumGeral, forumAjuda], charKey 'd']) =
          some m ∧
      m.currentView = view.forumManagementView ∧
      ∃ fm, m.forumManagementModel = some fm ∧ fm.confirmingDelete = false ∧ fm.forums = []) := by
  have h1 : Reachable "bia" "moderator" moderatorConfirming :=
    runMsgs_reachable _ _ sampleEnv (toTopics ++ [charKey 'd']) _ _ Reachable.init (by decide)
  have h2 : Reachable "bia" "moderator" moderatorPostsConfirming :=
    runMsgs_reachable _ _ sampleEnv toPostsConfirming _ _ Reachable.init (by decide)
  have h3 : ∃ m, runMsgs sampleEnv (InitialModel "root" "admin")
      (toForumManagement ++ [Msg.forumsLoadedMsg [forumGeral, forumAjuda], charKey 'd']) =
        some m ∧
      m.currentView = view.forumManagementView ∧
      m.forumManagementModel = some NewForumManagementModel := by
    decide
  obtain ⟨m, hm, hv, hfm⟩ := h3
  exact ⟨h1, h2,
    (C10_overlay_suppresses_other_keys "bia" "moderator" sampleEnv moderatorConfirming
      (specialKey KeyType.KeyDown) h1 (by decide)).1 _ rfl rfl rfl,
    (C10_overlay_suppresses_other_keys "bia" "moderator" sampleEnv moderatorConfirming
      (specialKey KeyType.KeyEsc) h1 (by decide)).1 _ rfl rfl rfl,
    (C10_overlay_suppresses_other_keys "bia" "moderator" sampleEnv moderatorPostsConfirming
      (specialKey KeyType.KeyEsc) h2 (by decide)).2.1 _ rfl rfl rfl,
    m, hm, hv, NewForumManagementModel, hfm,
    (C10_overlay_suppresses_other_keys "root" "admin" sampleEnv m
      (specialKey KeyType.KeyDown) (runMsgs_reachable _ _ _ _ _ _ Reachable.init hm)
      (by decide)).2.2 _ hfm⟩

/-! ### Enter on User Management after a shorter list -/

/-- Claim C21, the code at the failing input: an admin opens User Management
with two users listed, moves the cursor to the second, leaves the screen and
opens it again; the list loaded this time holds one user. The screen shows
neither the action list nor the role list, its list is not empty and its
cursor is still 1; Enter panics with an index out of range. -/
theorem C21_enter_with_cursor_past_the_end_panics :
    (runMsgs sampleEnv (InitialModel "root" "admin") (toShorterUserList.take 8)).map
        (fun m => (mainModel.Update sampleEnv m (keyOf KeyType.KeyEnter)).map
          fun out => (out.model.currentView, out.cmd)) =
      some (.ok (view.userManagementView, Cmd.userManagementInit)) ∧
    (∃ m, Reachable "root" "admin" m ∧
      runMsgs sampleEnv (InitialModel "root" "admin") toShorterUserList = some m ∧
      m.currentView = view.userManagementView ∧
      m.userManagementModel.map
          (fun u => (u.users, u.cursor, u.isSelectingAction, u.isSelectingRole)) =
        some ([userCaio], 1, false, false)) ∧
    (runMsgs sampleEnv (InitialModel "root" "admin") toShorterUserList).map
        (fun m => mainModel.Update sampleEnv m (keyOf KeyType.KeyEnter)) =
      some (.error "index out of range") := by
  refine ⟨by rfl, ?_, by rfl⟩
  have h : ∃ m, runMsgs sampleEnv (InitialModel "root" "admin") toShorterUserList = some m ∧
      m.currentView = view.userManagementView ∧
      m.userManagementModel.map
          (fun u => (u.users, u.cursor, u.isSelectingAction, u.isSelectingRole)) =
        some ([userCaio], 1, false, false) := by
    decide
  obtain ⟨m, hm, hv, hu⟩ := h
  exact ⟨m, runMsgs_reachable _ _ _ _ _ _ Reachable.init hm, hm, hv, hu⟩

end tui
